import Mathlib

/-!
# AMD64 assembler emitter of libFirm (`ir/be/amd64/amd64_emitter.c`)

A shallow embedding of the emitter.  The emitter writes text into a
line-buffered sink; the sink, the IR accessors and the naming services live in
other translation units, so they appear here either as small models of the
sink or as fields of an environment record `emit_env`.  A fatal error
(`panic`) is an `Except.error` that keeps the sink state reached when the
error was raised.
-/

namespace Amd64

/-! ## Basic types -/

/-- Address of an IR node (`ir_node *`); a nullable pointer is an `Option`. -/
abbrev ir_node := Nat

/-- Address of an entity (`ir_entity *`). -/
abbrev ir_entity := Nat

/-- Address of a type (`ir_type *`). -/
abbrev ir_type := Nat

/-- Address of a mode (`ir_mode *`). -/
abbrev ir_mode := Nat

/-- Integer-coded condition code (`x86_condition_code_t`), a set of bits. -/
abbrev x86_condition_code_t := Nat

/-- Modelled from the spec: the header `x86_cc.h` is not part of the sources at
hand.  The emitter tests this bit with `cc & x86_cc_negated`; it marks a
negated condition. -/
def x86_cc_negated : x86_condition_code_t := 0x01

/-- Modelled from the spec: the header `x86_cc.h` is not part of the sources at
hand.  The emitter tests this bit with `cc & x86_cc_float_parity_cases`; it
marks the unordered float comparisons, which need a parity-flag test. -/
def x86_cc_float_parity_cases : x86_condition_code_t := 0x20

/-- Modelled from the spec: `x86_negate_condition_code` of `x86_cc.h` is not
part of the sources at hand.  The spec gives every condition code a total
negation; a negated code is recognised by its `x86_cc_negated` bit, so negation
toggles that bit and leaves the other bits alone. -/
def x86_negate_condition_code (code : x86_condition_code_t) : x86_condition_code_t :=
  code ^^^ x86_cc_negated

/-- Modelled from the spec: `amd64_insn_mode_t` is declared in
`amd64_nodes_attr.h`, which is not part of the sources at hand.  The four
integer widths, and any other value the enum variable may hold (the `default`
branches of the emitter). -/
inductive amd64_insn_mode_t where
  | INSN_MODE_64
  | INSN_MODE_32
  | INSN_MODE_16
  | INSN_MODE_8
  | INSN_MODE_OTHER (raw : Nat)
  deriving DecidableEq, Repr

/-- Modelled from the spec: `amd64_op_mode_t` is declared in
`amd64_nodes_attr.h`; these are the sixteen enumerators that the switch of
`amd64_emit_am` names. -/
inductive amd64_op_mode_t where
  | AMD64_OP_NONE
  | AMD64_OP_ADDR
  | AMD64_OP_REG
  | AMD64_OP_REG_REG
  | AMD64_OP_REG_IMM
  | AMD64_OP_IMM32
  | AMD64_OP_IMM64
  | AMD64_OP_ADDR_REG
  | AMD64_OP_ADDR_IMM
  | AMD64_OP_UNOP_REG
  | AMD64_OP_UNOP_ADDR
  | AMD64_OP_UNOP_IMM32
  | AMD64_OP_RAX_REG
  | AMD64_OP_RAX_ADDR
  | AMD64_OP_SHIFT_REG
  | AMD64_OP_SHIFT_IMM
  deriving DecidableEq, Repr

/-- Register class of a register (`reg->reg_class`, compared by address with
the entries of `amd64_reg_classes`). -/
inductive arch_register_class_t where
  | CLASS_amd64_gp
  | CLASS_amd64_xmm
  | CLASS_other (n : Nat)
  deriving DecidableEq, Repr

/-- The fields of `arch_register_t` that the emitter reads. -/
structure arch_register_t where
  name : String
  index : Nat
  reg_class : arch_register_class_t
  deriving DecidableEq, Repr

/-- A 32-bit immediate: optional symbol and `int32_t` offset. -/
structure amd64_imm32_t where
  entity : Option ir_entity
  offset : Int
  deriving DecidableEq, Repr

/-- A 64-bit immediate: optional symbol and `int64_t` offset. -/
structure amd64_imm64_t where
  entity : Option ir_entity
  offset : Int
  deriving DecidableEq, Repr

/-- The fields of `amd64_addr_t` that the emitter reads. -/
structure amd64_addr_t where
  immediate : amd64_imm32_t
  base_input : Nat
  index_input : Nat
  log_scale : Nat
  deriving DecidableEq, Repr

/-- Modelled from the spec: `NO_INPUT` is declared in `amd64_nodes_attr.h`; the
reserved `uint8_t` value of an absent base or index input. -/
def NO_INPUT : Nat := 0xFF

/-- Modelled from the spec: `RIP_INPUT` is declared in `amd64_nodes_attr.h`; the
reserved `uint8_t` base value of instruction-pointer-relative addressing. -/
def RIP_INPUT : Nat := 0xFE

/-- Common attribute header. -/
structure amd64_attr_t where
  op_mode : amd64_op_mode_t
  deriving DecidableEq, Repr

/-- Attribute of nodes with an address. -/
structure amd64_addr_attr_t where
  base : amd64_attr_t
  insn_mode : amd64_insn_mode_t
  addr : amd64_addr_t
  deriving DecidableEq, Repr

/-- Attribute of binary operations; the two members of the union `u` are kept
side by side. -/
structure amd64_binop_addr_attr_t where
  base : amd64_addr_attr_t
  u_reg_input : Nat
  u_immediate : amd64_imm32_t
  deriving DecidableEq, Repr

/-- Attribute of `MovImm`. -/
structure amd64_movimm_attr_t where
  base : amd64_attr_t
  insn_mode : amd64_insn_mode_t
  immediate : amd64_imm64_t
  deriving DecidableEq, Repr

/-- Attribute of shifts. -/
structure amd64_shift_attr_t where
  base : amd64_attr_t
  insn_mode : amd64_insn_mode_t
  immediate : Nat
  deriving DecidableEq, Repr

/-- Attribute of nodes with a condition code. -/
structure amd64_cc_attr_t where
  base : amd64_attr_t
  cc : x86_condition_code_t
  deriving DecidableEq, Repr

/-- The stack layout of the function being emitted (`be_stack_layout_t`). -/
structure be_stack_layout_t where
  arg_type : ir_type
  deriving DecidableEq, Repr

/-! ## The output sink -/

/-- Modelled from the spec: the emitter sink (`beemitter`) is not part of the
sources at hand.  The spec describes an append-only, line-buffered text sink:
`cur` is the line being assembled and `lines` the lines already flushed. -/
structure be_emit_state where
  lines : List String
  cur : String
  deriving DecidableEq, Repr

/-- Modelled from the spec: `be_emit_char` appends one character to the current
line. -/
def be_emit_char (st : be_emit_state) (c : Char) : be_emit_state :=
  { st with cur := st.cur ++ String.singleton c }

/-- Modelled from the spec: `be_emit_string` appends a string to the current
line. -/
def be_emit_string (st : be_emit_state) (s : String) : be_emit_state :=
  { st with cur := st.cur ++ s }

/-- Modelled from the spec: `be_emit_cstring` appends a string constant to the
current line. -/
def be_emit_cstring (st : be_emit_state) (s : String) : be_emit_state :=
  be_emit_string st s

/-- Modelled from the spec: `be_emit_string_len` appends the given run of
characters to the current line. -/
def be_emit_string_len (st : be_emit_state) (s : List Char) : be_emit_state :=
  be_emit_string st (String.mk s)

/-- Modelled from the spec: `be_emit_write_line` flushes the current line to the
output and starts an empty one. -/
def be_emit_write_line (st : be_emit_state) : be_emit_state :=
  { lines := st.lines ++ [st.cur], cur := "" }

/-- A fatal error: the message of `panic` and the sink state reached. -/
structure fatal_error where
  msg : String
  st : be_emit_state
  deriving DecidableEq, Repr

/-- Result of an emitter routine that may stop with a fatal error. -/
abbrev emit_result := Except fatal_error be_emit_state

/-- The call `panic(msg)`: emission stops. -/
def emit_fatal (msg : String) (st : be_emit_state) : emit_result :=
  Except.error { msg := msg, st := st }

/-! ## printf conversions used through `be_emit_irprintf` -/

/-- Conversion `%d` (also `PRId32`): signed decimal. -/
def printf_d (v : Int) : String := toString v

/-- Conversion `%+d` (also `"%+" PRId32`, `"%+" PRId64`): signed decimal with an
explicit sign. -/
def printf_plus_d (v : Int) : String :=
  if 0 ≤ v then "+" ++ toString v else toString v

/-- Conversion `%u`: the argument taken as a 32-bit `unsigned`, in decimal. -/
def printf_u (v : Int) : String := toString (v % 2 ^ 32).toNat

/-- Upper-case hexadecimal digits of a natural number. -/
def hex_upper (n : Nat) : String := String.mk ((Nat.toDigits 16 n).map Char.toUpper)

/-- Conversion `%X`: the argument taken as a 32-bit `unsigned`, upper-case hex. -/
def printf_X (v : Int) : String := hex_upper (v % 2 ^ 32).toNat

/-- Conversion `PRIX64`: the argument taken as a `uint64_t`, upper-case hex. -/
def printf_PRIX64 (v : Int) : String := hex_upper (v % 2 ^ 64).toNat

/-! ## The environment: collaborators outside the emitter -/

/-- What the emitter reads from its collaborators: graph accessors, register
allocation results, node attributes, naming services, the verbose flag and the
static `layout`. -/
structure emit_env where
  /-- the generic link field of a node (`get_irn_link`) -/
  get_irn_link : ir_node → Option ir_node
  /-- the block owning a node -/
  get_nodes_block : ir_node → ir_node
  /-- sources of the out edges of a node, in iteration order -/
  out_edges : ir_node → List ir_node
  get_Proj_num : ir_node → Nat
  pn_Cond_true : Nat
  /-- the option `be_options.verbose_asm` -/
  verbose_asm : Bool
  /-- text written by `be_gas_emit_block_name` -/
  be_gas_emit_block_name : Option ir_node → String
  /-- text written by `be_gas_emit_entity` -/
  be_gas_emit_entity : ir_entity → String
  /-- text written by `x86_emit_condition_code` -/
  x86_emit_condition_code : x86_condition_code_t → String
  /-- text with which `be_emit_finish_line_gas` terminates the line of a node -/
  finish_line_text : ir_node → String
  arch_get_irn_register_in : ir_node → Nat → arch_register_t
  arch_get_irn_register_out : ir_node → Nat → arch_register_t
  /-- attribute storage of a node, seen at its largest address-attribute type -/
  get_amd64_binop_addr_attr_const : ir_node → amd64_binop_addr_attr_t
  get_amd64_movimm_attr_const : ir_node → amd64_movimm_attr_t
  get_amd64_shift_attr_const : ir_node → amd64_shift_attr_t
  get_amd64_cc_attr_const : ir_node → amd64_cc_attr_t
  is_amd64_MovImm : ir_node → Bool
  get_entity_owner : ir_entity → ir_type
  is_frame_type : ir_type → Bool
  /-- the static variable `layout` -/
  layout : be_stack_layout_t

/-- The attribute of a node seen as `amd64_addr_attr_t`, the leading part of the
binop attribute. -/
def get_amd64_addr_attr_const (env : emit_env) (node : ir_node) : amd64_addr_attr_t :=
  (env.get_amd64_binop_addr_attr_const node).base

/-- Modelled from the spec: `be_emit_finish_line_gas` is not part of the sources
at hand.  It terminates the current line with the statement terminator (which
in verbose mode carries a comment naming the node) and flushes it. -/
def be_emit_finish_line_gas (env : emit_env) (st : be_emit_state) (node : ir_node) :
    be_emit_state :=
  be_emit_write_line (be_emit_string st (env.finish_line_text node))

/-! ## The emitter -/

/-- Returns the target block for a control flow node. -/
def get_cfop_target_block (env : emit_env) (irn : ir_node) : Option ir_node :=
  env.get_irn_link irn

/-- Writes the integer width suffix of a mnemonic. -/
def amd64_emit_insn_mode_suffix (st : be_emit_state) (mode : amd64_insn_mode_t) : emit_result :=
  match mode with
  | .INSN_MODE_8 => .ok (be_emit_char st 'b')
  | .INSN_MODE_16 => .ok (be_emit_char st 'w')
  | .INSN_MODE_32 => .ok (be_emit_char st 'l')
  | .INSN_MODE_64 => .ok (be_emit_char st 'q')
  | _ => emit_fatal "invalid insn mode" st

/-- Writes the float width suffix of a mnemonic. -/
def amd64_emit_xmm_mode_suffix (st : be_emit_state) (mode : amd64_insn_mode_t) : emit_result :=
  match mode with
  | .INSN_MODE_32 => .ok (be_emit_char st 's')
  | .INSN_MODE_64 => .ok (be_emit_char st 'd')
  | _ => emit_fatal "invalid insn mode" st

/-- Modelled from the spec: the register ordinals `REG_GP_*` come from the
generated header `gen_amd64_regalloc_if.h`, which is not part of the sources at
hand; sixteen distinct ordinals, numbered here in the order of the name
tables. -/
def REG_GP_RAX : Nat := 0
/-- Modelled from the spec: ordinal of `rbx`, see `REG_GP_RAX`. -/
def REG_GP_RBX : Nat := 1
/-- Modelled from the spec: ordinal of `rcx`, see `REG_GP_RAX`. -/
def REG_GP_RCX : Nat := 2
/-- Modelled from the spec: ordinal of `rdx`, see `REG_GP_RAX`. -/
def REG_GP_RDX : Nat := 3
/-- Modelled from the spec: ordinal of `rsp`, see `REG_GP_RAX`. -/
def REG_GP_RSP : Nat := 4
/-- Modelled from the spec: ordinal of `rbp`, see `REG_GP_RAX`. -/
def REG_GP_RBP : Nat := 5
/-- Modelled from the spec: ordinal of `rsi`, see `REG_GP_RAX`. -/
def REG_GP_RSI : Nat := 6
/-- Modelled from the spec: ordinal of `rdi`, see `REG_GP_RAX`. -/
def REG_GP_RDI : Nat := 7
/-- Modelled from the spec: ordinal of `r8`, see `REG_GP_RAX`. -/
def REG_GP_R8 : Nat := 8
/-- Modelled from the spec: ordinal of `r9`, see `REG_GP_RAX`. -/
def REG_GP_R9 : Nat := 9
/-- Modelled from the spec: ordinal of `r10`, see `REG_GP_RAX`. -/
def REG_GP_R10 : Nat := 10
/-- Modelled from the spec: ordinal of `r11`, see `REG_GP_RAX`. -/
def REG_GP_R11 : Nat := 11
/-- Modelled from the spec: ordinal of `r12`, see `REG_GP_RAX`. -/
def REG_GP_R12 : Nat := 12
/-- Modelled from the spec: ordinal of `r13`, see `REG_GP_RAX`. -/
def REG_GP_R13 : Nat := 13
/-- Modelled from the spec: ordinal of `r14`, see `REG_GP_RAX`. -/
def REG_GP_R14 : Nat := 14
/-- Modelled from the spec: ordinal of `r15`, see `REG_GP_RAX`. -/
def REG_GP_R15 : Nat := 15

/-- The 8-bit name of a general-purpose register; `none` is the
`panic("unexpected register number")` after the switch. -/
def get_8bit_name (reg : arch_register_t) : Option String :=
  if reg.index = REG_GP_RAX then some "al"
  else if reg.index = REG_GP_RBX then some "bl"
  else if reg.index = REG_GP_RCX then some "cl"
  else if reg.index = REG_GP_RDX then some "dl"
  else if reg.index = REG_GP_RSP then some "spl"
  else if reg.index = REG_GP_RBP then some "bpl"
  else if reg.index = REG_GP_RSI then some "sil"
  else if reg.index = REG_GP_RDI then some "dil"
  else if reg.index = REG_GP_R8 then some "r8b"
  else if reg.index = REG_GP_R9 then some "r9b"
  else if reg.index = REG_GP_R10 then some "r10b"
  else if reg.index = REG_GP_R11 then some "r11b"
  else if reg.index = REG_GP_R12 then some "r12b"
  else if reg.index = REG_GP_R13 then some "r13b"
  else if reg.index = REG_GP_R14 then some "r14b"
  else if reg.index = REG_GP_R15 then some "r15b"
  else none

/-- The 16-bit name of a general-purpose register; `none` is the
`panic("unexpected register number")` after the switch. -/
def get_16bit_name (reg : arch_register_t) : Option String :=
  if reg.index = REG_GP_RAX then some "ax"
  else if reg.index = REG_GP_RBX then some "bx"
  else if reg.index = REG_GP_RCX then some "cx"
  else if reg.index = REG_GP_RDX then some "dx"
  else if reg.index = REG_GP_RSP then some "sp"
  else if reg.index = REG_GP_RBP then some "bp"
  else if reg.index = REG_GP_RSI then some "si"
  else if reg.index = REG_GP_RDI then some "di"
  else if reg.index = REG_GP_R8 then some "r8w"
  else if reg.index = REG_GP_R9 then some "r9w"
  else if reg.index = REG_GP_R10 then some "r10w"
  else if reg.index = REG_GP_R11 then some "r11w"
  else if reg.index = REG_GP_R12 then some "r12w"
  else if reg.index = REG_GP_R13 then some "r13w"
  else if reg.index = REG_GP_R14 then some "r14w"
  else if reg.index = REG_GP_R15 then some "r15w"
  else none

/-- The 32-bit name of a general-purpose register; `none` is the
`panic("unexpected register number")` after the switch. -/
def get_32bit_name (reg : arch_register_t) : Option String :=
  if reg.index = REG_GP_RAX then some "eax"
  else if reg.index = REG_GP_RBX then some "ebx"
  else if reg.index = REG_GP_RCX then some "ecx"
  else if reg.index = REG_GP_RDX then some "edx"
  else if reg.index = REG_GP_RSP then some "esp"
  else if reg.index = REG_GP_RBP then some "ebp"
  else if reg.index = REG_GP_RSI then some "esi"
  else if reg.index = REG_GP_RDI then some "edi"
  else if reg.index = REG_GP_R8 then some "r8d"
  else if reg.index = REG_GP_R9 then some "r9d"
  else if reg.index = REG_GP_R10 then some "r10d"
  else if reg.index = REG_GP_R11 then some "r11d"
  else if reg.index = REG_GP_R12 then some "r12d"
  else if reg.index = REG_GP_R13 then some "r13d"
  else if reg.index = REG_GP_R14 then some "r14d"
  else if reg.index = REG_GP_R15 then some "r15d"
  else none

/-- Writes a register by its own name. -/
def emit_register (st : be_emit_state) (reg : arch_register_t) : be_emit_state :=
  be_emit_string (be_emit_char st '%') reg.name

/-- Writes a general-purpose register by the name it has at the given width.
The name is resolved, and a fatal error raised, before anything is written. -/
def emit_register_insn_mode (st : be_emit_state) (reg : arch_register_t)
    (mode : amd64_insn_mode_t) : emit_result :=
  let name : Except String String :=
    match mode with
    | .INSN_MODE_8 => (get_8bit_name reg).elim (.error "unexpected register number") .ok
    | .INSN_MODE_16 => (get_16bit_name reg).elim (.error "unexpected register number") .ok
    | .INSN_MODE_32 => (get_32bit_name reg).elim (.error "unexpected register number") .ok
    | .INSN_MODE_64 => .ok reg.name
    | _ => .error "invalid mode"
  match name with
  | .error msg => emit_fatal msg st
  | .ok name => .ok (be_emit_string (be_emit_char st '%') name)

/-- Writes a register: xmm registers by their own name, all others by the name
of the given width. -/
def emit_register_mode (st : be_emit_state) (reg : arch_register_t)
    (insn_mode : amd64_insn_mode_t) : emit_result :=
  if reg.reg_class = .CLASS_amd64_xmm then
    .ok (emit_register st reg)
  else
    emit_register_insn_mode st reg insn_mode

/-- Modifier bit set of a directive (`amd64_emit_mod_t`). -/
abbrev amd64_emit_mod_t := Nat

/-- No modifier. -/
def EMIT_NONE : amd64_emit_mod_t := 0
/-- Modifier `^`. -/
def EMIT_IGNORE_MODE : amd64_emit_mod_t := 1 <<< 1
/-- Modifier `3`. -/
def EMIT_FORCE_32 : amd64_emit_mod_t := 1 <<< 2
/-- Modifier `#`. -/
def EMIT_CONV_DEST : amd64_emit_mod_t := 1 <<< 3
/-- Modifier `*`. -/
def EMIT_INDIRECT_STAR : amd64_emit_mod_t := 1 <<< 4

/-- Writes a 64-bit immediate. -/
def amd64_emit_immediate64 (env : emit_env) (st : be_emit_state) (imm : amd64_imm64_t) :
    be_emit_state :=
  match imm.entity with
  | some entity =>
    let st := be_emit_string st (env.be_gas_emit_entity entity)
    if imm.offset ≠ 0 then be_emit_string st (printf_plus_d imm.offset) else st
  | none => be_emit_string st ("0x" ++ printf_PRIX64 imm.offset)

/-- Writes a 32-bit immediate. -/
def amd64_emit_immediate32 (env : emit_env) (st : be_emit_state) (imm : amd64_imm32_t) :
    be_emit_state :=
  let st :=
    match imm.entity with
    | some entity => be_emit_string st (env.be_gas_emit_entity entity)
    | none => st
  if imm.entity = none ∨ imm.offset ≠ 0 then
    if imm.entity ≠ none then
      be_emit_string st (printf_plus_d imm.offset)
    else
      be_emit_string st (printf_d imm.offset)
  else st

/-- Whether an entity lives in the frame or the argument area of the function
being emitted. -/
def is_fp_relative (env : emit_env) (entity : ir_entity) : Bool :=
  let owner := env.get_entity_owner entity
  env.is_frame_type owner || decide (owner = env.layout.arg_type)

/-- Writes an operand address: symbol, displacement, register term. -/
def amd64_emit_addr (env : emit_env) (st : be_emit_state) (node : ir_node)
    (addr : amd64_addr_t) : be_emit_state :=
  let entity0 := addr.immediate.entity
  -- only emit offset for frame entities
  let entity : Option ir_entity :=
    match entity0 with
    | some e => if is_fp_relative env e then none else some e
    | none => none
  let st :=
    match entity with
    | some e => be_emit_string st (env.be_gas_emit_entity e)
    | none => st
  let offset := addr.immediate.offset
  let base_input := addr.base_input
  let index_input := addr.index_input
  let st :=
    if offset ≠ 0 ∨ (entity = none ∧ base_input = NO_INPUT ∧ index_input = NO_INPUT) then
      if entity ≠ none then
        be_emit_string st (printf_plus_d offset)
      else
        be_emit_string st (printf_d offset)
    else st
  if base_input ≠ NO_INPUT ∨ index_input ≠ NO_INPUT then
    let st := be_emit_char st '('
    let st :=
      if base_input = RIP_INPUT then
        be_emit_cstring st "%rip"
      else if base_input ≠ NO_INPUT then
        emit_register st (env.arch_get_irn_register_in node base_input)
      else st
    let st :=
      if index_input ≠ NO_INPUT then
        let st := be_emit_char st ','
        let st := emit_register st (env.arch_get_irn_register_in node index_input)
        let scale := addr.log_scale
        if scale > 0 then
          be_emit_string st ("," ++ printf_u (1 <<< scale))
        else st
      else st
    be_emit_char st ')'
  else st

/-- Writes the operands of a node according to its operand mode (directive
`%AM`). -/
def amd64_emit_am (env : emit_env) (st : be_emit_state) (node : ir_node)
    (indirect_star : Bool) : emit_result :=
  let attr := get_amd64_addr_attr_const env node
  let binop_attr := env.get_amd64_binop_addr_attr_const node
  match attr.base.op_mode with
  | .AMD64_OP_REG_IMM =>
    let st := be_emit_char st '$'
    let st := amd64_emit_immediate32 env st binop_attr.u_immediate
    let st := be_emit_cstring st ", "
    let reg := env.arch_get_irn_register_in node 0
    emit_register_mode st reg binop_attr.base.insn_mode
  | .AMD64_OP_REG_REG =>
    let reg0 := env.arch_get_irn_register_in node 0
    let reg1 := env.arch_get_irn_register_in node 1
    match emit_register_mode st reg1 attr.insn_mode with
    | .error e => .error e
    | .ok st =>
      let st := be_emit_cstring st ", "
      emit_register_mode st reg0 attr.insn_mode
  | .AMD64_OP_ADDR_REG =>
    let st := amd64_emit_addr env st node attr.addr
    let st := be_emit_cstring st ", "
    let reg := env.arch_get_irn_register_in node binop_attr.u_reg_input
    emit_register_mode st reg binop_attr.base.insn_mode
  | .AMD64_OP_ADDR_IMM => emit_fatal "ADDR_IMM TODO" st
  | .AMD64_OP_ADDR => .ok (amd64_emit_addr env st node attr.addr)
  | .AMD64_OP_UNOP_REG =>
    let st := if indirect_star then be_emit_char st '*' else st
    -- FALLTHROUGH
    let reg := env.arch_get_irn_register_in node 0
    emit_register_mode st reg attr.insn_mode
  | .AMD64_OP_REG =>
    let reg := env.arch_get_irn_register_in node 0
    emit_register_mode st reg attr.insn_mode
  | .AMD64_OP_UNOP_IMM32 => .ok (amd64_emit_immediate32 env st attr.addr.immediate)
  | .AMD64_OP_UNOP_ADDR =>
    let st := if indirect_star then be_emit_char st '*' else st
    .ok (amd64_emit_addr env st node attr.addr)
  | .AMD64_OP_RAX_REG =>
    let reg := env.arch_get_irn_register_in node 1
    emit_register_mode st reg attr.insn_mode
  | .AMD64_OP_RAX_ADDR => .ok (amd64_emit_addr env st node attr.addr)
  | .AMD64_OP_IMM32 => emit_fatal "invalid op_mode" st
  | .AMD64_OP_IMM64 => emit_fatal "invalid op_mode" st
  | .AMD64_OP_NONE => emit_fatal "invalid op_mode" st
  | .AMD64_OP_SHIFT_REG => emit_fatal "invalid op_mode" st
  | .AMD64_OP_SHIFT_IMM => emit_fatal "invalid op_mode" st

/-- The instruction width of a node. -/
def get_amd64_insn_mode (env : emit_env) (node : ir_node) : amd64_insn_mode_t :=
  if env.is_amd64_MovImm node then
    (env.get_amd64_movimm_attr_const node).insn_mode
  else
    (get_amd64_addr_attr_const env node).insn_mode

/-- Writes the operands of a shift (directive `%SO`). -/
def emit_shiftop (env : emit_env) (st : be_emit_state) (node : ir_node) : emit_result :=
  let attr := env.get_amd64_shift_attr_const node
  match attr.base.op_mode with
  | .AMD64_OP_SHIFT_IMM =>
    let st := be_emit_string st ("$0x" ++ printf_X attr.immediate ++ ", ")
    let reg := env.arch_get_irn_register_in node 0
    emit_register_mode st reg attr.insn_mode
  | .AMD64_OP_SHIFT_REG =>
    let reg0 := env.arch_get_irn_register_in node 0
    let reg1 := env.arch_get_irn_register_in node 1
    match emit_register_mode st reg1 .INSN_MODE_8 with
    | .error e => .error e
    | .ok st =>
      let st := be_emit_cstring st ", "
      emit_register_mode st reg0 attr.insn_mode
  | _ => emit_fatal "invalid op_mode for shiftop" st

/-- One variadic argument of `amd64_emitf`. -/
inductive emitf_arg where
  | int (v : Int)
  | unsigned (v : Nat)
  | str (s : String)
  | reg (r : arch_register_t)
  | entity (e : ir_entity)
  deriving DecidableEq, Repr

/-- The inner loop of `amd64_emitf` that collects the modifier characters
following a `%`; returns the modifier set and the rest of the format. -/
def amd64_emitf_mods : List Char → amd64_emit_mod_t → amd64_emit_mod_t × List Char
  | [], mod => (mod, [])
  | c :: fmt, mod =>
    if c = '^' then amd64_emitf_mods fmt (mod ||| EMIT_IGNORE_MODE)
    else if c = '3' then amd64_emitf_mods fmt (mod ||| EMIT_FORCE_32)
    else if c = '#' then amd64_emitf_mods fmt (mod ||| EMIT_CONV_DEST)
    else if c = '*' then amd64_emitf_mods fmt (mod ||| EMIT_INDIRECT_STAR)
    else (mod, c :: fmt)

/-- The code at label `emit_R` of `amd64_emitf`: writes a register under the
active modifiers. -/
def amd64_emitf_emit_R (env : emit_env) (st : be_emit_state) (node : ir_node)
    (mod : amd64_emit_mod_t) (reg : arch_register_t) : emit_result :=
  if mod &&& EMIT_IGNORE_MODE ≠ 0 then
    .ok (emit_register st reg)
  else if mod &&& EMIT_FORCE_32 ≠ 0 then
    emit_register_mode st reg .INSN_MODE_32
  else if mod &&& EMIT_CONV_DEST ≠ 0 then
    let src_mode := get_amd64_insn_mode env node
    let dest_mode : amd64_insn_mode_t :=
      if src_mode = .INSN_MODE_64 then .INSN_MODE_64 else .INSN_MODE_32
    emit_register_mode st reg dest_mode
  else
    let insn_mode := get_amd64_insn_mode env node
    emit_register_mode st reg insn_mode

/-- The main loop of `amd64_emitf` over the rest `fmt` of the format string (the
end of the list is the terminating NUL) and the unread variadic arguments `ap`.
Every round consumes at least one character or leaves the loop, so the first
argument, the number of rounds allowed, is never exhausted when it exceeds the
length of the format. -/
def amd64_emitf_loop (env : emit_env) (node : ir_node) :
    Nat → List Char → List emitf_arg → be_emit_state → emit_result
  | 0, _, _, st => emit_fatal "out of fuel" st
  | fuel + 1, fmt, ap, st =>
    let start := fmt.takeWhile (fun c => c ≠ '%' ∧ c ≠ '\n')
    let fmt := fmt.dropWhile (fun c => c ≠ '%' ∧ c ≠ '\n')
    let st := if start ≠ [] then be_emit_string_len st start else st
    match fmt with
    | [] => .ok st
    | c :: fmt =>
      if c = '\n' then
        let st := be_emit_char st '\n'
        let st := be_emit_write_line st
        let st := be_emit_char st '\t'
        amd64_emitf_loop env node fuel fmt ap st
      else
        let mod := (amd64_emitf_mods fmt EMIT_NONE).1
        let fmt := (amd64_emitf_mods fmt EMIT_NONE).2
        match fmt with
        | [] => emit_fatal "unknown format conversion" st
        | d :: fmt =>
          if d = '%' then
            amd64_emitf_loop env node fuel fmt ap (be_emit_char st '%')
          else if d = 'A' then
            match fmt with
            | 'M' :: fmt =>
              match amd64_emit_am env st node (decide (mod &&& EMIT_INDIRECT_STAR ≠ 0)) with
              | .error e => .error e
              | .ok st => amd64_emitf_loop env node fuel fmt ap st
            | _ =>
              let attr := get_amd64_addr_attr_const env node
              amd64_emitf_loop env node fuel fmt ap (amd64_emit_addr env st node attr.addr)
          else if d = 'C' then
            let attr := env.get_amd64_movimm_attr_const node
            amd64_emitf_loop env node fuel fmt ap (amd64_emit_immediate64 env st attr.immediate)
          else if d = 'D' then
            match fmt with
            | [] => emit_fatal "unknown format conversion" st
            | n :: fmt =>
              if n < '0' ∨ '9' ≤ n then emit_fatal "unknown format conversion" st
              else
                let reg := env.arch_get_irn_register_out node (n.toNat - '0'.toNat)
                match amd64_emitf_emit_R env st node mod reg with
                | .error e => .error e
                | .ok st => amd64_emitf_loop env node fuel fmt ap st
          else if d = 'E' then
            match ap with
            | .entity ent :: ap =>
              amd64_emitf_loop env node fuel fmt ap (be_emit_string st (env.be_gas_emit_entity ent))
            | _ => emit_fatal "va_arg" st
          else if d = 'L' then
            let block := get_cfop_target_block env node
            amd64_emitf_loop env node fuel fmt ap
              (be_emit_string st (env.be_gas_emit_block_name block))
          else if d = 'P' then
            match fmt with
            | 'X' :: fmt =>
              match ap with
              | .int cc :: ap =>
                amd64_emitf_loop env node fuel fmt ap
                  (be_emit_string st (env.x86_emit_condition_code cc.toNat))
              | _ => emit_fatal "va_arg" st
            | _ => emit_fatal "unknown modifier" st
          else if d = 'R' then
            match ap with
            | .reg reg :: ap =>
              match amd64_emitf_emit_R env st node mod reg with
              | .error e => .error e
              | .ok st => amd64_emitf_loop env node fuel fmt ap st
            | _ => emit_fatal "va_arg" st
          else if d = 'S' then
            match fmt with
            | [] => emit_fatal "unknown format conversion" st
            | n :: fmt =>
              if n = 'O' then
                match emit_shiftop env st node with
                | .error e => .error e
                | .ok st => amd64_emitf_loop env node fuel fmt ap st
              else if '0' ≤ n ∧ n ≤ '9' then
                let pos := n.toNat - '0'.toNat
                let reg := env.arch_get_irn_register_in node pos
                match amd64_emitf_emit_R env st node mod reg with
                | .error e => .error e
                | .ok st => amd64_emitf_loop env node fuel fmt ap st
              else emit_fatal "unknown format conversion" st
          else if d = 'M' then
            match fmt with
            | 'S' :: fmt =>
              let attr := env.get_amd64_shift_attr_const node
              match amd64_emit_insn_mode_suffix st attr.insn_mode with
              | .error e => .error e
              | .ok st => amd64_emitf_loop env node fuel fmt ap st
            | 'M' :: fmt =>
              let attr := env.get_amd64_movimm_attr_const node
              match amd64_emit_insn_mode_suffix st attr.insn_mode with
              | .error e => .error e
              | .ok st => amd64_emitf_loop env node fuel fmt ap st
            | 'X' :: fmt =>
              let attr := get_amd64_addr_attr_const env node
              match amd64_emit_xmm_mode_suffix st attr.insn_mode with
              | .error e => .error e
              | .ok st => amd64_emitf_loop env node fuel fmt ap st
            | _ =>
              let attr := get_amd64_addr_attr_const env node
              match amd64_emit_insn_mode_suffix st attr.insn_mode with
              | .error e => .error e
              | .ok st => amd64_emitf_loop env node fuel fmt ap st
          else if d = 'd' then
            match ap with
            | .int num :: ap => amd64_emitf_loop env node fuel fmt ap (be_emit_string st (printf_d num))
            | _ => emit_fatal "va_arg" st
          else if d = 's' then
            match ap with
            | .str str :: ap => amd64_emitf_loop env node fuel fmt ap (be_emit_string st str)
            | _ => emit_fatal "va_arg" st
          else if d = 'u' then
            match ap with
            | .unsigned num :: ap =>
              amd64_emitf_loop env node fuel fmt ap (be_emit_string st (printf_u num))
            | _ => emit_fatal "va_arg" st
          else emit_fatal "unknown format conversion" st

/-- Emits one or more lines for a node from a format string: a tab, the
interpreted format, the line end.  The format is a C string, so it ends at its
first NUL character. -/
def amd64_emitf (env : emit_env) (st : be_emit_state) (node : ir_node) (fmt : String)
    (ap : List emitf_arg) : emit_result :=
  let cstr := fmt.data.takeWhile (fun c => c ≠ Char.ofNat 0)
  let st := be_emit_char st '\t'
  match amd64_emitf_loop env node (cstr.length + 1) cstr ap st with
  | .error e => .error e
  | .ok st => .ok (be_emit_finish_line_gas env st node)

/-- Returns the next block in a block schedule. -/
def sched_next_block (env : emit_env) (block : ir_node) : Option ir_node :=
  env.get_irn_link block

/-- Emit a Jmp. -/
def emit_amd64_Jmp (env : emit_env) (st : be_emit_state) (node : ir_node) : emit_result :=
  let block := env.get_nodes_block node
  let next_block := sched_next_block env block
  if get_cfop_target_block env node ≠ next_block then
    amd64_emitf env st node "jmp %L" []
  else if env.verbose_asm then
    amd64_emitf env st node "/* fallthrough to %L */" []
  else .ok st

/-- The loop of `emit_amd64_Jcc` over the out edges of the node: the last Proj
numbered `pn_Cond_true` becomes `proj_true`, the last other one `proj_false`;
both start as NULL. -/
def Jcc_projs (env : emit_env) (irn : ir_node) : Option ir_node × Option ir_node :=
  (env.out_edges irn).foldl
    (fun (p : Option ir_node × Option ir_node) (proj : ir_node) =>
      if env.get_Proj_num proj = env.pn_Cond_true then (some proj, p.2) else (p.1, some proj))
    (none, none)

/-- Emit a Compare with conditional branch.  The routine reads the link of both
projections without a NULL test: with a projection missing the C code
dereferences a NULL pointer, which is undefined.  Here that case is a fatal
error with the sink untouched; the properties below all assume both
projections. -/
def emit_amd64_Jcc (env : emit_env) (st : be_emit_state) (irn : ir_node) : emit_result :=
  let attr := env.get_amd64_cc_attr_const irn
  let cc := attr.cc
  match Jcc_projs env irn with
  | (some proj_true0, some proj_false0) =>
    let block := env.get_nodes_block irn
    let next_block := sched_next_block env block
    -- exchange both proj's so the second one can be omitted
    let swap : Bool := decide (get_cfop_target_block env proj_true0 = next_block)
    let proj_true := if swap then proj_false0 else proj_true0
    let proj_false := if swap then proj_true0 else proj_false0
    let cc := if swap then x86_negate_condition_code cc else cc
    let parity : emit_result :=
      if cc &&& x86_cc_float_parity_cases ≠ 0 then
        if cc &&& x86_cc_negated ≠ 0 then
          amd64_emitf env st proj_true "jp %L" []
        else
          amd64_emitf env st proj_false "jp %L" []
      else .ok st
    match parity with
    | .error e => .error e
    | .ok st =>
      -- emit the true proj
      match amd64_emitf env st proj_true "j%PX %L" [.int cc] with
      | .error e => .error e
      | .ok st =>
        if get_cfop_target_block env proj_false = next_block then
          if env.verbose_asm then
            amd64_emitf env st proj_false "/* fallthrough to %L */" []
          else .ok st
        else
          amd64_emitf env st proj_false "jmp %L" []
  | _ => emit_fatal "NULL projection" st

/-- Emit a Mov: zero-extending to 64 bits from 8 and 16 bits. -/
def emit_amd64_Mov (env : emit_env) (st : be_emit_state) (node : ir_node) : emit_result :=
  let attr := get_amd64_addr_attr_const env node
  match attr.insn_mode with
  | .INSN_MODE_8 => amd64_emitf env st node "movzbq %AM, %^D0" []
  | .INSN_MODE_16 => amd64_emitf env st node "movzwq %AM, %^D0" []
  | .INSN_MODE_32 => amd64_emitf env st node "movl %AM, %3D0" []
  | .INSN_MODE_64 => amd64_emitf env st node "movq %AM, %^D0" []
  | _ => emit_fatal "invalid insn mode" st

/-! ## Emitters of the remaining nodes and emission of a function -/

/-- The opcodes for which `amd64_register_emitters` registers an emitter of this
file, and all the others. -/
inductive ir_op where
  | op_amd64_Jcc
  | op_amd64_Jmp
  | op_amd64_Mov
  | op_amd64_Return
  | op_amd64_SwitchJmp
  | op_be_Copy
  | op_be_CopyKeep
  | op_be_IncSP
  | op_be_Perm
  | op_other (code : Nat)
  deriving DecidableEq, Repr

/-- Address of a jump table (`ir_switch_table *`). -/
abbrev ir_switch_table := Nat

/-- Attribute of `SwitchJmp`. -/
structure amd64_switch_jmp_attr_t where
  base : amd64_attr_t
  table : ir_switch_table
  table_entity : ir_entity
  deriving DecidableEq, Repr

/-- An emitter callback as the emitter table holds it. -/
abbrev emit_func := emit_env → be_emit_state → ir_node → emit_result

/-- The graph handed to `amd64_emit_function` and the collaborators that only
the emission of whole functions and of the backend nodes needs. -/
structure irg_env where
  get_irg_entity : ir_entity
  be_get_irg_stack_layout : be_stack_layout_t
  /-- the result of `be_create_block_schedule` -/
  be_create_block_schedule : List ir_node
  /-- the blocks in the order in which `irg_block_walk_graph` visits them -/
  blocks : List ir_node
  /-- the control-flow predecessors of a block, by position -/
  get_Block_cfgpreds : ir_node → List ir_node
  /-- the scheduled nodes of a block (`sched_foreach`) -/
  sched : ir_node → List ir_node
  get_irn_op : ir_node → ir_op
  get_irn_mode : ir_node → ir_mode
  mode_is_float : ir_mode → Bool
  mode_is_data : ir_mode → Bool
  be_get_IncSP_offset : ir_node → Int
  get_amd64_switch_jmp_attr_const : ir_node → amd64_switch_jmp_attr_t
  /-- what `be_emit_jump_table` does to the sink, given the node, the table, its
  entity and the callback that resolves the target block of a table entry -/
  be_emit_jump_table :
    be_emit_state → ir_node → ir_switch_table → ir_entity → (ir_node → Option ir_node) →
      be_emit_state
  /-- the emitter table after `amd64_register_spec_emitters` (generated code) -/
  amd64_register_spec_emitters : ir_op → Option emit_func
  be_gas_begin_block : be_emit_state → ir_node → be_emit_state
  be_gas_emit_function_prolog : be_emit_state → ir_entity → be_emit_state
  be_gas_emit_function_epilog : be_emit_state → ir_entity → be_emit_state

/-- Modelled from the spec: `set_irn_link` is not part of the sources at hand;
it stores a value in the generic link field of one node. -/
def set_irn_link (env : emit_env) (node : ir_node) (link : Option ir_node) : emit_env :=
  { env with get_irn_link := fun n => if n = node then link else env.get_irn_link n }

/-- The value of a C `int` expression: the mathematical value wrapped to 32
bits, two's complement. -/
def wrap_int (v : Int) : Int := (v + 2 ^ 31) % 2 ^ 32 - 2 ^ 31

/-- Emit a SwitchJmp: the indirect jump through the table, then the table. -/
def emit_amd64_SwitchJmp (env : emit_env) (g : irg_env) (st : be_emit_state) (node : ir_node) :
    emit_result :=
  let attr := g.get_amd64_switch_jmp_attr_const node
  match amd64_emitf env st node "jmp *%E(,%^S0,8)" [.entity attr.table_entity] with
  | .error e => .error e
  | .ok st =>
    .ok (g.be_emit_jump_table st node attr.table attr.table_entity (get_cfop_target_block env))

/-- Emit copy node. -/
def emit_be_Copy (env : emit_env) (g : irg_env) (st : be_emit_state) (irn : ir_node) :
    emit_result :=
  let mode := g.get_irn_mode irn
  if env.arch_get_irn_register_in irn 0 = env.arch_get_irn_register_out irn 0 then
    -- omitted Copy
    .ok st
  else if g.mode_is_float mode then
    amd64_emitf env st irn "movapd %^S0, %^D0" []
  else if g.mode_is_data mode then
    amd64_emitf env st irn "mov %^S0, %^D0" []
  else
    emit_fatal "move not supported for this mode" st

/-- Emit a Perm of two registers.  The `assert` on the register classes is taken
as in a build with assertions: it stops emission when it fails (with `NDEBUG` it
is compiled out).  The message of the last `panic` is its format text, whose
`%+F` prints the node. -/
def emit_be_Perm (env : emit_env) (st : be_emit_state) (node : ir_node) : emit_result :=
  let reg0 := env.arch_get_irn_register_out node 0
  let reg1 := env.arch_get_irn_register_out node 1
  let cls0 := reg0.reg_class
  if cls0 ≠ reg1.reg_class then
    emit_fatal "Register class mismatch at Perm" st
  else if cls0 = .CLASS_amd64_gp then
    amd64_emitf env st node "xchg %^R, %^R" [.reg reg0, .reg reg1]
  else if cls0 = .CLASS_amd64_xmm then
    match amd64_emitf env st node "pxor %^R, %^R" [.reg reg0, .reg reg1] with
    | .error e => .error e
    | .ok st =>
      match amd64_emitf env st node "pxor %^R, %^R" [.reg reg1, .reg reg0] with
      | .error e => .error e
      | .ok st => amd64_emitf env st node "pxor %^R, %^R" [.reg reg0, .reg reg1]
  else
    emit_fatal "unexpected register class in be_Perm (%+F)" st

/-- Emits code to increase stack pointer. -/
def emit_be_IncSP (env : emit_env) (g : irg_env) (st : be_emit_state) (node : ir_node) :
    emit_result :=
  let offs := g.be_get_IncSP_offset node
  if offs = 0 then
    .ok st
  else if offs > 0 then
    amd64_emitf env st node "subq $%d, %^D0" [.int offs]
  else
    amd64_emitf env st node "addq $%d, %^D0" [.int (wrap_int (-offs))]

/-- Emit a Return. -/
def emit_amd64_Return (env : emit_env) (st : be_emit_state) (node : ir_node) : emit_result :=
  .ok (be_emit_finish_line_gas env (be_emit_cstring st "\tret") node)

/-- Modelled from the spec: `be_set_emitter` is not part of the sources at hand;
it enters a callback for an opcode into the emitter table. -/
def be_set_emitter (table : ir_op → Option emit_func) (op : ir_op) (func : emit_func) :
    ir_op → Option emit_func :=
  fun o => if o = op then some func else table o

/-- Enters the emitter functions for handled nodes into the emitter table: first
the generated ones, then the ones of this file. -/
def amd64_register_emitters (g : irg_env) : ir_op → Option emit_func :=
  -- register all emitter functions defined in spec
  let t := g.amd64_register_spec_emitters
  let t := be_set_emitter t .op_amd64_Jcc emit_amd64_Jcc
  let t := be_set_emitter t .op_amd64_Jmp emit_amd64_Jmp
  let t := be_set_emitter t .op_amd64_Mov emit_amd64_Mov
  let t := be_set_emitter t .op_amd64_Return emit_amd64_Return
  let t := be_set_emitter t .op_amd64_SwitchJmp (fun env st n => emit_amd64_SwitchJmp env g st n)
  let t := be_set_emitter t .op_be_Copy (fun env st n => emit_be_Copy env g st n)
  let t := be_set_emitter t .op_be_CopyKeep (fun env st n => emit_be_Copy env g st n)
  let t := be_set_emitter t .op_be_IncSP (fun env st n => emit_be_IncSP env g st n)
  be_set_emitter t .op_be_Perm emit_be_Perm

/-- Modelled from the spec: `be_emit_node` is not part of the sources at hand;
it calls the emitter registered for the opcode of the node, and an opcode with
no registered emitter is a fatal error. -/
def be_emit_node (env : emit_env) (g : irg_env) (table : ir_op → Option emit_func)
    (st : be_emit_state) (node : ir_node) : emit_result :=
  match table (g.get_irn_op node) with
  | some func => func env st node
  | none => emit_fatal "no emit handler for node" st

/-- Walks over the nodes in a block connected by scheduling edges and emits code
for each node. -/
def amd64_gen_block (env : emit_env) (g : irg_env) (table : ir_op → Option emit_func)
    (st : be_emit_state) (block : ir_node) : emit_result :=
  (g.sched block).foldl
    (fun (r : emit_result) (node : ir_node) =>
      match r with
      | .error e => .error e
      | .ok st => be_emit_node env g table st node)
    (.ok (g.be_gas_begin_block st block))

/-- Sets labels for control flow nodes (jump target): the link of every
control-flow predecessor of the block is set to the block, from the last
predecessor down to the first. -/
def amd64_gen_labels (env : emit_env) (g : irg_env) (block : ir_node) : emit_env :=
  (g.get_Block_cfgpreds block).reverse.foldl (fun env pred => set_irn_link env pred (some block))
    env

/-- The first loop of `amd64_emit_function` over the block schedule: the link of
every block is set to the next block of the schedule, NULL for the last. -/
def amd64_link_blk_sched (env : emit_env) (blk_sched : List ir_node) : emit_env :=
  let n := blk_sched.length
  (List.range n).foldl
    (fun env i =>
      match blk_sched.get? i with
      | some block =>
        let next := if i + 1 < n then blk_sched.get? (i + 1) else none
        set_irn_link env block next
      | none => env)
    env

/-- Emits the code of a function.  The result is the state that the emission
leaves behind (the static `layout` and the link fields) and the sink, or the
fatal error that stopped the emission. -/
def amd64_emit_function (env : emit_env) (g : irg_env) (st : be_emit_state) :
    emit_env × emit_result :=
  let entity := g.get_irg_entity
  let env := { env with layout := g.be_get_irg_stack_layout }
  -- register all emitter functions
  let table := amd64_register_emitters g
  let blk_sched := g.be_create_block_schedule
  let st := g.be_gas_emit_function_prolog st entity
  let env := g.blocks.foldl (fun env block => amd64_gen_labels env g block) env
  let env := amd64_link_blk_sched env blk_sched
  let r := blk_sched.foldl
    (fun (r : emit_result) (block : ir_node) =>
      match r with
      | .error e => .error e
      | .ok st => amd64_gen_block env g table st block)
    (.ok st)
  match r with
  | .error e => (env, .error e)
  | .ok st => (env, .ok (g.be_gas_emit_function_epilog st entity))

/-! ## The reads of `amd64_emitf` in the format buffer -/

/-- What ends a run of `amd64_emitf` over the format buffer, the end of the
format apart: a `panic`, a read behind the terminating NUL of the format
(undefined behaviour in C), or the exhaustion of the rounds allowed. -/
inductive emitf_stop where
  | fatal (e : fatal_error)
  | read_past_terminator
  | out_of_rounds
  deriving DecidableEq, Repr

/-- The read `*fmt` at offset `p` of the format.  The buffer holds the characters
`cstr` of the format and the terminating NUL behind them; nothing behind the NUL
belongs to it. -/
def fmt_read (cstr : List Char) (p : Nat) : Except emitf_stop Char :=
  match (cstr ++ [Char.ofNat 0]).get? p with
  | some c => .ok c
  | none => .error .read_past_terminator

/-- The scan `while (*fmt != '%' && *fmt != '\n' && *fmt != '\0') ++fmt;` from
offset `p`; the result is the offset at which it stops. -/
def amd64_emitf_scan_text (cstr : List Char) : Nat → Nat → Except emitf_stop Nat
  | 0, _ => .error .out_of_rounds
  | k + 1, p =>
    match fmt_read cstr p with
    | .error e => .error e
    | .ok c =>
      if c ≠ '%' ∧ c ≠ '\n' ∧ c ≠ Char.ofNat 0 then amd64_emitf_scan_text cstr k (p + 1)
      else .ok p

/-- The loop over the modifier characters from offset `p`; the result is the
modifier set and the offset of the first character that is no modifier. -/
def amd64_emitf_scan_mods (cstr : List Char) :
    Nat → Nat → amd64_emit_mod_t → Except emitf_stop (amd64_emit_mod_t × Nat)
  | 0, _, _ => .error .out_of_rounds
  | k + 1, p, mod =>
    match fmt_read cstr p with
    | .error e => .error e
    | .ok c =>
      if c = '^' then amd64_emitf_scan_mods cstr k (p + 1) (mod ||| EMIT_IGNORE_MODE)
      else if c = '3' then amd64_emitf_scan_mods cstr k (p + 1) (mod ||| EMIT_FORCE_32)
      else if c = '#' then amd64_emitf_scan_mods cstr k (p + 1) (mod ||| EMIT_CONV_DEST)
      else if c = '*' then amd64_emitf_scan_mods cstr k (p + 1) (mod ||| EMIT_INDIRECT_STAR)
      else .ok (mod, p)

/-- Going on after an emitter that may have stopped with a `panic`. -/
def emitf_after {α : Type} (r : emit_result) (k : be_emit_state → Except emitf_stop α) :
    Except emitf_stop α :=
  match r with
  | .error e => .error (.fatal e)
  | .ok st => k st

/-- The main loop of `amd64_emitf` with the format pointer `fmt` as an offset
into the buffer and every read `*fmt` made through `fmt_read`.  The first
argument is the number of rounds allowed, `start` the offset at the beginning of
the round.  The result on leaving the loop is the sink and the final offset. -/
def amd64_emitf_at (env : emit_env) (node : ir_node) (cstr : List Char) :
    Nat → Nat → List emitf_arg → be_emit_state → Except emitf_stop (be_emit_state × Nat)
  | 0, _, _, _ => .error .out_of_rounds
  | fuel + 1, start, ap, st =>
    match amd64_emitf_scan_text cstr (cstr.length + 1) start with
    | .error e => .error e
    | .ok fmt =>
      let st :=
        if fmt ≠ start then be_emit_string_len st ((cstr.drop start).take (fmt - start)) else st
      match fmt_read cstr fmt with
      | .error e => .error e
      | .ok c =>
        if c = '\n' then
          let st := be_emit_char st '\n'
          let st := be_emit_write_line st
          let st := be_emit_char st '\t'
          amd64_emitf_at env node cstr fuel (fmt + 1) ap st
        else if c = Char.ofNat 0 then .ok (st, fmt)
        else
          match amd64_emitf_scan_mods cstr (cstr.length + 1) (fmt + 1) EMIT_NONE with
          | .error e => .error e
          | .ok (mod, fmt) =>
            -- switch (*fmt++)
            match fmt_read cstr fmt with
            | .error e => .error e
            | .ok d =>
              let fmt := fmt + 1
              if d = '%' then
                amd64_emitf_at env node cstr fuel fmt ap (be_emit_char st '%')
              else if d = 'A' then
                -- switch (*fmt++)
                match fmt_read cstr fmt with
                | .error e => .error e
                | .ok c =>
                  let fmt := fmt + 1
                  if c = 'M' then
                    emitf_after
                      (amd64_emit_am env st node (decide (mod &&& EMIT_INDIRECT_STAR ≠ 0)))
                      (amd64_emitf_at env node cstr fuel fmt ap)
                  else
                    let attr := get_amd64_addr_attr_const env node
                    -- --fmt
                    amd64_emitf_at env node cstr fuel (fmt - 1) ap
                      (amd64_emit_addr env st node attr.addr)
              else if d = 'C' then
                let attr := env.get_amd64_movimm_attr_const node
                amd64_emitf_at env node cstr fuel fmt ap
                  (amd64_emit_immediate64 env st attr.immediate)
              else if d = 'D' then
                match fmt_read cstr fmt with
                | .error e => .error e
                | .ok n =>
                  if n < '0' ∨ '9' ≤ n then
                    .error (.fatal { msg := "unknown format conversion", st := st })
                  else
                    let reg := env.arch_get_irn_register_out node (n.toNat - '0'.toNat)
                    emitf_after (amd64_emitf_emit_R env st node mod reg)
                      (amd64_emitf_at env node cstr fuel (fmt + 1) ap)
              else if d = 'E' then
                match ap with
                | .entity ent :: ap =>
                  amd64_emitf_at env node cstr fuel fmt ap
                    (be_emit_string st (env.be_gas_emit_entity ent))
                | _ => .error (.fatal { msg := "va_arg", st := st })
              else if d = 'L' then
                let block := get_cfop_target_block env node
                amd64_emitf_at env node cstr fuel fmt ap
                  (be_emit_string st (env.be_gas_emit_block_name block))
              else if d = 'P' then
                match fmt_read cstr fmt with
                | .error e => .error e
                | .ok x =>
                  if x = 'X' then
                    match ap with
                    | .int cc :: ap =>
                      amd64_emitf_at env node cstr fuel (fmt + 1) ap
                        (be_emit_string st (env.x86_emit_condition_code cc.toNat))
                    | _ => .error (.fatal { msg := "va_arg", st := st })
                  else .error (.fatal { msg := "unknown modifier", st := st })
              else if d = 'R' then
                match ap with
                | .reg reg :: ap =>
                  emitf_after (amd64_emitf_emit_R env st node mod reg)
                    (amd64_emitf_at env node cstr fuel fmt ap)
                | _ => .error (.fatal { msg := "va_arg", st := st })
              else if d = 'S' then
                match fmt_read cstr fmt with
                | .error e => .error e
                | .ok n =>
                  if n = 'O' then
                    emitf_after (emit_shiftop env st node)
                      (amd64_emitf_at env node cstr fuel (fmt + 1) ap)
                  else if '0' ≤ n ∧ n ≤ '9' then
                    let pos := n.toNat - '0'.toNat
                    let reg := env.arch_get_irn_register_in node pos
                    emitf_after (amd64_emitf_emit_R env st node mod reg)
                      (amd64_emitf_at env node cstr fuel (fmt + 1) ap)
                  else .error (.fatal { msg := "unknown format conversion", st := st })
              else if d = 'M' then
                match fmt_read cstr fmt with
                | .error e => .error e
                | .ok x =>
                  if x = 'S' then
                    let attr := env.get_amd64_shift_attr_const node
                    emitf_after (amd64_emit_insn_mode_suffix st attr.insn_mode)
                      (amd64_emitf_at env node cstr fuel (fmt + 1) ap)
                  else if x = 'M' then
                    let attr := env.get_amd64_movimm_attr_const node
                    emitf_after (amd64_emit_insn_mode_suffix st attr.insn_mode)
                      (amd64_emitf_at env node cstr fuel (fmt + 1) ap)
                  else if x = 'X' then
                    let attr := get_amd64_addr_attr_const env node
                    emitf_after (amd64_emit_xmm_mode_suffix st attr.insn_mode)
                      (amd64_emitf_at env node cstr fuel (fmt + 1) ap)
                  else
                    let attr := get_amd64_addr_attr_const env node
                    emitf_after (amd64_emit_insn_mode_suffix st attr.insn_mode)
                      (amd64_emitf_at env node cstr fuel fmt ap)
              else if d = 'd' then
                match ap with
                | .int num :: ap =>
                  amd64_emitf_at env node cstr fuel fmt ap (be_emit_string st (printf_d num))
                | _ => .error (.fatal { msg := "va_arg", st := st })
              else if d = 's' then
                match ap with
                | .str str :: ap => amd64_emitf_at env node cstr fuel fmt ap (be_emit_string st str)
                | _ => .error (.fatal { msg := "va_arg", st := st })
              else if d = 'u' then
                match ap with
                | .unsigned num :: ap =>
                  amd64_emitf_at env node cstr fuel fmt ap (be_emit_string st (printf_u num))
                | _ => .error (.fatal { msg := "va_arg", st := st })
              else .error (.fatal { msg := "unknown format conversion", st := st })

/-- The function `amd64_emitf` with the reads of the format made explicit: a
tab, the loop over the buffer of the format from offset 0, the line end. -/
def amd64_emitf_reads (env : emit_env) (st : be_emit_state) (node : ir_node) (fmt : String)
    (ap : List emitf_arg) : Except emitf_stop be_emit_state :=
  let cstr := fmt.data.takeWhile (fun c => c ≠ Char.ofNat 0)
  let st := be_emit_char st '\t'
  match amd64_emitf_at env node cstr (cstr.length + 1) 0 ap st with
  | .error e => .error e
  | .ok (st, _) => .ok (be_emit_finish_line_gas env st node)

/-! ## Notions used to state the properties -/

/-- The state after complete lines have been written: the first one completes
the current line, every line is flushed. -/
def emit_lines (st : be_emit_state) : List String → be_emit_state
  | [] => st
  | l :: ls => emit_lines { lines := st.lines ++ [st.cur ++ l], cur := "" } ls

/-- The control-flow lines of the emitter, one constructor per format string:
`jmp %L`, `jp %L`, `j%PX %L` and the fallthrough comment.  The node is the one
handed to `amd64_emitf`, whose link names the target block. -/
inductive cf_line where
  | jmp (proj : ir_node)
  | jp (proj : ir_node)
  | jcc (cc : x86_condition_code_t) (proj : ir_node)
  | fallthrough (proj : ir_node)
  deriving DecidableEq, Repr

/-- The label of the target block of a control-flow node. -/
def target_label (env : emit_env) (proj : ir_node) : String :=
  env.be_gas_emit_block_name (get_cfop_target_block env proj)

/-- The text of a control-flow line: tab, instruction, line end. -/
def cf_line.text (env : emit_env) : cf_line → String
  | .jmp p => "\tjmp " ++ target_label env p ++ env.finish_line_text p
  | .jp p => "\tjp " ++ target_label env p ++ env.finish_line_text p
  | .jcc cc p =>
    "\tj" ++ env.x86_emit_condition_code cc ++ " " ++ target_label env p ++ env.finish_line_text p
  | .fallthrough p =>
    "\t/* fallthrough to " ++ target_label env p ++ " */" ++ env.finish_line_text p

/-- The block that control reaches from the control-flow lines ending a block:
`jmp` transfers, `jp` transfers when the parity flag is set, `j<cc>` transfers
when its condition holds, a comment does nothing, and after the last line
control falls through to the schedule-successor `next`. -/
def cf_run (env : emit_env) (holds : x86_condition_code_t → Bool) (parity_flag : Bool)
    (next : Option ir_node) : List cf_line → Option ir_node
  | [] => next
  | .jmp p :: _ => get_cfop_target_block env p
  | .jp p :: rest =>
    if parity_flag then get_cfop_target_block env p else cf_run env holds parity_flag next rest
  | .jcc cc p :: rest =>
    if holds cc then get_cfop_target_block env p else cf_run env holds parity_flag next rest
  | .fallthrough _ :: rest => cf_run env holds parity_flag next rest

/-- The false arm written by `emit_amd64_Jcc` after the conditional branch. -/
def Jcc_false_arm (env : emit_env) (next : Option ir_node) (proj_false : ir_node) : List cf_line :=
  if get_cfop_target_block env proj_false = next then
    if env.verbose_asm then [.fallthrough proj_false] else []
  else [.jmp proj_false]

/-- The parity test written by `emit_amd64_Jcc` before the conditional branch. -/
def Jcc_parity_test (cc : x86_condition_code_t) (proj_true proj_false : ir_node) : List cf_line :=
  if cc &&& x86_cc_float_parity_cases ≠ 0 then
    [.jp (if cc &&& x86_cc_negated ≠ 0 then proj_true else proj_false)]
  else []

/-- The control-flow lines of a conditional branch with true projection `pt` and
false projection `pf`, as the spec describes them: when the true target is the
schedule-successor the projections are exchanged and the condition negated;
then come the parity test, the conditional branch and the false arm. -/
def Jcc_lines (env : emit_env) (irn pt pf : ir_node) : List cf_line :=
  let cc := (env.get_amd64_cc_attr_const irn).cc
  let next := sched_next_block env (env.get_nodes_block irn)
  if get_cfop_target_block env pt = next then
    Jcc_parity_test (x86_negate_condition_code cc) pf pt
      ++ cf_line.jcc (x86_negate_condition_code cc) pf :: Jcc_false_arm env next pt
  else
    Jcc_parity_test cc pt pf ++ cf_line.jcc cc pt :: Jcc_false_arm env next pf

/-- A small function used to instantiate the theorems.  Blocks 100, 101, 102
are scheduled in this order.  Block 100 holds the conditional branch 10 (true
projection 11 to block 101, false projection 12 to block 102) and the jumps 20
(to block 102) and 21 (to block 101).  Block 101 holds the conditional branches
30 (true projection 31 to block 100, false projection 32 to block 102, a float
condition) and 40 (projections 41 and 42, both to block 100). -/
def env_demo : emit_env where
  get_irn_link := fun n =>
    if n = 100 then some 101 else if n = 101 then some 102
    else if n = 11 then some 101 else if n = 12 then some 102
    else if n = 20 then some 102 else if n = 21 then some 101
    else if n = 31 then some 100 else if n = 32 then some 102
    else if n = 41 then some 100 else if n = 42 then some 100
    else none
  get_nodes_block := fun n => if 30 ≤ n ∧ n < 50 then 101 else 100
  out_edges := fun n =>
    if n = 10 then [11, 12] else if n = 30 then [32, 31] else if n = 40 then [41, 42] else []
  get_Proj_num := fun n => if n = 11 ∨ n = 31 ∨ n = 41 then 1 else 0
  pn_Cond_true := 1
  verbose_asm := false
  be_gas_emit_block_name := fun b =>
    match b with
    | some n => ".L" ++ toString n
    | none => ".L?"
  be_gas_emit_entity := fun e => "sym" ++ toString e
  x86_emit_condition_code := fun cc => if cc = 4 then "e" else if cc = 5 then "ne" else "cc"
  finish_line_text := fun _ => "\n"
  arch_get_irn_register_in := fun _ i =>
    { name := "r" ++ toString i, index := i, reg_class := .CLASS_amd64_gp }
  arch_get_irn_register_out := fun _ i =>
    { name := "r" ++ toString i, index := i, reg_class := .CLASS_amd64_gp }
  get_amd64_binop_addr_attr_const := fun _ =>
    { base := { base := { op_mode := .AMD64_OP_ADDR }, insn_mode := .INSN_MODE_64,
                addr := { immediate := { entity := none, offset := 0 }, base_input := NO_INPUT,
                          index_input := NO_INPUT, log_scale := 0 } },
      u_reg_input := 0, u_immediate := { entity := none, offset := 0 } }
  get_amd64_movimm_attr_const := fun _ =>
    { base := { op_mode := .AMD64_OP_IMM64 }, insn_mode := .INSN_MODE_64,
      immediate := { entity := none, offset := 0 } }
  get_amd64_shift_attr_const := fun _ =>
    { base := { op_mode := .AMD64_OP_SHIFT_IMM }, insn_mode := .INSN_MODE_64, immediate := 1 }
  get_amd64_cc_attr_const := fun n =>
    { base := { op_mode := .AMD64_OP_NONE }, cc := if n = 30 then 0x34 else 0x04 }
  is_amd64_MovImm := fun _ => false
  get_entity_owner := fun e => e
  is_frame_type := fun t => decide (t = 7)
  layout := { arg_type := 8 }

/-- The empty sink. -/
def st_empty : be_emit_state := { lines := [], cur := "" }

/-- The symbol that `amd64_emit_addr` writes: the entity of the address, unless
it is frame-relative and therefore suppressed. -/
def addr_emitted_entity (env : emit_env) (addr : amd64_addr_t) : Option ir_entity :=
  match addr.immediate.entity with
  | some e => if is_fp_relative env e then none else some e
  | none => none

/-- The symbol part of the text of an address. -/
def addr_symbol_text (env : emit_env) (addr : amd64_addr_t) : String :=
  match addr_emitted_entity env addr with
  | some e => env.be_gas_emit_entity e
  | none => ""

/-- The displacement of an address as text: with an explicit sign after a
symbol, a plain signed decimal otherwise. -/
def addr_disp_text (env : emit_env) (addr : amd64_addr_t) : String :=
  if addr_emitted_entity env addr ≠ none then printf_plus_d addr.immediate.offset
  else printf_d addr.immediate.offset

/-- The register term of an address as the spec describes it: nothing without
base and index, otherwise the parenthesised base (`%rip` for the reserved base),
then a comma and the index, then a comma and the scale unless the scale is 1. -/
def addr_reg_term (env : emit_env) (node : ir_node) (addr : amd64_addr_t) : String :=
  if addr.base_input = NO_INPUT ∧ addr.index_input = NO_INPUT then ""
  else
    "("
      ++ (if addr.base_input = RIP_INPUT then "%rip"
          else if addr.base_input = NO_INPUT then ""
          else "%" ++ (env.arch_get_irn_register_in node addr.base_input).name)
      ++ (if addr.index_input = NO_INPUT then ""
          else ",%" ++ (env.arch_get_irn_register_in node addr.index_input).name
            ++ (if addr.log_scale > 0 then "," ++ printf_u (1 <<< addr.log_scale) else ""))
      ++ ")"

/-- The address is written with its displacement: symbol, displacement, register
term. -/
def addr_prints_disp (env : emit_env) (st : be_emit_state) (node : ir_node)
    (addr : amd64_addr_t) : Prop :=
  amd64_emit_addr env st node addr =
    be_emit_string st (addr_symbol_text env addr ++ addr_disp_text env addr
      ++ addr_reg_term env node addr)

/-- The address is written without a displacement: symbol, register term. -/
def addr_omits_disp (env : emit_env) (st : be_emit_state) (node : ir_node)
    (addr : amd64_addr_t) : Prop :=
  amd64_emit_addr env st node addr =
    be_emit_string st (addr_symbol_text env addr ++ addr_reg_term env node addr)

/-- An address of the demo function: a symbol in the frame type (entity 7), no
displacement, no base, no index. -/
def addr_frame_symbol_only : amd64_addr_t :=
  { immediate := { entity := some 7, offset := 0 }, base_input := NO_INPUT,
    index_input := NO_INPUT, log_scale := 0 }

/-- An address of the demo function: entity 7 of the frame type at displacement
16 from the base register in input 0, indexed by input 1 with scale 4. -/
def addr_frame_indexed : amd64_addr_t :=
  { immediate := { entity := some 7, offset := 16 }, base_input := 0,
    index_input := 1, log_scale := 2 }

/-- An address of the demo function: the global entity 3 relative to the
instruction pointer. -/
def addr_global_rip : amd64_addr_t :=
  { immediate := { entity := some 3, offset := 0 }, base_input := RIP_INPUT,
    index_input := NO_INPUT, log_scale := 0 }

/-- The register term of an address in the forms the spec lists: nothing without
base and index, otherwise `(base)`, `(base,index)`, `(base,index,scale)`,
`(,index)` or `(,index,scale)`, where the base is `%rip` for the reserved base
and a register name otherwise, and the scale, the decimal value of
`2 ^ log_scale`, stands after an index when `log_scale > 0`. -/
def addr_reg_term_form (env : emit_env) (node : ir_node) (addr : amd64_addr_t) : String :=
  let base : String :=
    if addr.base_input = RIP_INPUT then "%rip"
    else "%" ++ (env.arch_get_irn_register_in node addr.base_input).name
  let index : String := "%" ++ (env.arch_get_irn_register_in node addr.index_input).name
  let scale : String := toString (2 ^ addr.log_scale)
  if addr.base_input = NO_INPUT ∧ addr.index_input = NO_INPUT then ""
  else if addr.index_input = NO_INPUT then "(" ++ base ++ ")"
  else if addr.base_input = NO_INPUT then
    if addr.log_scale > 0 then "(," ++ index ++ "," ++ scale ++ ")" else "(," ++ index ++ ")"
  else
    if addr.log_scale > 0 then "(" ++ base ++ "," ++ index ++ "," ++ scale ++ ")"
    else "(" ++ base ++ "," ++ index ++ ")"

/-- The symbol and the displacement that `amd64_emit_addr` writes before the
register term. -/
def addr_prefix_text (env : emit_env) (addr : amd64_addr_t) : String :=
  addr_symbol_text env addr
    ++ (if addr.immediate.offset ≠ 0 ∨ (addr_emitted_entity env addr = none
          ∧ addr.base_input = NO_INPUT ∧ addr.index_input = NO_INPUT)
        then addr_disp_text env addr else "")

/-- An address of the demo function: the base register in input 0, no index, and
a scale of 4. -/
def addr_base_scaled : amd64_addr_t :=
  { immediate := { entity := none, offset := 0 }, base_input := 0,
    index_input := NO_INPUT, log_scale := 2 }

/-- An address of the demo function: displacement 8, no base, the index register
in input 1 with scale 8. -/
def addr_index_scaled : amd64_addr_t :=
  { immediate := { entity := none, offset := 8 }, base_input := NO_INPUT,
    index_input := 1, log_scale := 3 }

/-- An address of the demo function: the global entity 3 relative to the
instruction pointer, indexed by input 1. -/
def addr_rip_indexed : amd64_addr_t :=
  { immediate := { entity := some 3, offset := 0 }, base_input := RIP_INPUT,
    index_input := 1, log_scale := 0 }

/-- The value of an upper-case hexadecimal digit (0 for any other character). -/
def hex_digit_value (c : Char) : Nat :=
  if '0' ≤ c ∧ c ≤ '9' then c.toNat - '0'.toNat
  else if 'A' ≤ c ∧ c ≤ 'F' then c.toNat - 'A'.toNat + 10
  else 0

/-- The number that a string of upper-case hexadecimal digits denotes, most
significant digit first. -/
def hex_value (s : List Char) : Nat :=
  s.foldl (fun acc c => acc * 16 + hex_digit_value c) 0

/-- The upper-case hexadecimal digits. -/
def hex_upper_digits : List Char := "0123456789ABCDEF".data

/-- The name tables of the general-purpose registers, one row per ordinal:
ordinal, 8-bit name, 16-bit name, 32-bit name. -/
def gp_register_names : List (Nat × String × String × String) :=
  [ (REG_GP_RAX, "al", "ax", "eax"),
    (REG_GP_RBX, "bl", "bx", "ebx"),
    (REG_GP_RCX, "cl", "cx", "ecx"),
    (REG_GP_RDX, "dl", "dx", "edx"),
    (REG_GP_RSP, "spl", "sp", "esp"),
    (REG_GP_RBP, "bpl", "bp", "ebp"),
    (REG_GP_RSI, "sil", "si", "esi"),
    (REG_GP_RDI, "dil", "di", "edi"),
    (REG_GP_R8, "r8b", "r8w", "r8d"),
    (REG_GP_R9, "r9b", "r9w", "r9d"),
    (REG_GP_R10, "r10b", "r10w", "r10d"),
    (REG_GP_R11, "r11b", "r11w", "r11d"),
    (REG_GP_R12, "r12b", "r12w", "r12d"),
    (REG_GP_R13, "r13b", "r13w", "r13d"),
    (REG_GP_R14, "r14b", "r14w", "r14d"),
    (REG_GP_R15, "r15b", "r15w", "r15d") ]

/-- The sixteen defined ordinals of the general-purpose registers. -/
def gp_ordinals : List Nat := gp_register_names.map (fun row => row.1)

/-- The register `r8` of the general-purpose class. -/
def reg_r8 : arch_register_t :=
  { name := "r8", index := REG_GP_R8, reg_class := .CLASS_amd64_gp }

/-- A register of the general-purpose class with the undefined ordinal 99. -/
def reg_undefined : arch_register_t :=
  { name := "r99", index := 99, reg_class := .CLASS_amd64_gp }

/-- The register `xmm3` of the xmm class. -/
def reg_xmm3 : arch_register_t :=
  { name := "xmm3", index := 3, reg_class := .CLASS_amd64_xmm }

/-- A second small function used to instantiate the theorems: every node is a
`Mov` in register operand mode whose width is chosen by the node number (1: 8
bits, 2: 16 bits, 3: 32 bits, otherwise 64 bits); input 0 of every node is
`%rcx` and output 0 is `%rax`. -/
def env_mov : emit_env :=
  { env_demo with
    arch_get_irn_register_in := fun _ _ =>
      { name := "rcx", index := REG_GP_RCX, reg_class := .CLASS_amd64_gp }
    arch_get_irn_register_out := fun _ _ =>
      { name := "rax", index := REG_GP_RAX, reg_class := .CLASS_amd64_gp }
    get_amd64_binop_addr_attr_const := fun n =>
      { base := { base := { op_mode := .AMD64_OP_REG },
                  insn_mode := if n = 1 then .INSN_MODE_8 else if n = 2 then .INSN_MODE_16
                    else if n = 3 then .INSN_MODE_32 else .INSN_MODE_64,
                  addr := { immediate := { entity := none, offset := 0 }, base_input := NO_INPUT,
                            index_input := NO_INPUT, log_scale := 0 } },
        u_reg_input := 0, u_immediate := { entity := none, offset := 0 } } }

/-- The characters of a format string as C reads it: up to, not including, the
first NUL. -/
def c_string (fmt : String) : List Char :=
  fmt.data.takeWhile (fun c => c ≠ Char.ofNat 0)

/-- Writing literal text the way the spec describes it: every character goes to
the current line, and every newline is followed by a line flush and a fresh
tab. -/
def emit_text (st : be_emit_state) : List Char → be_emit_state
  | [] => st
  | c :: cs =>
    if c = '\n' then
      emit_text (be_emit_char (be_emit_write_line (be_emit_char st '\n')) '\t') cs
    else emit_text (be_emit_char st c) cs

/-- The lines that literal text makes: `cur` is the beginning of the line being
assembled, a newline ends it and starts a new one with a tab, and the last line
ends with the line end `fin`. -/
def text_lines (fin : String) : String → List Char → List String
  | cur, [] => [cur ++ fin]
  | cur, c :: cs =>
    if c = '\n' then (cur ++ "\n") :: text_lines fin "\t" cs
    else text_lines fin (cur ++ String.singleton c) cs

/-- The modifier characters of a directive. -/
def modifier_chars : List Char := ['^', '3', '#', '*']

/-- The characters that `amd64_emitf` recognizes as a directive after `%` and
the modifiers. -/
def directive_chars : List Char :=
  ['%', 'A', 'C', 'D', 'E', 'L', 'P', 'R', 'S', 'M', 'd', 's', 'u']

/-- The modifier set that a sequence of modifier characters denotes. -/
def mods_of (mods : List Char) : amd64_emit_mod_t := (amd64_emitf_mods mods EMIT_NONE).1

/-- Continuing after a step of the emitter that may have failed. -/
def emit_then (r : emit_result) (k : be_emit_state → emit_result) : emit_result :=
  match r with
  | .error e => .error e
  | .ok st => k st

/-- A third small function used to instantiate the theorems: every node is in
operand mode `AMD64_OP_UNOP_REG` at 16 bits, its shift attribute is a shift by
the immediate 31 at 32 bits, input 0 is `%rcx`, output 0 is `%rax`; node 9 is a
`MovImm` of 64 bits. -/
def env_unop : emit_env :=
  { env_mov with
    get_amd64_binop_addr_attr_const := fun _ =>
      { base := { base := { op_mode := .AMD64_OP_UNOP_REG }, insn_mode := .INSN_MODE_16,
                  addr := { immediate := { entity := none, offset := 0 }, base_input := NO_INPUT,
                            index_input := NO_INPUT, log_scale := 0 } },
        u_reg_input := 0, u_immediate := { entity := none, offset := 0 } }
    get_amd64_shift_attr_const := fun _ =>
      { base := { op_mode := .AMD64_OP_SHIFT_IMM }, insn_mode := .INSN_MODE_32, immediate := 31 }
    is_amd64_MovImm := fun n => decide (n = 9) }

/-- The link fields after a sequence of writes `(node, value)`, in order. -/
def links_after (ws : List (ir_node × Option ir_node)) (f : ir_node → Option ir_node) :
    ir_node → Option ir_node :=
  ws.foldl (fun f w => fun n => if n = w.1 then w.2 else f n) f

/-- The writes of `amd64_gen_labels` for one block. -/
def labels_writes (g : irg_env) (block : ir_node) : List (ir_node × Option ir_node) :=
  (g.get_Block_cfgpreds block).reverse.map (fun pred => (pred, some block))

/-- The writes of the loop over the block schedule. -/
def blk_sched_writes (blk_sched : List ir_node) (is : List Nat) :
    List (ir_node × Option ir_node) :=
  is.filterMap (fun i =>
    (blk_sched.get? i).map (fun block =>
      (block, if i + 1 < blk_sched.length then blk_sched.get? (i + 1) else none)))

/-- The state that `amd64_emit_function` establishes before it emits the blocks:
the layout of the graph, the labels of the control-flow nodes, the links of the
block schedule. -/
def emit_function_state (env : emit_env) (g : irg_env) : emit_env :=
  amd64_link_blk_sched
    (g.blocks.foldl (fun env block => amd64_gen_labels env g block)
      { env with layout := g.be_get_irg_stack_layout })
    g.be_create_block_schedule

/-- The demo function before its emission: no link is set.  The `Jmp` 20 lies in
block 100, the `Jcc` 30 and its Projs 31 and 32 lie in block 101, the `Return` 60
lies in block 102. -/
def env_unlinked : emit_env :=
  { env_demo with
    get_irn_link := fun _ => none
    get_nodes_block := fun n =>
      if n = 30 ∨ n = 31 ∨ n = 32 then 101 else if n = 60 then 102 else 100 }

/-- The graph of the demo function: the blocks 100, 101, 102, scheduled in this
order and walked from the last to the first.  Block 100 ends in the `Jmp` 20 to
block 101; block 101 ends in the `Jcc` 30, whose Proj 31 leads back to block 100
and whose Proj 32 leads to block 102; block 102 holds the `Return` 60.  Node 50
is a `SwitchJmp` through the table entity 5. -/
def irg_demo : irg_env where
  get_irg_entity := 1
  be_get_irg_stack_layout := { arg_type := 8 }
  be_create_block_schedule := [100, 101, 102]
  blocks := [102, 101, 100]
  get_Block_cfgpreds := fun b =>
    if b = 100 then [31] else if b = 101 then [20] else if b = 102 then [32] else []
  sched := fun b => if b = 100 then [20] else if b = 101 then [30] else if b = 102 then [60] else []
  get_irn_op := fun n =>
    if n = 20 then .op_amd64_Jmp
    else if n = 30 then .op_amd64_Jcc
    else if n = 50 then .op_amd64_SwitchJmp
    else if n = 60 then .op_amd64_Return
    else .op_other n
  get_irn_mode := fun _ => 0
  mode_is_float := fun _ => false
  mode_is_data := fun _ => true
  be_get_IncSP_offset := fun _ => 16
  get_amd64_switch_jmp_attr_const := fun _ =>
    { base := { op_mode := .AMD64_OP_NONE }, table := 7, table_entity := 5 }
  be_emit_jump_table := fun st _ _ entity _ =>
    be_emit_write_line (be_emit_string st ("\t.table sym" ++ toString entity ++ "\n"))
  amd64_register_spec_emitters := fun _ => none
  be_gas_begin_block := fun st b =>
    be_emit_write_line (be_emit_string st (".L" ++ toString b ++ ":\n"))
  be_gas_emit_function_prolog := fun st e =>
    be_emit_write_line (be_emit_string st ("sym" ++ toString e ++ ":\n"))
  be_gas_emit_function_epilog := fun st e =>
    be_emit_write_line (be_emit_string st ("\t.size sym" ++ toString e ++ "\n"))

/-- The operand modes that `amd64_emit_am` rejects. -/
def am_rejected_modes : List amd64_op_mode_t :=
  [.AMD64_OP_ADDR_IMM, .AMD64_OP_IMM32, .AMD64_OP_IMM64, .AMD64_OP_NONE, .AMD64_OP_SHIFT_REG,
    .AMD64_OP_SHIFT_IMM]

/-- The operand modes in which `amd64_emit_am` writes no register: an address or
an immediate only. -/
def am_register_free_modes : List amd64_op_mode_t :=
  [.AMD64_OP_ADDR, .AMD64_OP_UNOP_ADDR, .AMD64_OP_RAX_ADDR, .AMD64_OP_UNOP_IMM32]

/-- The four integer widths of an instruction. -/
def integer_insn_modes : List amd64_insn_mode_t :=
  [.INSN_MODE_8, .INSN_MODE_16, .INSN_MODE_32, .INSN_MODE_64]

/-- The result of the loop over the character list seen as a result of the loop
over the buffer: the loop is left at the offset `len` of the terminator, and a
`panic` stays a `panic`. -/
def emitf_lift (len : Nat) (r : emit_result) : Except emitf_stop (be_emit_state × Nat) :=
  match r with
  | .error e => .error (.fatal e)
  | .ok st => .ok (st, len)

/-- The result of an emitter seen as the result of a run over the format buffer:
a `panic` stays a `panic`. -/
def emitf_result (r : emit_result) : Except emitf_stop be_emit_state :=
  match r with
  | .error e => .error (.fatal e)
  | .ok st => .ok st

/-- The name under which `emit_register_mode` writes a register at a width: the
own name of an xmm register and of every register at 64 bits, the name of the
table at 8, 16 and 32 bits; `none` where the name does not resolve. -/
def register_text (reg : arch_register_t) (mode : amd64_insn_mode_t) : Option String :=
  if reg.reg_class = .CLASS_amd64_xmm then some reg.name
  else
    match mode with
    | .INSN_MODE_8 => get_8bit_name reg
    | .INSN_MODE_16 => get_16bit_name reg
    | .INSN_MODE_32 => get_32bit_name reg
    | .INSN_MODE_64 => some reg.name
    | .INSN_MODE_OTHER _ => none

/-- A fourth small function used to instantiate the theorems: the function of
moves with every node in operand mode `AMD64_OP_REG_REG` at 32 bits, input 0
`%rcx` and input 1 `%rdx`. -/
def env_binop : emit_env :=
  { env_mov with
    arch_get_irn_register_in := fun _ i =>
      if i = 0 then { name := "rcx", index := REG_GP_RCX, reg_class := .CLASS_amd64_gp }
      else { name := "rdx", index := REG_GP_RDX, reg_class := .CLASS_amd64_gp }
    get_amd64_binop_addr_attr_const := fun _ =>
      { base := { base := { op_mode := .AMD64_OP_REG_REG }, insn_mode := .INSN_MODE_32,
                  addr := { immediate := { entity := none, offset := 0 }, base_input := NO_INPUT,
                            index_input := NO_INPUT, log_scale := 0 } },
        u_reg_input := 0, u_immediate := { entity := none, offset := 0 } } }

/-- The contents of the registers. -/
abbrev reg_file := arch_register_t → Nat

/-- The reading of `pxor src, dst` that the exchange of a Perm relies on:
destination := destination XOR source. -/
def pxor_exec (regs : reg_file) (ops : arch_register_t × arch_register_t) : reg_file :=
  fun r => if r = ops.2 then regs ops.2 ^^^ regs ops.1 else regs r

/-- The line `pxor src, dst` of a node, source first. -/
def pxor_line (env : emit_env) (node : ir_node) (ops : arch_register_t × arch_register_t) :
    String :=
  "\tpxor %" ++ ops.1.name ++ ", %" ++ ops.2.name ++ env.finish_line_text node

/-- The three `pxor` of a Perm of `r0` and `r1`, as pairs (source, destination). -/
def perm_pxor_seq (r0 r1 : arch_register_t) : List (arch_register_t × arch_register_t) :=
  [(r0, r1), (r1, r0), (r0, r1)]

/-- The function of moves with the outputs 0 and 1 of every node in the xmm
registers `xmm0` and `xmm1`. -/
def env_perm_xmm : emit_env :=
  { env_mov with
    arch_get_irn_register_out := fun _ i =>
      if i = 0 then { name := "xmm0", index := 0, reg_class := .CLASS_amd64_xmm }
      else { name := "xmm1", index := 1, reg_class := .CLASS_amd64_xmm } }

/-- The demo graph with the stack pointer of every `IncSP` moved by the most
negative `int`. -/
def irg_incsp_min : irg_env :=
  { irg_demo with be_get_IncSP_offset := fun _ => -2147483648 }

/-! ## Lemmas on the sink and on the formats of the control-flow emitters -/

theorem emit_lines_append (st : be_emit_state) (a b : List String) :
    emit_lines (emit_lines st a) b = emit_lines st (a ++ b) := by
  induction a generalizing st with
  | nil => rfl
  | cons l ls ih => simp [emit_lines, ih]

theorem emit_lines_lines (st : be_emit_state) (l : String) (ls : List String) :
    (emit_lines st (l :: ls)).lines = st.lines ++ (st.cur ++ l) :: ls := by
  induction ls generalizing st l with
  | nil => simp [emit_lines]
  | cons m ms ih =>
    rw [emit_lines, ih]
    simp

theorem emit_lines_ne_self (st : be_emit_state) (l : String) (ls : List String) :
    st ≠ emit_lines st (l :: ls) := by
  intro h
  have hlen := congrArg (fun s => s.lines.length) h
  simp [emit_lines_lines] at hlen

theorem amd64_emitf_jmp (env : emit_env) (st : be_emit_state) (p : ir_node) :
    amd64_emitf env st p "jmp %L" [] = .ok (emit_lines st [(cf_line.jmp p).text env]) := by
  simp [amd64_emitf, amd64_emitf_loop, amd64_emitf_mods, be_emit_char, be_emit_string,
    be_emit_string_len, be_emit_finish_line_gas, be_emit_write_line, get_cfop_target_block,
    emit_lines, cf_line.text, target_label, String.ext_iff]

theorem amd64_emitf_jp (env : emit_env) (st : be_emit_state) (p : ir_node) :
    amd64_emitf env st p "jp %L" [] = .ok (emit_lines st [(cf_line.jp p).text env]) := by
  simp [amd64_emitf, amd64_emitf_loop, amd64_emitf_mods, be_emit_char, be_emit_string,
    be_emit_string_len, be_emit_finish_line_gas, be_emit_write_line, get_cfop_target_block,
    emit_lines, cf_line.text, target_label, String.ext_iff]

theorem amd64_emitf_jcc (env : emit_env) (st : be_emit_state) (p : ir_node)
    (cc : x86_condition_code_t) :
    amd64_emitf env st p "j%PX %L" [.int cc] = .ok (emit_lines st [(cf_line.jcc cc p).text env]) := by
  simp [amd64_emitf, amd64_emitf_loop, amd64_emitf_mods, be_emit_char, be_emit_string,
    be_emit_string_len, be_emit_finish_line_gas, be_emit_write_line, get_cfop_target_block,
    emit_lines, cf_line.text, target_label, String.ext_iff]

theorem amd64_emitf_fallthrough (env : emit_env) (st : be_emit_state) (p : ir_node) :
    amd64_emitf env st p "/* fallthrough to %L */" [] =
      .ok (emit_lines st [(cf_line.fallthrough p).text env]) := by
  simp [amd64_emitf, amd64_emitf_loop, amd64_emitf_mods, be_emit_char, be_emit_string,
    be_emit_string_len, be_emit_finish_line_gas, be_emit_write_line, get_cfop_target_block,
    emit_lines, cf_line.text, target_label, String.ext_iff]

/-- The lines `emit_amd64_Jcc` writes for a node with both projections. -/
theorem emit_amd64_Jcc_lines (env : emit_env) (st : be_emit_state) (irn pt pf : ir_node)
    (hp : Jcc_projs env irn = (some pt, some pf)) :
    emit_amd64_Jcc env st irn =
      .ok (emit_lines st (List.map (cf_line.text env) (Jcc_lines env irn pt pf))) := by
  unfold emit_amd64_Jcc Jcc_lines
  rw [hp]
  simp only [amd64_emitf_jmp, amd64_emitf_jp, amd64_emitf_jcc, amd64_emitf_fallthrough,
    Jcc_parity_test, Jcc_false_arm]
  by_cases hs : get_cfop_target_block env pt = sched_next_block env (env.get_nodes_block irn)
  · simp only [hs, decide_True, if_true]
    split_ifs <;> simp [emit_lines_append, emit_lines]
  · simp only [hs, decide_False, if_false, Bool.false_eq_true]
    split_ifs <;> simp [emit_lines_append, emit_lines]

theorem negate_float_parity_cases (cc : x86_condition_code_t) :
    x86_negate_condition_code cc &&& x86_cc_float_parity_cases = cc &&& x86_cc_float_parity_cases := by
  unfold x86_negate_condition_code
  rw [Nat.and_xor_distrib_right]
  have h : x86_cc_negated &&& x86_cc_float_parity_cases = 0 := by decide
  rw [h, Nat.xor_zero]

/-! ## Unconditional jumps -/

/-- C1: `emit_amd64_Jmp` writes the line `jmp <label of the target>` exactly when
the target block of the node is not the schedule-successor of its block; when it
is the schedule-successor and verbose mode is off, the sink is left unchanged. -/
theorem emit_amd64_Jmp_jmp_iff (env : emit_env) (st : be_emit_state) (node : ir_node) :
    (emit_amd64_Jmp env st node = .ok (emit_lines st [(cf_line.jmp node).text env]) ↔
        get_cfop_target_block env node ≠ sched_next_block env (env.get_nodes_block node)) ∧
      (get_cfop_target_block env node = sched_next_block env (env.get_nodes_block node) →
        env.verbose_asm = false → emit_amd64_Jmp env st node = .ok st) := by
  unfold emit_amd64_Jmp
  simp only [amd64_emitf_jmp, amd64_emitf_fallthrough]
  by_cases hT : get_cfop_target_block env node = sched_next_block env (env.get_nodes_block node)
  · cases hv : env.verbose_asm
    · simpa [hT] using emit_lines_ne_self st _ []
    · simp [hT, emit_lines, cf_line.text, String.ext_iff]
  · simp [hT]

/-- Witness of C1 on the demo function: jump 20 leaves for block 102 and is
written, jump 21 leaves for the next block 101 and nothing is written. -/
theorem emit_amd64_Jmp_jmp_iff_witness :
    emit_amd64_Jmp env_demo st_empty 20 = .ok (emit_lines st_empty [(cf_line.jmp 20).text env_demo]) ∧
      emit_amd64_Jmp env_demo st_empty 21 = .ok st_empty :=
  ⟨(emit_amd64_Jmp_jmp_iff env_demo st_empty 20).1.2 (by decide),
   (emit_amd64_Jmp_jmp_iff env_demo st_empty 21).2 (by decide) rfl⟩

/-! ## Conditional branches -/

/-- C2: when the true target of a Jcc is the schedule-successor of its block,
`emit_amd64_Jcc` writes the conditional branch with the mnemonic of the negated
condition and the label of the false target; apart from the parity test before
it and the verbose-mode comment after it nothing else is written, so no `jmp`
line is written for the fallthrough arm. -/
theorem emit_amd64_Jcc_true_is_next (env : emit_env) (st : be_emit_state) (irn pt pf : ir_node)
    (hp : Jcc_projs env irn = (some pt, some pf))
    (hT : get_cfop_target_block env pt = sched_next_block env (env.get_nodes_block irn)) :
    emit_amd64_Jcc env st irn =
      .ok (emit_lines st (List.map (cf_line.text env)
        (Jcc_parity_test (x86_negate_condition_code (env.get_amd64_cc_attr_const irn).cc) pf pt
          ++ [cf_line.jcc (x86_negate_condition_code (env.get_amd64_cc_attr_const irn).cc) pf]
          ++ (if env.verbose_asm then [cf_line.fallthrough pt] else [])))) := by
  rw [emit_amd64_Jcc_lines env st irn pt pf hp]
  simp [Jcc_lines, Jcc_false_arm, hT]

/-- Witness of C2 on the demo function: branch 10 on `equal` has its true target
101 next in the schedule; the line written is `jne .L102`. -/
theorem emit_amd64_Jcc_true_is_next_witness :
    emit_amd64_Jcc env_demo st_empty 10 = .ok { lines := ["\tjne .L102\n"], cur := "" } :=
  (emit_amd64_Jcc_true_is_next env_demo st_empty 10 11 12 (by decide) (by decide)).trans
    (congrArg Except.ok (by decide))

/-- C3: with the true target next in the schedule and verbose mode off, the output
of `emit_amd64_Jcc` is at most one `jp` line, present only if the negated
condition has a float-parity bit, followed by exactly one conditional branch
with the negated condition to the false target, and nothing else: no `jmp` to
the true target. -/
theorem emit_amd64_Jcc_two_block_scenario (env : emit_env) (st : be_emit_state)
    (irn pt pf : ir_node)
    (hp : Jcc_projs env irn = (some pt, some pf))
    (hT : get_cfop_target_block env pt = sched_next_block env (env.get_nodes_block irn))
    (hv : env.verbose_asm = false) :
    emit_amd64_Jcc env st irn =
      .ok (emit_lines st (List.map (cf_line.text env)
        ((if x86_negate_condition_code (env.get_amd64_cc_attr_const irn).cc
              &&& x86_cc_float_parity_cases ≠ 0 then
            [cf_line.jp
              (if x86_negate_condition_code (env.get_amd64_cc_attr_const irn).cc
                  &&& x86_cc_negated ≠ 0 then pf else pt)]
          else [])
          ++ [cf_line.jcc (x86_negate_condition_code (env.get_amd64_cc_attr_const irn).cc) pf]))) := by
  rw [emit_amd64_Jcc_lines env st irn pt pf hp]
  simp [Jcc_lines, Jcc_false_arm, Jcc_parity_test, hT, hv]

/-- Witness of C3 on the demo function (verbose mode is off there): branch 10 in
block 100 with true target 101, the next block, and false target 102. -/
theorem emit_amd64_Jcc_two_block_scenario_witness :
    emit_amd64_Jcc env_demo st_empty 10 = .ok (emit_lines st_empty ["\tjne .L102\n"]) :=
  (emit_amd64_Jcc_two_block_scenario env_demo st_empty 10 11 12 (by decide) (by decide) rfl).trans
    (congrArg Except.ok (by decide))

/-- C4: when the true target of a Jcc is not the schedule-successor,
`emit_amd64_Jcc` writes (after the parity test) the conditional branch with the
original condition and the label of the true target, and after it the line
`jmp <label of the false target>` exactly when the false target is not the
schedule-successor; otherwise only the verbose-mode comment follows. -/
theorem emit_amd64_Jcc_true_not_next (env : emit_env) (st : be_emit_state) (irn pt pf : ir_node)
    (hp : Jcc_projs env irn = (some pt, some pf))
    (hT : get_cfop_target_block env pt ≠ sched_next_block env (env.get_nodes_block irn)) :
    emit_amd64_Jcc env st irn =
      .ok (emit_lines st (List.map (cf_line.text env)
        (Jcc_parity_test (env.get_amd64_cc_attr_const irn).cc pt pf
          ++ [cf_line.jcc (env.get_amd64_cc_attr_const irn).cc pt]
          ++ (if get_cfop_target_block env pf ≠ sched_next_block env (env.get_nodes_block irn)
              then [cf_line.jmp pf]
              else if env.verbose_asm then [cf_line.fallthrough pf] else [])))) := by
  rw [emit_amd64_Jcc_lines env st irn pt pf hp]
  by_cases hF : get_cfop_target_block env pf = sched_next_block env (env.get_nodes_block irn)
  · simp [Jcc_lines, Jcc_false_arm, hT, hF]
  · simp [Jcc_lines, Jcc_false_arm, hT, hF]

/-- Witness of C4 on the demo function: branch 40 in block 101 has both targets
at block 100, which is not the next block 102, so a `jmp` follows the branch. -/
theorem emit_amd64_Jcc_true_not_next_witness :
    emit_amd64_Jcc env_demo st_empty 40 =
      .ok { lines := ["\tje .L100\n", "\tjmp .L100\n"], cur := "" } :=
  (emit_amd64_Jcc_true_not_next env_demo st_empty 40 41 42 (by decide) (by decide)).trans
    (congrArg Except.ok (by decide))

/-- C5: `emit_amd64_Jcc` writes a `jp` line exactly when the condition, negated
if the projections were exchanged, has a bit of `x86_cc_float_parity_cases`; the
line stands before the conditional branch and goes to the true projection (after
the exchange) when the condition has the `x86_cc_negated` bit and to the false
projection otherwise.  The lines after the conditional branch contain no `jp`. -/
theorem emit_amd64_Jcc_parity_test (env : emit_env) (st : be_emit_state) (irn pt pf : ir_node)
    (hp : Jcc_projs env irn = (some pt, some pf)) :
    ∃ (cc : x86_condition_code_t) (proj_true proj_false : ir_node) (arm : List cf_line),
      (cc, proj_true, proj_false) =
          (if get_cfop_target_block env pt = sched_next_block env (env.get_nodes_block irn)
            then (x86_negate_condition_code (env.get_amd64_cc_attr_const irn).cc, pf, pt)
            else ((env.get_amd64_cc_attr_const irn).cc, pt, pf)) ∧
        (∀ p, cf_line.jp p ∉ arm) ∧
        emit_amd64_Jcc env st irn =
          .ok (emit_lines st (List.map (cf_line.text env)
            ((if cc &&& x86_cc_float_parity_cases ≠ 0 then
                [cf_line.jp (if cc &&& x86_cc_negated ≠ 0 then proj_true else proj_false)]
              else [])
              ++ cf_line.jcc cc proj_true :: arm))) := by
  rw [emit_amd64_Jcc_lines env st irn pt pf hp]
  by_cases hT : get_cfop_target_block env pt = sched_next_block env (env.get_nodes_block irn)
  · refine ⟨_, _, _, Jcc_false_arm env (sched_next_block env (env.get_nodes_block irn)) pt,
      by rw [if_pos hT], ?_, ?_⟩
    · intro p
      unfold Jcc_false_arm
      split_ifs <;> simp
    · simp [Jcc_lines, Jcc_parity_test, hT]
  · refine ⟨_, _, _, Jcc_false_arm env (sched_next_block env (env.get_nodes_block irn)) pf,
      by rw [if_neg hT], ?_, ?_⟩
    · intro p
      unfold Jcc_false_arm
      split_ifs <;> simp
    · simp [Jcc_lines, Jcc_parity_test, hT]

/-- Witness of C5 on the demo function: branch 30 tests the float condition 0x34
(parity bit set, not negated) and its true target is not the next block, so
`jp` goes to the false projection 32, whose target is block 102. -/
theorem emit_amd64_Jcc_parity_test_witness :
    ∃ (cc : x86_condition_code_t) (proj_true proj_false : ir_node) (arm : List cf_line),
      (cc, proj_true, proj_false) = (0x34, 31, 32) ∧
        (∀ p, cf_line.jp p ∉ arm) ∧
        emit_amd64_Jcc env_demo st_empty 30 =
          .ok (emit_lines st_empty (List.map (cf_line.text env_demo)
            ((if cc &&& x86_cc_float_parity_cases ≠ 0 then
                [cf_line.jp (if cc &&& x86_cc_negated ≠ 0 then proj_true else proj_false)]
              else [])
              ++ cf_line.jcc cc proj_true :: arm))) :=
  emit_amd64_Jcc_parity_test env_demo st_empty 30 31 32 (by decide)

/-- C6: negating a condition code twice gives the code back. -/
theorem x86_negate_condition_code_involutive (cc : x86_condition_code_t) :
    x86_negate_condition_code (x86_negate_condition_code cc) = cc := by
  unfold x86_negate_condition_code
  rw [Nat.xor_assoc, Nat.xor_self, Nat.xor_zero]

/-- C7: for a condition outside the float-parity subset, if the negated condition
holds exactly when the condition does not, then running the lines that
`emit_amd64_Jcc` writes (conditional branch, then jump or fall through to the
schedule-successor) reaches the true target when the condition holds and the
false target when it does not. -/
theorem emit_amd64_Jcc_preserves_control (env : emit_env) (st : be_emit_state)
    (irn pt pf : ir_node) (holds : x86_condition_code_t → Bool) (parity_flag : Bool)
    (hp : Jcc_projs env irn = (some pt, some pf))
    (hC : (env.get_amd64_cc_attr_const irn).cc &&& x86_cc_float_parity_cases = 0)
    (hneg : holds (x86_negate_condition_code (env.get_amd64_cc_attr_const irn).cc)
      = !holds (env.get_amd64_cc_attr_const irn).cc) :
    emit_amd64_Jcc env st irn =
        .ok (emit_lines st (List.map (cf_line.text env) (Jcc_lines env irn pt pf))) ∧
      cf_run env holds parity_flag (sched_next_block env (env.get_nodes_block irn))
          (Jcc_lines env irn pt pf) =
        (if holds (env.get_amd64_cc_attr_const irn).cc then get_cfop_target_block env pt
          else get_cfop_target_block env pf) := by
  refine ⟨emit_amd64_Jcc_lines env st irn pt pf hp, ?_⟩
  have hC' := negate_float_parity_cases (env.get_amd64_cc_attr_const irn).cc
  rw [hC] at hC'
  unfold Jcc_lines
  by_cases hT : get_cfop_target_block env pt = sched_next_block env (env.get_nodes_block irn)
  · simp only [hT, if_true, Jcc_parity_test, hC', ne_eq, not_true_eq_false, if_false,
      List.nil_append, cf_run, hneg, Jcc_false_arm]
    cases holds (env.get_amd64_cc_attr_const irn).cc <;> cases env.verbose_asm <;> simp [cf_run]
  · simp only [hT, if_false, Jcc_parity_test, hC, ne_eq, not_true_eq_false,
      List.nil_append, cf_run, Jcc_false_arm]
    by_cases hF : get_cfop_target_block env pf = sched_next_block env (env.get_nodes_block irn)
    · cases holds (env.get_amd64_cc_attr_const irn).cc <;> cases env.verbose_asm <;>
        simp [cf_run, hF]
    · cases holds (env.get_amd64_cc_attr_const irn).cc <;> simp [cf_run, hF]

/-- Witness of C7 on the demo function: branch 10 on `equal` (code 4), read by
the flag state in which exactly the codes without the negated bit hold. -/
theorem emit_amd64_Jcc_preserves_control_witness :
    emit_amd64_Jcc env_demo st_empty 10 =
        .ok (emit_lines st_empty (List.map (cf_line.text env_demo) (Jcc_lines env_demo 10 11 12))) ∧
      cf_run env_demo (fun cc => decide (cc &&& x86_cc_negated = 0)) false
          (sched_next_block env_demo (env_demo.get_nodes_block 10)) (Jcc_lines env_demo 10 11 12) =
        some 101 :=
  emit_amd64_Jcc_preserves_control env_demo st_empty 10 11 12
    (fun cc => decide (cc &&& x86_cc_negated = 0)) false (by decide) (by decide) (by decide)

/-! ## Decimal conversions -/

theorem toDigitsCore_ne_nil (b : Nat) : ∀ (fuel n : Nat) (ds : List Char),
    ds ≠ [] → Nat.toDigitsCore b fuel n ds ≠ []
  | 0, _, ds, h => by simpa [Nat.toDigitsCore] using h
  | fuel + 1, n, ds, _ => by
    unfold Nat.toDigitsCore
    simp only
    split_ifs
    · simp
    · exact toDigitsCore_ne_nil b fuel _ _ (by simp)

theorem toDigits_ne_nil (b n : Nat) : Nat.toDigits b n ≠ [] := by
  unfold Nat.toDigits Nat.toDigitsCore
  simp only
  split_ifs
  · simp
  · exact toDigitsCore_ne_nil b n _ _ (by simp)

theorem digitChar_ne_plus (n : Nat) : Nat.digitChar n ≠ '+' := by
  by_cases h : n < 16
  · interval_cases n <;> decide
  · obtain ⟨k, rfl⟩ : ∃ k, n = k + 16 := ⟨n - 16, by omega⟩
    have hk : Nat.digitChar (k + 16) = '*' := rfl
    rw [hk]
    decide

theorem toDigitsCore_no_plus (b : Nat) : ∀ (fuel n : Nat) (ds : List Char),
    '+' ∉ ds → '+' ∉ Nat.toDigitsCore b fuel n ds
  | 0, _, ds, h => by simpa [Nat.toDigitsCore] using h
  | fuel + 1, n, ds, h => by
    have hd : '+' ∉ Nat.digitChar (n % b) :: ds := by
      simp only [List.mem_cons, not_or]
      exact ⟨fun e => digitChar_ne_plus _ e.symm, h⟩
    unfold Nat.toDigitsCore
    simp only
    split_ifs
    · exact hd
    · exact toDigitsCore_no_plus b fuel _ _ hd

theorem printf_d_ne_empty (v : Int) : printf_d v ≠ "" := by
  unfold printf_d
  cases v with
  | ofNat m =>
    intro h
    have hd := congrArg String.data h
    exact toDigits_ne_nil 10 m hd
  | negSucc m =>
    intro h
    have hd := congrArg String.data h
    have : (toString (Int.negSucc m)).data = '-' :: (toString (m + 1)).data := rfl
    rw [this] at hd
    simp at hd

theorem printf_d_no_plus (v : Int) : '+' ∉ (printf_d v).data := by
  unfold printf_d
  cases v with
  | ofNat m =>
    show '+' ∉ Nat.toDigits 10 m
    exact toDigitsCore_no_plus 10 _ _ _ (by simp)
  | negSucc m =>
    have : (toString (Int.negSucc m)).data = '-' :: Nat.toDigits 10 (m + 1) := rfl
    rw [this]
    simp only [List.mem_cons, not_or]
    exact ⟨by decide, toDigitsCore_no_plus 10 _ _ _ (by simp)⟩

theorem printf_plus_d_ne_empty (v : Int) : printf_plus_d v ≠ "" := by
  unfold printf_plus_d
  split_ifs
  · intro h
    have hd := congrArg String.data h
    simp at hd
  · exact printf_d_ne_empty v

/-! ## Operand addresses -/

theorem RIP_INPUT_ne_NO_INPUT : RIP_INPUT ≠ NO_INPUT := by decide

theorem be_emit_string_append (st : be_emit_state) (a b : String) :
    be_emit_string (be_emit_string st a) b = be_emit_string st (a ++ b) := by
  simp [be_emit_string, String.append_assoc]

theorem be_emit_string_empty (st : be_emit_state) : be_emit_string st "" = st := by
  simp [be_emit_string]

theorem be_emit_char_eq (st : be_emit_state) (c : Char) :
    be_emit_char st c = be_emit_string st (String.singleton c) := rfl

/-- The register term that `amd64_emit_addr` writes last. -/
theorem amd64_emit_addr_reg_term (env : emit_env) (st : be_emit_state) (node : ir_node)
    (addr : amd64_addr_t) :
    (if addr.base_input ≠ NO_INPUT ∨ addr.index_input ≠ NO_INPUT then
      be_emit_char
        (if addr.index_input ≠ NO_INPUT then
          if addr.log_scale > 0 then
            be_emit_string
              (emit_register
                (be_emit_char
                  (if addr.base_input = RIP_INPUT then be_emit_cstring (be_emit_char st '(') "%rip"
                  else if addr.base_input ≠ NO_INPUT then
                    emit_register (be_emit_char st '(')
                      (env.arch_get_irn_register_in node addr.base_input)
                  else be_emit_char st '(') ',')
                (env.arch_get_irn_register_in node addr.index_input))
              ("," ++ printf_u (1 <<< addr.log_scale))
          else
            emit_register
              (be_emit_char
                (if addr.base_input = RIP_INPUT then be_emit_cstring (be_emit_char st '(') "%rip"
                else if addr.base_input ≠ NO_INPUT then
                  emit_register (be_emit_char st '(')
                    (env.arch_get_irn_register_in node addr.base_input)
                else be_emit_char st '(') ',')
              (env.arch_get_irn_register_in node addr.index_input)
        else
          if addr.base_input = RIP_INPUT then be_emit_cstring (be_emit_char st '(') "%rip"
          else if addr.base_input ≠ NO_INPUT then
            emit_register (be_emit_char st '(')
              (env.arch_get_irn_register_in node addr.base_input)
          else be_emit_char st '(') ')'
    else st) = be_emit_string st (addr_reg_term env node addr) := by
  unfold addr_reg_term
  have hne : (NO_INPUT = RIP_INPUT) = False := eq_false (fun h => RIP_INPUT_ne_NO_INPUT h.symm)
  have hne' : (RIP_INPUT = NO_INPUT) = False := eq_false RIP_INPUT_ne_NO_INPUT
  simp only [emit_register, be_emit_cstring, be_emit_char_eq]
  by_cases hb : addr.base_input = NO_INPUT <;> by_cases hr : addr.base_input = RIP_INPUT <;>
    by_cases hi : addr.index_input = NO_INPUT <;> by_cases hs : addr.log_scale > 0 <;>
    simp only [hb, hr, hi, hs, hne, hne', ne_eq, not_true_eq_false, not_false_eq_true, or_self, or_true,
      true_or, or_false, false_or, and_self, and_true, true_and, and_false, false_and, if_true,
      if_false, be_emit_string_append, be_emit_string_empty] <;>
    first
      | (exfalso; rw [hb] at hr; exact RIP_INPUT_ne_NO_INPUT hr.symm)
      | simp [be_emit_string, String.ext_iff, hne, hne']

/-- The text `amd64_emit_addr` appends to the current line: the symbol unless
suppressed, the displacement if the displacement rule selects it, the register
term. -/
theorem amd64_emit_addr_text (env : emit_env) (st : be_emit_state) (node : ir_node)
    (addr : amd64_addr_t) :
    amd64_emit_addr env st node addr =
      be_emit_string st (addr_symbol_text env addr
        ++ (if addr.immediate.offset ≠ 0 ∨ (addr_emitted_entity env addr = none
              ∧ addr.base_input = NO_INPUT ∧ addr.index_input = NO_INPUT)
            then addr_disp_text env addr else "")
        ++ addr_reg_term env node addr) := by
  unfold amd64_emit_addr
  simp only [amd64_emit_addr_reg_term]
  unfold addr_symbol_text addr_disp_text
  change be_emit_string
      (if addr.immediate.offset ≠ 0 ∨ (addr_emitted_entity env addr = none
            ∧ addr.base_input = NO_INPUT ∧ addr.index_input = NO_INPUT) then
        if addr_emitted_entity env addr ≠ none then
          be_emit_string
            (match addr_emitted_entity env addr with
              | some e => be_emit_string st (env.be_gas_emit_entity e)
              | none => st) (printf_plus_d addr.immediate.offset)
        else
          be_emit_string
            (match addr_emitted_entity env addr with
              | some e => be_emit_string st (env.be_gas_emit_entity e)
              | none => st) (printf_d addr.immediate.offset)
      else
        match addr_emitted_entity env addr with
          | some e => be_emit_string st (env.be_gas_emit_entity e)
          | none => st)
      (addr_reg_term env node addr) = _
  cases addr_emitted_entity env addr with
  | none =>
    split_ifs <;>
      simp only [be_emit_string_append, be_emit_string_empty, String.empty_append,
        String.append_empty, ne_eq, not_true_eq_false, if_false]
  | some e =>
    split_ifs <;>
      simp only [be_emit_string_append, be_emit_string_empty, String.empty_append,
        String.append_empty, ne_eq, reduceCtorEq, not_false_eq_true, if_true,
        String.append_assoc]

theorem string_append_cancel_mid (a b c : String) (h : a ++ c = a ++ (b ++ c)) : b = "" := by
  have hd := congrArg String.data h
  simp only [String.data_append, List.append_cancel_left_eq] at hd
  have hb : b.data = [] := by simpa using hd
  exact String.ext hb

theorem be_emit_string_inj (st : be_emit_state) (a b : String)
    (h : be_emit_string st a = be_emit_string st b) : a = b := by
  have hc := congrArg be_emit_state.cur h
  have hd := congrArg String.data hc
  simp only [be_emit_string, String.data_append, List.append_cancel_left_eq] at hd
  exact String.ext hd

/-- C8, as the code has it: `amd64_emit_addr` writes the displacement exactly when
the displacement is non-zero, or no symbol is written (the address has none, or
its symbol is frame-relative and suppressed) and neither a base nor an index
input is present; otherwise it writes the symbol and the register term only. -/
theorem amd64_emit_addr_disp_rule (env : emit_env) (st : be_emit_state) (node : ir_node)
    (addr : amd64_addr_t) :
    (addr_prints_disp env st node addr ↔
        (addr.immediate.offset ≠ 0 ∨ (addr_emitted_entity env addr = none
          ∧ addr.base_input = NO_INPUT ∧ addr.index_input = NO_INPUT))) ∧
      (addr_omits_disp env st node addr ↔
        ¬(addr.immediate.offset ≠ 0 ∨ (addr_emitted_entity env addr = none
          ∧ addr.base_input = NO_INPUT ∧ addr.index_input = NO_INPUT))) := by
  have hdisp : addr_disp_text env addr ≠ "" := by
    unfold addr_disp_text
    split_ifs
    · exact printf_plus_d_ne_empty _
    · exact printf_d_ne_empty _
  unfold addr_prints_disp addr_omits_disp
  rw [amd64_emit_addr_text]
  by_cases hc : addr.immediate.offset ≠ 0 ∨ (addr_emitted_entity env addr = none
      ∧ addr.base_input = NO_INPUT ∧ addr.index_input = NO_INPUT)
  · simp only [hc, if_true, true_iff, not_true_eq_false, iff_false]
    refine ⟨trivial, fun h => hdisp ?_⟩
    have h' := be_emit_string_inj _ _ _ h
    rw [String.append_assoc] at h'
    exact string_append_cancel_mid _ _ _ h'.symm
  · simp only [hc, if_false, iff_false, not_false_eq_true, iff_true, String.append_empty]
    refine ⟨fun h => hdisp ?_, trivial⟩
    have h' := be_emit_string_inj _ _ _ h
    rw [String.append_assoc] at h'
    exact string_append_cancel_mid _ _ _ h'

/-- C8 as stated fails: for the frame-relative symbol 7 with displacement 0 and
neither base nor index, a symbol is present, so the stated rule selects no
displacement, yet `amd64_emit_addr` writes the displacement `0`. -/
theorem amd64_emit_addr_disp_rule_counterexample :
    ¬(addr_prints_disp env_demo st_empty 0 addr_frame_symbol_only ↔
      (addr_frame_symbol_only.immediate.offset ≠ 0 ∨
        (addr_frame_symbol_only.immediate.entity = none
          ∧ addr_frame_symbol_only.base_input = NO_INPUT
          ∧ addr_frame_symbol_only.index_input = NO_INPUT))) := by
  have h1 : addr_prints_disp env_demo st_empty 0 addr_frame_symbol_only := by
    unfold addr_prints_disp
    decide
  have h2 : ¬(addr_frame_symbol_only.immediate.offset ≠ 0 ∨
        (addr_frame_symbol_only.immediate.entity = none
          ∧ addr_frame_symbol_only.base_input = NO_INPUT
          ∧ addr_frame_symbol_only.index_input = NO_INPUT)) := by decide
  exact fun h => h2 (h.mp h1)

/-- C9: `amd64_emit_addr` is total and, for every address whose symbol (if any)
has a non-empty name, appends a non-empty text to the current line; without
symbol, displacement, base and index that text is exactly `0`. -/
theorem amd64_emit_addr_nonempty (env : emit_env) (st : be_emit_state) (node : ir_node)
    (addr : amd64_addr_t)
    (hname : ∀ e, addr.immediate.entity = some e → env.be_gas_emit_entity e ≠ "") :
    (∃ s : String, s ≠ "" ∧ amd64_emit_addr env st node addr = be_emit_string st s) ∧
      (addr.immediate.entity = none ∧ addr.immediate.offset = 0 ∧ addr.base_input = NO_INPUT
          ∧ addr.index_input = NO_INPUT →
        amd64_emit_addr env st node addr = be_emit_string st "0") := by
  have hne : ∀ a b : String, a ≠ "" ∨ b ≠ "" → a ++ b ≠ "" := by
    intro a b h hab
    have hd := congrArg String.data hab
    simp only [String.data_append, List.append_eq_nil] at hd
    rcases h with h | h
    · exact h (String.ext hd.1)
    · exact h (String.ext hd.2)
  have hdisp : addr_disp_text env addr ≠ "" := by
    unfold addr_disp_text
    split_ifs
    · exact printf_plus_d_ne_empty _
    · exact printf_d_ne_empty _
  constructor
  · refine ⟨_, ?_, amd64_emit_addr_text env st node addr⟩
    by_cases hreg : addr.base_input = NO_INPUT ∧ addr.index_input = NO_INPUT
    · -- no register term: the symbol or the displacement is written
      apply hne; left
      cases hent : addr_emitted_entity env addr with
      | none =>
        apply hne; right
        rw [if_pos (Or.inr ⟨rfl, hreg⟩)]
        exact hdisp
      | some e =>
        apply hne; left
        have he : addr.immediate.entity = some e := by
          unfold addr_emitted_entity at hent
          split at hent
          · split_ifs at hent
            simp_all
          · simp at hent
        unfold addr_symbol_text
        rw [hent]
        exact hname e he
    · -- the register term starts with a parenthesis
      apply hne; right
      unfold addr_reg_term
      rw [if_neg hreg]
      intro h
      have hd := congrArg String.data h
      simp at hd
  · rintro ⟨he, ho, hb, hi⟩
    rw [amd64_emit_addr_text]
    have hent : addr_emitted_entity env addr = none := by
      unfold addr_emitted_entity
      rw [he]
    simp only [addr_symbol_text, addr_disp_text, addr_reg_term, hent, ho, hb, hi, ne_eq,
      not_true_eq_false, and_self, or_true, if_true, if_false]
    rfl

/-- Witness of C9 on the demo function: the address `sym3(%rip)`. -/
theorem amd64_emit_addr_nonempty_witness :
    (∃ s : String, s ≠ "" ∧
        amd64_emit_addr env_demo st_empty 0 addr_global_rip = be_emit_string st_empty s) ∧
      (addr_global_rip.immediate.entity = none ∧ addr_global_rip.immediate.offset = 0
          ∧ addr_global_rip.base_input = NO_INPUT ∧ addr_global_rip.index_input = NO_INPUT →
        amd64_emit_addr env_demo st_empty 0 addr_global_rip = be_emit_string st_empty "0") :=
  amd64_emit_addr_nonempty env_demo st_empty 0 addr_global_rip (by decide)

/-- C10: for an address with a frame-relative symbol `amd64_emit_addr` writes
the same text as for the address without the symbol: no symbol name, and the
displacement (when the rule selects it) as a plain signed decimal, in which no
`+` occurs, followed by the register term. -/
theorem amd64_emit_addr_frame_symbol (env : emit_env) (st : be_emit_state) (node : ir_node)
    (addr : amd64_addr_t) (e : ir_entity)
    (he : addr.immediate.entity = some e) (hfp : is_fp_relative env e = true) :
    amd64_emit_addr env st node addr =
        amd64_emit_addr env st node
          { addr with immediate := { addr.immediate with entity := none } } ∧
      amd64_emit_addr env st node addr =
        be_emit_string st
          ((if addr.immediate.offset ≠ 0 ∨ (addr.base_input = NO_INPUT
                ∧ addr.index_input = NO_INPUT)
              then printf_d addr.immediate.offset else "")
            ++ addr_reg_term env node addr) ∧
      '+' ∉ (printf_d addr.immediate.offset).data := by
  have h1 : addr_emitted_entity env addr = none := by
    unfold addr_emitted_entity
    rw [he]
    simp [hfp]
  have h2 : addr_emitted_entity env
      { addr with immediate := { addr.immediate with entity := none } } = none := rfl
  refine ⟨?_, ?_, printf_d_no_plus _⟩
  · rw [amd64_emit_addr_text, amd64_emit_addr_text]
    simp only [addr_symbol_text, addr_disp_text, h1, h2]
    rfl
  · rw [amd64_emit_addr_text]
    simp only [addr_symbol_text, addr_disp_text, h1, ne_eq, not_true_eq_false, if_false,
      true_and, String.empty_append]

/-- Witness of C10 on the demo function: entity 7 lives in the frame type; the
address is written as `16(%r0,%r1,4)`. -/
theorem amd64_emit_addr_frame_symbol_witness :
    amd64_emit_addr env_demo st_empty 0 addr_frame_indexed =
        amd64_emit_addr env_demo st_empty 0
          { addr_frame_indexed with
            immediate := { addr_frame_indexed.immediate with entity := none } } ∧
      amd64_emit_addr env_demo st_empty 0 addr_frame_indexed =
        be_emit_string st_empty
          ((if addr_frame_indexed.immediate.offset ≠ 0 ∨ (addr_frame_indexed.base_input = NO_INPUT
                ∧ addr_frame_indexed.index_input = NO_INPUT)
              then printf_d addr_frame_indexed.immediate.offset else "")
            ++ addr_reg_term env_demo 0 addr_frame_indexed) ∧
      '+' ∉ (printf_d addr_frame_indexed.immediate.offset).data :=
  amd64_emit_addr_frame_symbol env_demo st_empty 0 addr_frame_indexed 7 rfl (by decide)

/-! ## Register terms of operand addresses -/

theorem printf_u_shift (n : Nat) (h : n < 32) : printf_u ((1 <<< n : Nat) : Int) = toString (2 ^ n) := by
  unfold printf_u
  have h1 : (1 <<< n : Nat) = 2 ^ n := Nat.one_shiftLeft n
  have h2 : 2 ^ n < 2 ^ 32 := Nat.pow_lt_pow_right (by decide) h
  rw [h1]
  have h3 : (((2 ^ n : Nat) : Int) % 2 ^ 32).toNat = 2 ^ n := by
    generalize 2 ^ n = x at h2
    norm_num at h2 ⊢
    omega
  rw [h3]

theorem addr_reg_term_eq_form (env : emit_env) (node : ir_node) (addr : amd64_addr_t)
    (hs : addr.log_scale < 32) :
    addr_reg_term env node addr = addr_reg_term_form env node addr := by
  unfold addr_reg_term addr_reg_term_form
  have hne : (NO_INPUT = RIP_INPUT) = False := eq_false (fun h => RIP_INPUT_ne_NO_INPUT h.symm)
  have hne' : (RIP_INPUT = NO_INPUT) = False := eq_false RIP_INPUT_ne_NO_INPUT
  rw [printf_u_shift _ hs]
  by_cases hb : addr.base_input = NO_INPUT <;> by_cases hr : addr.base_input = RIP_INPUT <;>
    by_cases hi : addr.index_input = NO_INPUT <;> by_cases hl : addr.log_scale > 0 <;>
    simp only [hb, hr, hi, hl, hne, hne', and_self, and_true, true_and, and_false, false_and,
      if_true, if_false] <;>
    first
      | (exfalso; rw [hb] at hr; exact RIP_INPUT_ne_NO_INPUT hr.symm)
      | simp [String.ext_iff]

/-- C11, as the code has it: after the symbol and the displacement
`amd64_emit_addr` writes, when a base or an index input is present, a register
term of exactly one of the forms `(base)`, `(base,index)`, `(base,index,scale)`,
`(,index)`, `(,index,scale)`; the scale is the decimal value of `2 ^ log_scale`
and is written exactly when an index input is present and `log_scale > 0`; with
neither base nor index no register term and so no parenthesis is written.  The
scale is read as a machine integer, hence the bound on `log_scale`, which the
data model (scales 1, 2, 4, 8) respects. -/
theorem amd64_emit_addr_reg_term_forms (env : emit_env) (st : be_emit_state) (node : ir_node)
    (addr : amd64_addr_t) (hs : addr.log_scale < 32) :
    amd64_emit_addr env st node addr =
      be_emit_string st (addr_prefix_text env addr ++ addr_reg_term_form env node addr) := by
  rw [amd64_emit_addr_text, addr_reg_term_eq_form env node addr hs]
  rfl

/-- Witness of C11 on the demo function: the address `8(,%r1,8)`. -/
theorem amd64_emit_addr_reg_term_forms_witness :
    amd64_emit_addr env_demo st_empty 0 addr_index_scaled =
      be_emit_string st_empty "8(,%r1,8)" :=
  (amd64_emit_addr_reg_term_forms env_demo st_empty 0 addr_index_scaled (by decide)).trans
    (by decide)

/-- C11 as stated fails: with a base, no index and `log_scale = 2` the register
term is `(%r0)`; no scale is written although `log_scale > 0`. -/
theorem amd64_emit_addr_reg_term_forms_counterexample :
    addr_base_scaled.log_scale > 0 ∧
      amd64_emit_addr env_demo st_empty 0 addr_base_scaled = be_emit_string st_empty "(%r0)" := by
  decide

/-- C12: when the base input is `RIP_INPUT`, `amd64_emit_addr` writes `%rip` as
the base of the register term, and no register is looked up for the base: the
output stays the same under every change of the register assignment that keeps
the register of the index input. -/
theorem amd64_emit_addr_rip_base (env : emit_env) (st : be_emit_state) (node : ir_node)
    (addr : amd64_addr_t) (hb : addr.base_input = RIP_INPUT) :
    amd64_emit_addr env st node addr =
        be_emit_string st (addr_prefix_text env addr ++ ("(%rip"
          ++ (if addr.index_input = NO_INPUT then ""
              else ",%" ++ (env.arch_get_irn_register_in node addr.index_input).name
                ++ (if addr.log_scale > 0 then "," ++ printf_u (1 <<< addr.log_scale) else ""))
          ++ ")")) ∧
      ∀ f : ir_node → Nat → arch_register_t,
        f node addr.index_input = env.arch_get_irn_register_in node addr.index_input →
        amd64_emit_addr { env with arch_get_irn_register_in := f } st node addr =
          amd64_emit_addr env st node addr := by
  have hne : (RIP_INPUT = NO_INPUT) = False := eq_false RIP_INPUT_ne_NO_INPUT
  have hterm : ∀ env' : emit_env, addr_reg_term env' node addr = "(%rip"
      ++ (if addr.index_input = NO_INPUT then ""
          else ",%" ++ (env'.arch_get_irn_register_in node addr.index_input).name
            ++ (if addr.log_scale > 0 then "," ++ printf_u (1 <<< addr.log_scale) else ""))
      ++ ")" := by
    intro env'
    unfold addr_reg_term
    simp only [hb, hne, false_and, if_true, if_false]
    simp [String.ext_iff]
  constructor
  · rw [amd64_emit_addr_text, hterm env]
    rfl
  · intro f hf
    rw [amd64_emit_addr_text, amd64_emit_addr_text, hterm, hterm]
    simp only [hf]
    rfl

/-- Witness of C12 on the demo function: the address `sym3(%rip,%r1)`. -/
theorem amd64_emit_addr_rip_base_witness :
    amd64_emit_addr env_demo st_empty 0 addr_rip_indexed =
      be_emit_string st_empty "sym3(%rip,%r1)" :=
  ((amd64_emit_addr_rip_base env_demo st_empty 0 addr_rip_indexed rfl).1).trans (by decide)

/-! ## Immediates -/

theorem printf_plus_d_pos (v : Int) (h : 0 < v) : printf_plus_d v = "+" ++ printf_d v := by
  unfold printf_plus_d printf_d
  rw [if_pos (le_of_lt h)]

theorem printf_plus_d_neg (v : Int) (h : v < 0) : printf_plus_d v = printf_d v := by
  unfold printf_plus_d printf_d
  rw [if_neg (not_le.mpr h)]

theorem printf_d_neg (v : Int) (h : v < 0) : ∃ s, printf_d v = "-" ++ s := by
  unfold printf_d
  cases v with
  | ofNat m => exact absurd h (by simp)
  | negSucc m => exact ⟨toString (m + 1), rfl⟩

/-- C13: `amd64_emit_immediate32` writes, with a symbol, the symbol name followed
by the explicitly signed offset only when the offset is non-zero (`+` before a
positive offset, the minus sign of a negative one); without a symbol it writes
the offset as a plain signed decimal, `0` for zero. -/
theorem amd64_emit_immediate32_text (env : emit_env) (st : be_emit_state) (e : ir_entity)
    (offset : Int) :
    amd64_emit_immediate32 env st { entity := some e, offset := offset } =
        be_emit_string st (env.be_gas_emit_entity e
          ++ (if offset ≠ 0 then printf_plus_d offset else "")) ∧
      amd64_emit_immediate32 env st { entity := none, offset := offset } =
        be_emit_string st (printf_d offset) ∧
      (0 < offset → printf_plus_d offset = "+" ++ printf_d offset) ∧
      (offset < 0 → printf_plus_d offset = printf_d offset ∧ ∃ s, printf_d offset = "-" ++ s) ∧
      '+' ∉ (printf_d offset).data ∧
      printf_d 0 = "0" := by
  refine ⟨?_, ?_, printf_plus_d_pos offset, fun h => ⟨printf_plus_d_neg offset h, printf_d_neg offset h⟩,
    printf_d_no_plus offset, rfl⟩
  · unfold amd64_emit_immediate32
    by_cases h : offset = 0
    · simp [h, be_emit_string_empty]
    · simp [h, be_emit_string_append]
  · unfold amd64_emit_immediate32
    simp

theorem toDigitsCore_all (b : Nat) (P : Char → Prop) (hP : ∀ k, P (Nat.digitChar (k % b))) :
    ∀ (fuel n : Nat) (ds : List Char), (∀ c ∈ ds, P c) → ∀ c ∈ Nat.toDigitsCore b fuel n ds, P c
  | 0, _, ds, h => by simpa [Nat.toDigitsCore] using h
  | fuel + 1, n, ds, h => by
    have hd : ∀ c ∈ Nat.digitChar (n % b) :: ds, P c := by
      intro c hc
      rcases List.mem_cons.mp hc with rfl | hc
      · exact hP n
      · exact h c hc
    unfold Nat.toDigitsCore
    simp only
    split_ifs
    · exact hd
    · exact toDigitsCore_all b P hP fuel _ _ hd

theorem hex_digit_upper (k : Nat) (h : k < 16) :
    (Nat.digitChar k).toUpper ∈ hex_upper_digits ∧
      hex_digit_value (Nat.digitChar k).toUpper = k := by
  interval_cases k <;> decide

theorem hex_upper_digits_only (n : Nat) : ∀ c ∈ (hex_upper n).data, c ∈ hex_upper_digits := by
  intro c hc
  simp only [hex_upper, List.mem_map] at hc
  obtain ⟨d, hd, rfl⟩ := hc
  have := toDigitsCore_all 16 (fun c => c.toUpper ∈ hex_upper_digits)
    (fun k => (hex_digit_upper (k % 16) (Nat.mod_lt _ (by decide))).1) (n + 1) n [] (by simp)
  exact this d hd

theorem hex_value_toDigitsCore : ∀ (fuel n : Nat) (ds : List Char), n < fuel →
    List.foldl (fun acc c => acc * 16 + hex_digit_value c.toUpper) 0
        (Nat.toDigitsCore 16 fuel n ds) =
      List.foldl (fun acc c => acc * 16 + hex_digit_value c.toUpper) n ds
  | 0, n, _, h => absurd h (Nat.not_lt_zero n)
  | fuel + 1, n, ds, h => by
    have hd := (hex_digit_upper (n % 16) (Nat.mod_lt _ (by decide))).2
    unfold Nat.toDigitsCore
    simp only
    split_ifs with h0
    · simp only [List.foldl_cons, hd]
      have : n = n % 16 := by omega
      rw [Nat.zero_mul, Nat.zero_add, ← this]
    · rw [hex_value_toDigitsCore fuel (n / 16) _ (by omega)]
      simp only [List.foldl_cons, hd]
      have : n / 16 * 16 + n % 16 = n := by omega
      rw [this]

theorem hex_value_hex_upper (n : Nat) : hex_value (hex_upper n).data = n := by
  unfold hex_value hex_upper
  simp only [List.foldl_map]
  exact hex_value_toDigitsCore (n + 1) n [] (Nat.lt_succ_self n)

/-- C14: `amd64_emit_immediate64` writes, with a symbol, the symbol name followed
by the explicitly signed decimal offset only when the offset is non-zero; without
a symbol it writes `0x` followed by upper-case hexadecimal digits, without sign,
that denote the offset modulo `2 ^ 64`. -/
theorem amd64_emit_immediate64_text (env : emit_env) (st : be_emit_state) (e : ir_entity)
    (offset : Int) :
    amd64_emit_immediate64 env st { entity := some e, offset := offset } =
        be_emit_string st (env.be_gas_emit_entity e
          ++ (if offset ≠ 0 then printf_plus_d offset else "")) ∧
      amd64_emit_immediate64 env st { entity := none, offset := offset } =
        be_emit_string st ("0x" ++ printf_PRIX64 offset) ∧
      (∀ c ∈ (printf_PRIX64 offset).data, c ∈ hex_upper_digits) ∧
      (hex_value (printf_PRIX64 offset).data : Int) = offset % 2 ^ 64 := by
  refine ⟨?_, ?_, hex_upper_digits_only _, ?_⟩
  · unfold amd64_emit_immediate64
    by_cases h : offset = 0
    · simp [h, be_emit_string_empty]
    · simp [h, be_emit_string_append]
  · unfold amd64_emit_immediate64
    simp
  · unfold printf_PRIX64
    rw [hex_value_hex_upper]
    exact Int.toNat_of_nonneg (Int.emod_nonneg _ (by norm_num))

/-! ## Register names -/

/-- C15: for each of the sixteen general-purpose ordinals `emit_register_insn_mode`
succeeds at each of the four integer widths and writes `%` followed by a
non-empty name: at 8, 16 and 32 bits the name of the register's row in the name
tables, at 64 bits the register's own name (non-empty for every register of the
register file). -/
theorem emit_register_insn_mode_defined (st : be_emit_state) (reg : arch_register_t)
    (row : Nat × String × String × String)
    (hrow : row ∈ gp_register_names) (hidx : reg.index = row.1) (hname : reg.name ≠ "") :
    emit_register_insn_mode st reg .INSN_MODE_8 =
        .ok (be_emit_string (be_emit_char st '%') row.2.1) ∧
      emit_register_insn_mode st reg .INSN_MODE_16 =
        .ok (be_emit_string (be_emit_char st '%') row.2.2.1) ∧
      emit_register_insn_mode st reg .INSN_MODE_32 =
        .ok (be_emit_string (be_emit_char st '%') row.2.2.2) ∧
      emit_register_insn_mode st reg .INSN_MODE_64 =
        .ok (be_emit_string (be_emit_char st '%') reg.name) ∧
      row.2.1 ≠ "" ∧ row.2.2.1 ≠ "" ∧ row.2.2.2 ≠ "" ∧ reg.name ≠ "" := by
  simp only [gp_register_names, List.mem_cons, List.mem_singleton, List.not_mem_nil,
    or_false] at hrow
  rcases hrow with h | h | h | h | h | h | h | h | h | h | h | h | h | h | h | h <;>
    subst h <;>
    simp only [REG_GP_RAX, REG_GP_RBX, REG_GP_RCX, REG_GP_RDX, REG_GP_RSP, REG_GP_RBP,
      REG_GP_RSI, REG_GP_RDI, REG_GP_R8, REG_GP_R9, REG_GP_R10, REG_GP_R11, REG_GP_R12,
      REG_GP_R13, REG_GP_R14, REG_GP_R15] at hidx <;>
    refine ⟨?_, ?_, ?_, ?_, by decide, by decide, by decide, hname⟩ <;>
    simp [emit_register_insn_mode, get_8bit_name, get_16bit_name, get_32bit_name, hidx,
      REG_GP_RAX, REG_GP_RBX, REG_GP_RCX, REG_GP_RDX, REG_GP_RSP, REG_GP_RBP,
      REG_GP_RSI, REG_GP_RDI, REG_GP_R8, REG_GP_R9, REG_GP_R10, REG_GP_R11, REG_GP_R12,
      REG_GP_R13, REG_GP_R14, REG_GP_R15]

/-- Witness of C15: the register `r8` is written as `%r8b`, `%r8w`, `%r8d` and
`%r8`. -/
theorem emit_register_insn_mode_defined_witness :
    emit_register_insn_mode st_empty reg_r8 .INSN_MODE_8 =
        .ok (be_emit_string (be_emit_char st_empty '%') "r8b") ∧
      emit_register_insn_mode st_empty reg_r8 .INSN_MODE_16 =
        .ok (be_emit_string (be_emit_char st_empty '%') "r8w") ∧
      emit_register_insn_mode st_empty reg_r8 .INSN_MODE_32 =
        .ok (be_emit_string (be_emit_char st_empty '%') "r8d") ∧
      emit_register_insn_mode st_empty reg_r8 .INSN_MODE_64 =
        .ok (be_emit_string (be_emit_char st_empty '%') "r8") ∧
      "r8b" ≠ "" ∧ "r8w" ≠ "" ∧ "r8d" ≠ "" ∧ reg_r8.name ≠ "" :=
  emit_register_insn_mode_defined st_empty reg_r8 (REG_GP_R8, "r8b", "r8w", "r8d")
    (by decide) rfl (by decide)

/-- C16, as the code has it: for a register whose ordinal is none of the sixteen
defined ones, `emit_register_insn_mode` fails fatally at the widths 8, 16 and 32
and the sink is as before (no name and no `%` is written); at width 64 no table
is consulted and the register's own name is written. -/
theorem emit_register_insn_mode_undefined (st : be_emit_state) (reg : arch_register_t)
    (hidx : reg.index ∉ gp_ordinals) :
    emit_register_insn_mode st reg .INSN_MODE_8 =
        .error { msg := "unexpected register number", st := st } ∧
      emit_register_insn_mode st reg .INSN_MODE_16 =
        .error { msg := "unexpected register number", st := st } ∧
      emit_register_insn_mode st reg .INSN_MODE_32 =
        .error { msg := "unexpected register number", st := st } ∧
      emit_register_insn_mode st reg .INSN_MODE_64 =
        .ok (be_emit_string (be_emit_char st '%') reg.name) := by
  simp only [gp_ordinals, gp_register_names, List.map_cons, List.map_nil, List.mem_cons,
    List.mem_singleton, List.not_mem_nil, or_false, not_or] at hidx
  obtain ⟨h0, h1, h2, h3, h4, h5, h6, h7, h8, h9, h10, h11, h12, h13, h14, h15⟩ := hidx
  simp [emit_register_insn_mode, get_8bit_name, get_16bit_name, get_32bit_name, emit_fatal,
    h0, h1, h2, h3, h4, h5, h6, h7, h8, h9, h10, h11, h12, h13, h14, h15]

/-- Witness of C16: the register with ordinal 99. -/
theorem emit_register_insn_mode_undefined_witness :
    emit_register_insn_mode st_empty reg_undefined .INSN_MODE_8 =
        .error { msg := "unexpected register number", st := st_empty } ∧
      emit_register_insn_mode st_empty reg_undefined .INSN_MODE_16 =
        .error { msg := "unexpected register number", st := st_empty } ∧
      emit_register_insn_mode st_empty reg_undefined .INSN_MODE_32 =
        .error { msg := "unexpected register number", st := st_empty } ∧
      emit_register_insn_mode st_empty reg_undefined .INSN_MODE_64 =
        .ok (be_emit_string (be_emit_char st_empty '%') reg_undefined.name) :=
  emit_register_insn_mode_undefined st_empty reg_undefined (by decide)

/-- C16 as stated fails at the 64-bit width: the register with the undefined
ordinal 99 is written as `%r99` without any failure. -/
theorem emit_register_insn_mode_undefined_counterexample :
    reg_undefined.index ∉ gp_ordinals ∧
      emit_register_insn_mode st_empty reg_undefined .INSN_MODE_64 =
        .ok { lines := [], cur := "%r99" } := by
  constructor
  · decide
  · rfl

/-- C17: for a register of the xmm class `emit_register_mode` succeeds at every
width, also at one that is no integer width, and writes `%` followed by the
register's own name. -/
theorem emit_register_mode_xmm (st : be_emit_state) (reg : arch_register_t)
    (mode : amd64_insn_mode_t) (hx : reg.reg_class = .CLASS_amd64_xmm) :
    emit_register_mode st reg mode = .ok (be_emit_string (be_emit_char st '%') reg.name) := by
  unfold emit_register_mode emit_register
  rw [if_pos hx]

/-- Witness of C17: `xmm3` at a width value outside the enumeration. -/
theorem emit_register_mode_xmm_witness :
    emit_register_mode st_empty reg_xmm3 (.INSN_MODE_OTHER 7) =
      .ok (be_emit_string (be_emit_char st_empty '%') reg_xmm3.name) :=
  emit_register_mode_xmm st_empty reg_xmm3 (.INSN_MODE_OTHER 7) rfl

/-! ## Moves -/

/-- C18: for a Mov in register operand mode (`AMD64_OP_REG`, or `AMD64_OP_UNOP_REG`,
which shares its code) with general-purpose input register
`s` and output register `d`, `emit_amd64_Mov` writes one line: at 8 bits
`movzbq` with the 8-bit name of `s` and the own (64-bit) name of `d`, at 16 bits
`movzwq` with the 16-bit name of `s` and the own name of `d`, at 32 bits `movl`
with the 32-bit names of both, at 64 bits `movq` with the own names of both. -/
theorem emit_amd64_Mov_reg (env : emit_env) (st : be_emit_state) (node : ir_node)
    (s d : arch_register_t) (s8 s16 s32 d32 : String)
    (hop : (get_amd64_addr_attr_const env node).base.op_mode = .AMD64_OP_REG ∨
      (get_amd64_addr_attr_const env node).base.op_mode = .AMD64_OP_UNOP_REG)
    (hs : env.arch_get_irn_register_in node 0 = s) (hd : env.arch_get_irn_register_out node 0 = d)
    (hsc : s.reg_class = .CLASS_amd64_gp) (hdc : d.reg_class = .CLASS_amd64_gp)
    (hs8 : get_8bit_name s = some s8) (hs16 : get_16bit_name s = some s16)
    (hs32 : get_32bit_name s = some s32) (hd32 : get_32bit_name d = some d32) :
    ((get_amd64_addr_attr_const env node).insn_mode = .INSN_MODE_8 →
        emit_amd64_Mov env st node =
          .ok (emit_lines st ["\tmovzbq %" ++ s8 ++ ", %" ++ d.name
            ++ env.finish_line_text node])) ∧
      ((get_amd64_addr_attr_const env node).insn_mode = .INSN_MODE_16 →
        emit_amd64_Mov env st node =
          .ok (emit_lines st ["\tmovzwq %" ++ s16 ++ ", %" ++ d.name
            ++ env.finish_line_text node])) ∧
      ((get_amd64_addr_attr_const env node).insn_mode = .INSN_MODE_32 →
        emit_amd64_Mov env st node =
          .ok (emit_lines st ["\tmovl %" ++ s32 ++ ", %" ++ d32
            ++ env.finish_line_text node])) ∧
      ((get_amd64_addr_attr_const env node).insn_mode = .INSN_MODE_64 →
        emit_amd64_Mov env st node =
          .ok (emit_lines st ["\tmovq %" ++ s.name ++ ", %" ++ d.name
            ++ env.finish_line_text node])) := by
  have hsx : ¬ s.reg_class = .CLASS_amd64_xmm := by rw [hsc]; decide
  have hdx : ¬ d.reg_class = .CLASS_amd64_xmm := by rw [hdc]; decide
  have h42 : (4 &&& 2 : Nat) = 0 := by decide
  have h016 : (0 &&& 16 : Nat) = 0 := by decide
  rcases hop with hop | hop <;> refine ⟨?_, ?_, ?_, ?_⟩ <;> intro hm <;>
    simp [emit_amd64_Mov, hm, amd64_emitf, amd64_emitf_loop, amd64_emitf_mods, amd64_emit_am,
      amd64_emitf_emit_R, emit_register_mode, emit_register_insn_mode, emit_register, hop, hs, hd,
      hsx, hdx, hs8, hs16, hs32, hd32, EMIT_NONE, EMIT_IGNORE_MODE, EMIT_FORCE_32,
      EMIT_CONV_DEST, EMIT_INDIRECT_STAR, be_emit_char, be_emit_string, be_emit_cstring,
      be_emit_string_len, be_emit_finish_line_gas, be_emit_write_line, emit_lines,
      String.ext_iff, h42, h016]

/-- Witness of C18 on the function of moves: node 1 is the 8-bit move from
`%rcx` to `%rax`. -/
theorem emit_amd64_Mov_reg_witness :
    emit_amd64_Mov env_mov st_empty 1 = .ok (emit_lines st_empty ["\tmovzbq %cl, %rax\n"]) :=
  ((emit_amd64_Mov_reg env_mov st_empty 1
      { name := "rcx", index := REG_GP_RCX, reg_class := .CLASS_amd64_gp }
      { name := "rax", index := REG_GP_RAX, reg_class := .CLASS_amd64_gp }
      "cl" "cx" "ecx" "eax" (Or.inl rfl) rfl rfl rfl rfl (by decide) (by decide) (by decide)
      (by decide)).1 rfl).trans (congrArg Except.ok (by decide))

/-! ## The template interpreter on literal text -/

theorem amd64_emitf_loop_lit (env : emit_env) (node : ir_node) (fuel : Nat) (c : Char)
    (rest : List Char) (ap : List emitf_arg) (st : be_emit_state)
    (h1 : c ≠ '%') (h2 : c ≠ '\n') :
    amd64_emitf_loop env node (fuel + 1) (c :: rest) ap st =
      amd64_emitf_loop env node (fuel + 1) rest ap (be_emit_char st c) := by
  have hst : be_emit_string_len st
        (c :: List.takeWhile (fun c => decide (c ≠ '%' ∧ c ≠ '\n')) rest) =
      (if List.takeWhile (fun c => decide (c ≠ '%' ∧ c ≠ '\n')) rest ≠ [] then
        be_emit_string_len (be_emit_char st c)
          (List.takeWhile (fun c => decide (c ≠ '%' ∧ c ≠ '\n')) rest)
      else be_emit_char st c) := by
    split_ifs <;> simp_all [be_emit_string_len, be_emit_string, be_emit_char, String.ext_iff]
  rw [amd64_emitf_loop, amd64_emitf_loop]
  simp only [List.takeWhile_cons, List.dropWhile_cons, h1, h2, ne_eq, not_false_eq_true,
    and_self, decide_True, if_true, reduceCtorEq]
  rw [hst]

theorem amd64_emitf_loop_newline (env : emit_env) (node : ir_node) (fuel : Nat)
    (rest : List Char) (ap : List emitf_arg) (st : be_emit_state) :
    amd64_emitf_loop env node (fuel + 1) ('\n' :: rest) ap st =
      amd64_emitf_loop env node fuel rest ap
        (be_emit_char (be_emit_write_line (be_emit_char st '\n')) '\t') := by
  rw [amd64_emitf_loop]
  simp [List.takeWhile_cons, List.dropWhile_cons]

theorem amd64_emitf_loop_nil (env : emit_env) (node : ir_node) (fuel : Nat)
    (ap : List emitf_arg) (st : be_emit_state) :
    amd64_emitf_loop env node (fuel + 1) [] ap st = .ok st := by
  rw [amd64_emitf_loop]
  simp

theorem amd64_emitf_loop_text (env : emit_env) (node : ir_node) :
    ∀ (cs : List Char) (fuel : Nat) (ap : List emitf_arg) (st : be_emit_state),
      '%' ∉ cs → cs.length ≤ fuel →
      amd64_emitf_loop env node (fuel + 1) cs ap st = .ok (emit_text st cs)
  | [], fuel, ap, st, _, _ => amd64_emitf_loop_nil env node fuel ap st
  | c :: cs, fuel, ap, st, hp, hl => by
    have hc : c ≠ '%' := fun h => hp (by simp [h])
    have hcs : '%' ∉ cs := fun h => hp (List.mem_cons_of_mem _ h)
    obtain ⟨fuel', rfl⟩ : ∃ k, fuel = k + 1 := ⟨fuel - 1, by simp at hl; omega⟩
    have hl' : cs.length ≤ fuel' := by simpa using hl
    by_cases hn : c = '\n'
    · subst hn
      rw [amd64_emitf_loop_newline, emit_text, if_pos rfl]
      exact amd64_emitf_loop_text env node cs fuel' ap _ hcs hl'
    · rw [amd64_emitf_loop_lit env node _ c cs ap st hc hn, emit_text, if_neg hn]
      exact amd64_emitf_loop_text env node cs (fuel' + 1) ap _ hcs (by omega)

theorem finish_emit_text (env : emit_env) (node : ir_node) :
    ∀ (cs : List Char) (st : be_emit_state) (cur : String),
      be_emit_finish_line_gas env (emit_text (be_emit_string st cur) cs) node =
        emit_lines st (text_lines (env.finish_line_text node) cur cs)
  | [], st, cur => by
    simp [emit_text, text_lines, emit_lines, be_emit_finish_line_gas, be_emit_write_line,
      be_emit_string, String.append_assoc]
  | c :: cs, st, cur => by
    by_cases hn : c = '\n'
    · subst hn
      rw [emit_text, if_pos rfl, text_lines, if_pos rfl, emit_lines]
      have h := finish_emit_text env node cs
        { lines := st.lines ++ [st.cur ++ (cur ++ "\n")], cur := "" } "\t"
      rw [← h]
      congr 2
      simp [be_emit_char, be_emit_write_line, be_emit_string, String.ext_iff]
    · rw [emit_text, if_neg hn, text_lines, if_neg hn, be_emit_char_eq, be_emit_string_append]
      exact finish_emit_text env node cs st _

theorem text_lines_tab (fin : String) :
    ∀ (cs : List Char) (cur : String), (∃ b, cur = "\t" ++ b) →
      ∀ l ∈ text_lines fin cur cs, ∃ b, l = "\t" ++ b
  | [], cur, ⟨b, hb⟩, l, hl => by
    simp only [text_lines, List.mem_singleton] at hl
    exact ⟨b ++ fin, by rw [hl, hb, String.append_assoc]⟩
  | c :: cs, cur, ⟨b, hb⟩, l, hl => by
    by_cases hn : c = '\n'
    · rw [text_lines, if_pos hn, List.mem_cons] at hl
      rcases hl with hl | hl
      · exact ⟨b ++ "\n", by rw [hl, hb, String.append_assoc]⟩
      · exact text_lines_tab fin cs "\t" ⟨"", rfl⟩ l hl
    · rw [text_lines, if_neg hn] at hl
      exact text_lines_tab fin cs _ ⟨b ++ String.singleton c, by rw [hb, String.append_assoc]⟩ l hl

/-- C19: for a format string without `%`, `amd64_emitf` writes a tab, then the
text of the format, every newline followed by a line flush and a fresh tab, and
then finishes the line.  The lines it adds (the first one completing the
current line) all begin with a tab. -/
theorem amd64_emitf_literal (env : emit_env) (st : be_emit_state) (node : ir_node)
    (fmt : String) (ap : List emitf_arg) (h : '%' ∉ fmt.data) :
    amd64_emitf env st node fmt ap =
        .ok (be_emit_finish_line_gas env (emit_text (be_emit_char st '\t') (c_string fmt)) node) ∧
      amd64_emitf env st node fmt ap =
        .ok (emit_lines st (text_lines (env.finish_line_text node) "\t" (c_string fmt))) ∧
      ∀ l ∈ text_lines (env.finish_line_text node) "\t" (c_string fmt), ∃ b, l = "\t" ++ b := by
  have hc : '%' ∉ c_string fmt := fun hm => h (List.takeWhile_subset _ hm)
  have h1 : amd64_emitf env st node fmt ap =
      .ok (be_emit_finish_line_gas env (emit_text (be_emit_char st '\t') (c_string fmt)) node) := by
    unfold amd64_emitf
    simp only
    have := amd64_emitf_loop_text env node (c_string fmt) (c_string fmt).length ap
      (be_emit_char st '\t') hc (le_refl _)
    unfold c_string at this
    rw [this]
    rfl
  refine ⟨h1, ?_, text_lines_tab _ _ _ ⟨"", rfl⟩⟩
  rw [h1, be_emit_char_eq, finish_emit_text]
  rfl

/-- Witness of C19: a format of two lines of text. -/
theorem amd64_emitf_literal_witness :
    amd64_emitf env_demo st_empty 0 "cld\nrep movsb" [] =
      .ok { lines := ["\tcld\n", "\trep movsb\n"], cur := "" } :=
  ((amd64_emitf_literal env_demo st_empty 0 "cld\nrep movsb" [] (by decide)).2.1).trans
    (congrArg Except.ok (by decide))

/-! ## Unrecognized directives and modifiers -/

theorem amd64_emitf_mods_append :
    ∀ (mods rest : List Char) (m : amd64_emit_mod_t),
      (∀ c ∈ mods, c ∈ modifier_chars) → (∀ d ∈ rest.head?, d ∉ modifier_chars) →
      (amd64_emitf_mods (mods ++ rest) m).2 = rest
  | [], [], m, _, _ => by simp [amd64_emitf_mods]
  | [], d :: post, m, _, hd => by
    have h := hd d (by simp)
    simp only [modifier_chars, List.mem_cons, List.mem_singleton, List.not_mem_nil, or_false,
      not_or] at h
    simp [amd64_emitf_mods, h.1, h.2.1, h.2.2.1, h.2.2.2]
  | c :: mods, rest, m, hm, hd => by
    have hc := hm c (by simp)
    have ih : ∀ m', (amd64_emitf_mods (mods ++ rest) m').2 = rest :=
      fun m' => amd64_emitf_mods_append mods rest m'
        (fun x hx => hm x (List.mem_cons_of_mem _ hx)) hd
    simp only [modifier_chars, List.mem_cons, List.mem_singleton, List.not_mem_nil,
      or_false] at hc
    rcases hc with rfl | rfl | rfl | rfl <;> simp [amd64_emitf_mods, ih]

theorem amd64_emitf_loop_unknown (env : emit_env) (node : ir_node) (fuel : Nat)
    (mods rest : List Char) (ap : List emitf_arg) (st : be_emit_state)
    (hm : ∀ c ∈ mods, c ∈ modifier_chars)
    (hd : ∀ d ∈ rest.head?, d ∉ modifier_chars ∧ d ∉ directive_chars) :
    amd64_emitf_loop env node (fuel + 1) ('%' :: (mods ++ rest)) ap st =
      emit_fatal "unknown format conversion" st := by
  have hrest := amd64_emitf_mods_append mods rest EMIT_NONE hm (fun d h => (hd d h).1)
  rw [amd64_emitf_loop]
  simp only [List.takeWhile_cons, List.dropWhile_cons, ne_eq, not_true_eq_false, false_and,
    decide_False, if_false, hrest, Bool.false_eq_true]
  cases rest with
  | nil => simp
  | cons d post =>
    have h := (hd d (by simp)).2
    simp only [directive_chars, List.mem_cons, List.mem_singleton, List.not_mem_nil, or_false,
      not_or] at h
    obtain ⟨h1, h2, h3, h4, h5, h6, h7, h8, h9, h10, h11, h12, h13⟩ := h
    simp [h1, h2, h3, h4, h5, h6, h7, h8, h9, h10, h11, h12, h13]

theorem amd64_emitf_loop_text_unknown (env : emit_env) (node : ir_node)
    (mods rest : List Char)
    (hm : ∀ c ∈ mods, c ∈ modifier_chars)
    (hd : ∀ d ∈ rest.head?, d ∉ modifier_chars ∧ d ∉ directive_chars) :
    ∀ (text : List Char) (fuel : Nat) (ap : List emitf_arg) (st : be_emit_state),
      '%' ∉ text → text.length ≤ fuel →
      amd64_emitf_loop env node (fuel + 1) (text ++ '%' :: (mods ++ rest)) ap st =
        emit_fatal "unknown format conversion" (emit_text st text)
  | [], fuel, ap, st, _, _ => amd64_emitf_loop_unknown env node fuel mods rest ap st hm hd
  | c :: cs, fuel, ap, st, hp, hl => by
    have hc : c ≠ '%' := fun h => hp (by simp [h])
    have hcs : '%' ∉ cs := fun h => hp (List.mem_cons_of_mem _ h)
    obtain ⟨fuel', rfl⟩ : ∃ k, fuel = k + 1 := ⟨fuel - 1, by simp at hl; omega⟩
    have hl' : cs.length ≤ fuel' := by simpa using hl
    by_cases hn : c = '\n'
    · subst hn
      rw [List.cons_append, amd64_emitf_loop_newline, emit_text, if_pos rfl]
      exact amd64_emitf_loop_text_unknown env node mods rest hm hd cs fuel' ap _ hcs hl'
    · rw [List.cons_append, amd64_emitf_loop_lit env node _ c _ ap st hc hn, emit_text, if_neg hn]
      exact amd64_emitf_loop_text_unknown env node mods rest hm hd cs (fuel' + 1) ap _ hcs
        (by omega)

theorem amd64_emitf_loop_L (env : emit_env) (node : ir_node) (fuel : Nat)
    (mods post : List Char) (ap : List emitf_arg) (st : be_emit_state)
    (hm : ∀ c ∈ mods, c ∈ modifier_chars) :
    amd64_emitf_loop env node (fuel + 1) ('%' :: (mods ++ 'L' :: post)) ap st =
      amd64_emitf_loop env node fuel post ap
        (be_emit_string st (env.be_gas_emit_block_name (get_cfop_target_block env node))) := by
  have hrest := amd64_emitf_mods_append mods ('L' :: post) EMIT_NONE hm
    (fun d h => by
      simp only [List.head?_cons, Option.mem_def, Option.some.injEq] at h
      subst h
      decide)
  rw [amd64_emitf_loop]
  simp [List.takeWhile_cons, List.dropWhile_cons, hrest]

/-- C20, as the code has it: `amd64_emitf` fails fatally, with the message
`unknown format conversion`, wherever an unrecognized directive character or the
end of the format follows `%` and its modifiers, both in the interpreter loop
and for a whole format whose text before that `%` is literal.  Modifiers are
never checked: any sequence of them is accepted before `%L` and changes
nothing there, and on a register directive the modifier set only selects how
the register is written. -/
theorem amd64_emitf_unknown_directive (env : emit_env) (node : ir_node) (st : be_emit_state)
    (ap : List emitf_arg) (mods : List Char) (hm : ∀ c ∈ mods, c ∈ modifier_chars) :
    (∀ (fuel : Nat) (rest : List Char),
        (∀ d ∈ rest.head?, d ∉ modifier_chars ∧ d ∉ directive_chars) →
        amd64_emitf_loop env node (fuel + 1) ('%' :: (mods ++ rest)) ap st =
          .error { msg := "unknown format conversion", st := st }) ∧
      (∀ (fmt : String) (text rest : List Char),
        c_string fmt = text ++ '%' :: (mods ++ rest) → '%' ∉ text →
        (∀ d ∈ rest.head?, d ∉ modifier_chars ∧ d ∉ directive_chars) →
        amd64_emitf env st node fmt ap =
          .error { msg := "unknown format conversion",
                   st := emit_text (be_emit_char st '\t') text }) ∧
      (∀ (fuel : Nat) (post : List Char),
        amd64_emitf_loop env node (fuel + 1) ('%' :: (mods ++ 'L' :: post)) ap st =
          amd64_emitf_loop env node fuel post ap
            (be_emit_string st (env.be_gas_emit_block_name (get_cfop_target_block env node)))) ∧
      (∀ (mod : amd64_emit_mod_t) (reg : arch_register_t),
        amd64_emitf_emit_R env st node mod reg = .ok (emit_register st reg) ∨
          ∃ mode, amd64_emitf_emit_R env st node mod reg = emit_register_mode st reg mode) := by
  refine ⟨fun fuel rest hd => amd64_emitf_loop_unknown env node fuel mods rest ap st hm hd,
    ?_, fun fuel post => amd64_emitf_loop_L env node fuel mods post ap st hm, ?_⟩
  · intro fmt text rest hfmt hp hd
    unfold amd64_emitf
    simp only
    have hfmt' : List.takeWhile (fun c => decide (c ≠ Char.ofNat 0)) fmt.data =
        text ++ '%' :: (mods ++ rest) := hfmt
    rw [hfmt']
    have hlen : text.length ≤ (text ++ '%' :: (mods ++ rest)).length := by simp
    rw [amd64_emitf_loop_text_unknown env node mods rest hm hd text _ ap _ hp hlen]
    rfl
  · intro mod reg
    unfold amd64_emitf_emit_R
    split_ifs
    all_goals first
      | exact Or.inl rfl
      | exact Or.inr ⟨_, rfl⟩

/-- Witness of C20 on the demo function: the unrecognized directive `%^Q`. -/
theorem amd64_emitf_unknown_directive_witness :
    amd64_emitf env_demo st_empty 20 "jmp %^Q" [] =
      .error { msg := "unknown format conversion", st := { lines := [], cur := "\tjmp " } } :=
  ((amd64_emitf_unknown_directive env_demo 20 st_empty [] ['^'] (by decide)).2.1
      "jmp %^Q" ['j', 'm', 'p', ' '] ['Q'] (by decide) (by decide) (by decide)).trans
    (congrArg Except.error (by decide))

/-- C20 as stated fails for modifier combinations: a width modifier before the
non-register directive `%L` and two conflicting width modifiers before the
register directive `%D0` are both accepted. -/
theorem amd64_emitf_unknown_directive_counterexample :
    amd64_emitf env_demo st_empty 20 "jmp %3L" [] =
        .ok { lines := ["\tjmp .L102\n"], cur := "" } ∧
      amd64_emitf env_demo st_empty 20 "inc %^3D0" [] =
        .ok { lines := ["\tinc %r0\n"], cur := "" } := by
  constructor <;> rfl

/-! ## Directives of the template interpreter -/

theorem amd64_emitf_mods_nonmod (rest : List Char) (m : amd64_emit_mod_t)
    (hd : ∀ d ∈ rest.head?, d ∉ modifier_chars) : amd64_emitf_mods rest m = (m, rest) := by
  cases rest with
  | nil => rfl
  | cons d post =>
    have h := hd d (by simp)
    simp only [modifier_chars, List.mem_cons, List.mem_singleton, List.not_mem_nil, or_false,
      not_or] at h
    simp [amd64_emitf_mods, h.1, h.2.1, h.2.2.1, h.2.2.2]

theorem mod_bits_or :
    ∀ m < 32, ∀ b ∈ [EMIT_IGNORE_MODE, EMIT_FORCE_32, EMIT_CONV_DEST, EMIT_INDIRECT_STAR],
      m ||| b < 32 ∧
        ∀ b' ∈ [EMIT_IGNORE_MODE, EMIT_FORCE_32, EMIT_CONV_DEST, EMIT_INDIRECT_STAR],
          ((m ||| b) &&& b' ≠ 0 ↔ (m &&& b' ≠ 0 ∨ b = b')) := by
  decide

/-- The modifier set collected from modifier characters: below 32, and each bit
is set exactly when it was set before or its character occurs. -/
theorem amd64_emitf_mods_bits :
    ∀ (mods rest : List Char) (m : amd64_emit_mod_t),
      (∀ c ∈ mods, c ∈ modifier_chars) → (∀ d ∈ rest.head?, d ∉ modifier_chars) → m < 32 →
      (amd64_emitf_mods (mods ++ rest) m).1 < 32 ∧
        ((amd64_emitf_mods (mods ++ rest) m).1 &&& EMIT_IGNORE_MODE ≠ 0 ↔
          (m &&& EMIT_IGNORE_MODE ≠ 0 ∨ '^' ∈ mods)) ∧
        ((amd64_emitf_mods (mods ++ rest) m).1 &&& EMIT_FORCE_32 ≠ 0 ↔
          (m &&& EMIT_FORCE_32 ≠ 0 ∨ '3' ∈ mods)) ∧
        ((amd64_emitf_mods (mods ++ rest) m).1 &&& EMIT_CONV_DEST ≠ 0 ↔
          (m &&& EMIT_CONV_DEST ≠ 0 ∨ '#' ∈ mods)) ∧
        ((amd64_emitf_mods (mods ++ rest) m).1 &&& EMIT_INDIRECT_STAR ≠ 0 ↔
          (m &&& EMIT_INDIRECT_STAR ≠ 0 ∨ '*' ∈ mods))
  | [], rest, m, _, hd, hlt => by
    rw [List.nil_append, amd64_emitf_mods_nonmod rest m hd]
    simp [hlt]
  | c :: mods, rest, m, hm, hd, hlt => by
    have hc := hm c (by simp)
    have hm' : ∀ x ∈ mods, x ∈ modifier_chars := fun x hx => hm x (List.mem_cons_of_mem _ hx)
    simp only [modifier_chars, List.mem_cons, List.mem_singleton, List.not_mem_nil,
      or_false] at hc
    rcases hc with rfl | rfl | rfl | rfl
    · have hb := mod_bits_or m hlt EMIT_IGNORE_MODE (by simp)
      have ih := amd64_emitf_mods_bits mods rest (m ||| EMIT_IGNORE_MODE) hm' hd hb.1
      have h1 := hb.2 EMIT_IGNORE_MODE (by simp)
      have h2 := hb.2 EMIT_FORCE_32 (by simp)
      have h3 := hb.2 EMIT_CONV_DEST (by simp)
      have h4 := hb.2 EMIT_INDIRECT_STAR (by simp)
      have e2 : ¬ EMIT_IGNORE_MODE = EMIT_FORCE_32 := by decide
      have e3 : ¬ EMIT_IGNORE_MODE = EMIT_CONV_DEST := by decide
      have e4 : ¬ EMIT_IGNORE_MODE = EMIT_INDIRECT_STAR := by decide
      simp only [List.cons_append, amd64_emitf_mods, if_true]
      simp only [h1, h2, h3, h4, e2, e3, e4, or_false, or_true] at ih
      simpa using ih
    · have hb := mod_bits_or m hlt EMIT_FORCE_32 (by simp)
      have ih := amd64_emitf_mods_bits mods rest (m ||| EMIT_FORCE_32) hm' hd hb.1
      have h1 := hb.2 EMIT_IGNORE_MODE (by simp)
      have h2 := hb.2 EMIT_FORCE_32 (by simp)
      have h3 := hb.2 EMIT_CONV_DEST (by simp)
      have h4 := hb.2 EMIT_INDIRECT_STAR (by simp)
      have e1 : ¬ EMIT_FORCE_32 = EMIT_IGNORE_MODE := by decide
      have e3 : ¬ EMIT_FORCE_32 = EMIT_CONV_DEST := by decide
      have e4 : ¬ EMIT_FORCE_32 = EMIT_INDIRECT_STAR := by decide
      simp only [List.cons_append, amd64_emitf_mods, if_true]
      simp only [h1, h2, h3, h4, e1, e3, e4, or_false, or_true] at ih
      simpa using ih
    · have hb := mod_bits_or m hlt EMIT_CONV_DEST (by simp)
      have ih := amd64_emitf_mods_bits mods rest (m ||| EMIT_CONV_DEST) hm' hd hb.1
      have h1 := hb.2 EMIT_IGNORE_MODE (by simp)
      have h2 := hb.2 EMIT_FORCE_32 (by simp)
      have h3 := hb.2 EMIT_CONV_DEST (by simp)
      have h4 := hb.2 EMIT_INDIRECT_STAR (by simp)
      have e1 : ¬ EMIT_CONV_DEST = EMIT_IGNORE_MODE := by decide
      have e2 : ¬ EMIT_CONV_DEST = EMIT_FORCE_32 := by decide
      have e4 : ¬ EMIT_CONV_DEST = EMIT_INDIRECT_STAR := by decide
      simp only [List.cons_append, amd64_emitf_mods, if_true]
      simp only [h1, h2, h3, h4, e1, e2, e4, or_false, or_true] at ih
      simpa using ih
    · have hb := mod_bits_or m hlt EMIT_INDIRECT_STAR (by simp)
      have ih := amd64_emitf_mods_bits mods rest (m ||| EMIT_INDIRECT_STAR) hm' hd hb.1
      have h1 := hb.2 EMIT_IGNORE_MODE (by simp)
      have h2 := hb.2 EMIT_FORCE_32 (by simp)
      have h3 := hb.2 EMIT_CONV_DEST (by simp)
      have h4 := hb.2 EMIT_INDIRECT_STAR (by simp)
      have e1 : ¬ EMIT_INDIRECT_STAR = EMIT_IGNORE_MODE := by decide
      have e2 : ¬ EMIT_INDIRECT_STAR = EMIT_FORCE_32 := by decide
      have e3 : ¬ EMIT_INDIRECT_STAR = EMIT_CONV_DEST := by decide
      simp only [List.cons_append, amd64_emitf_mods, if_true]
      simp only [h1, h2, h3, h4, e1, e2, e3, or_false, or_true] at ih
      simpa using ih

theorem amd64_emitf_mods_fst :
    ∀ (mods rest : List Char) (m : amd64_emit_mod_t),
      (∀ c ∈ mods, c ∈ modifier_chars) → (∀ d ∈ rest.head?, d ∉ modifier_chars) →
      (amd64_emitf_mods (mods ++ rest) m).1 = (amd64_emitf_mods mods m).1
  | [], rest, m, _, hd => by
    rw [List.nil_append, amd64_emitf_mods_nonmod rest m hd]
    rfl
  | c :: mods, rest, m, hm, hd => by
    have hc := hm c (by simp)
    have ih : ∀ m', (amd64_emitf_mods (mods ++ rest) m').1 = (amd64_emitf_mods mods m').1 :=
      fun m' => amd64_emitf_mods_fst mods rest m'
        (fun x hx => hm x (List.mem_cons_of_mem _ hx)) hd
    simp only [modifier_chars, List.mem_cons, List.mem_singleton, List.not_mem_nil,
      or_false] at hc
    rcases hc with rfl | rfl | rfl | rfl <;> simp [amd64_emitf_mods, ih]

/-- What the characters of a modifier sequence mean for the modifier set. -/
theorem mods_of_bits (mods : List Char) (hm : ∀ c ∈ mods, c ∈ modifier_chars) :
    (mods_of mods &&& EMIT_IGNORE_MODE ≠ 0 ↔ '^' ∈ mods) ∧
      (mods_of mods &&& EMIT_FORCE_32 ≠ 0 ↔ '3' ∈ mods) ∧
      (mods_of mods &&& EMIT_CONV_DEST ≠ 0 ↔ '#' ∈ mods) ∧
      (mods_of mods &&& EMIT_INDIRECT_STAR ≠ 0 ↔ '*' ∈ mods) := by
  have h := amd64_emitf_mods_bits mods [] EMIT_NONE hm (by simp) (by decide)
  rw [List.append_nil] at h
  have z1 : EMIT_NONE &&& EMIT_IGNORE_MODE = 0 := by decide
  have z2 : EMIT_NONE &&& EMIT_FORCE_32 = 0 := by decide
  have z3 : EMIT_NONE &&& EMIT_CONV_DEST = 0 := by decide
  have z4 : EMIT_NONE &&& EMIT_INDIRECT_STAR = 0 := by decide
  simp only [z1, z2, z3, z4, ne_eq, not_true_eq_false, false_or] at h
  exact h.2

theorem directive_head (d : Char) (post : List Char) (hd : d ∉ modifier_chars) :
    ∀ x ∈ (d :: post).head?, x ∉ modifier_chars := by
  intro x hx
  simp only [List.head?_cons, Option.mem_def, Option.some.injEq] at hx
  subst hx
  exact hd

theorem amd64_emitf_loop_R (env : emit_env) (node : ir_node) (fuel : Nat)
    (mods post : List Char) (reg : arch_register_t) (ap : List emitf_arg) (st : be_emit_state)
    (hm : ∀ c ∈ mods, c ∈ modifier_chars) :
    amd64_emitf_loop env node (fuel + 1) ('%' :: (mods ++ 'R' :: post)) (.reg reg :: ap) st =
      emit_then (amd64_emitf_emit_R env st node (mods_of mods) reg)
        (amd64_emitf_loop env node fuel post ap) := by
  have hh := directive_head 'R' post (by decide)
  have h2 := amd64_emitf_mods_append mods ('R' :: post) EMIT_NONE hm hh
  have h1 := amd64_emitf_mods_fst mods ('R' :: post) EMIT_NONE hm hh
  rw [amd64_emitf_loop]
  simp only [List.takeWhile_cons, List.dropWhile_cons, ne_eq, not_true_eq_false, false_and,
    decide_False, if_false, h1, h2, Bool.false_eq_true, mods_of, emit_then]
  simp

theorem amd64_emitf_loop_D (env : emit_env) (node : ir_node) (fuel : Nat)
    (mods post : List Char) (n : Char) (ap : List emitf_arg) (st : be_emit_state)
    (hm : ∀ c ∈ mods, c ∈ modifier_chars) (hn : ¬(n < '0' ∨ '9' ≤ n)) :
    amd64_emitf_loop env node (fuel + 1) ('%' :: (mods ++ 'D' :: n :: post)) ap st =
      emit_then (amd64_emitf_emit_R env st node (mods_of mods)
          (env.arch_get_irn_register_out node (n.toNat - '0'.toNat)))
        (amd64_emitf_loop env node fuel post ap) := by
  have hh := directive_head 'D' (n :: post) (by decide)
  have h2 := amd64_emitf_mods_append mods ('D' :: n :: post) EMIT_NONE hm hh
  have h1 := amd64_emitf_mods_fst mods ('D' :: n :: post) EMIT_NONE hm hh
  rw [amd64_emitf_loop]
  simp only [List.takeWhile_cons, List.dropWhile_cons, ne_eq, not_true_eq_false, false_and,
    decide_False, if_false, h1, h2, Bool.false_eq_true, mods_of, emit_then]
  simp [hn]

theorem amd64_emitf_loop_S (env : emit_env) (node : ir_node) (fuel : Nat)
    (mods post : List Char) (n : Char) (ap : List emitf_arg) (st : be_emit_state)
    (hm : ∀ c ∈ mods, c ∈ modifier_chars) (hn : '0' ≤ n ∧ n ≤ '9') :
    amd64_emitf_loop env node (fuel + 1) ('%' :: (mods ++ 'S' :: n :: post)) ap st =
      emit_then (amd64_emitf_emit_R env st node (mods_of mods)
          (env.arch_get_irn_register_in node (n.toNat - '0'.toNat)))
        (amd64_emitf_loop env node fuel post ap) := by
  have hh := directive_head 'S' (n :: post) (by decide)
  have h2 := amd64_emitf_mods_append mods ('S' :: n :: post) EMIT_NONE hm hh
  have h1 := amd64_emitf_mods_fst mods ('S' :: n :: post) EMIT_NONE hm hh
  have hO : n ≠ 'O' := by
    intro h
    rw [h] at hn
    exact absurd hn.2 (by decide)
  rw [amd64_emitf_loop]
  simp only [List.takeWhile_cons, List.dropWhile_cons, ne_eq, not_true_eq_false, false_and,
    decide_False, if_false, h1, h2, Bool.false_eq_true, mods_of, emit_then]
  simp [hn, hO]

theorem amd64_emitf_loop_AM (env : emit_env) (node : ir_node) (fuel : Nat)
    (mods post : List Char) (ap : List emitf_arg) (st : be_emit_state)
    (hm : ∀ c ∈ mods, c ∈ modifier_chars) :
    amd64_emitf_loop env node (fuel + 1) ('%' :: (mods ++ 'A' :: 'M' :: post)) ap st =
      emit_then (amd64_emit_am env st node (decide ('*' ∈ mods)))
        (amd64_emitf_loop env node fuel post ap) := by
  have hh := directive_head 'A' ('M' :: post) (by decide)
  have h2 := amd64_emitf_mods_append mods ('A' :: 'M' :: post) EMIT_NONE hm hh
  have h1 := amd64_emitf_mods_fst mods ('A' :: 'M' :: post) EMIT_NONE hm hh
  have hb := (mods_of_bits mods hm).2.2.2
  unfold mods_of at hb
  have hdec : decide ((amd64_emitf_mods mods EMIT_NONE).1 &&& EMIT_INDIRECT_STAR ≠ 0) =
      decide ('*' ∈ mods) := by
    simp only [hb]
  rw [amd64_emitf_loop]
  simp only [List.takeWhile_cons, List.dropWhile_cons, ne_eq, not_true_eq_false, false_and,
    decide_False, if_false, h1, h2, Bool.false_eq_true, emit_then]
  simp only [ne_eq] at hdec
  simp [hdec]

theorem amd64_emitf_loop_SO (env : emit_env) (node : ir_node) (fuel : Nat)
    (mods post : List Char) (ap : List emitf_arg) (st : be_emit_state)
    (hm : ∀ c ∈ mods, c ∈ modifier_chars) :
    amd64_emitf_loop env node (fuel + 1) ('%' :: (mods ++ 'S' :: 'O' :: post)) ap st =
      emit_then (emit_shiftop env st node) (amd64_emitf_loop env node fuel post ap) := by
  have hh := directive_head 'S' ('O' :: post) (by decide)
  have h2 := amd64_emitf_mods_append mods ('S' :: 'O' :: post) EMIT_NONE hm hh
  rw [amd64_emitf_loop]
  simp only [List.takeWhile_cons, List.dropWhile_cons, ne_eq, not_true_eq_false, false_and,
    decide_False, if_false, h2, Bool.false_eq_true, emit_then]
  simp

/-- C21: a register directive (`%R`, `%D<n>` or `%S<n>` with a slot digit the
directive accepts) whose modifiers include `^` writes `%` followed by the
register's own, full-width name and goes on with the rest of the format.  This
holds in every environment, so for every width of the instruction, valid or not:
the width is not read. -/
theorem amd64_emitf_ignore_mode (env : emit_env) (node : ir_node) (st : be_emit_state)
    (ap : List emitf_arg) (mods : List Char)
    (hm : ∀ c ∈ mods, c ∈ modifier_chars) (hi : '^' ∈ mods) :
    (∀ reg : arch_register_t,
        amd64_emitf_emit_R env st node (mods_of mods) reg =
          .ok (be_emit_string (be_emit_char st '%') reg.name)) ∧
      (∀ (fuel : Nat) (post : List Char) (reg : arch_register_t),
        amd64_emitf_loop env node (fuel + 1) ('%' :: (mods ++ 'R' :: post)) (.reg reg :: ap) st =
          amd64_emitf_loop env node fuel post ap
            (be_emit_string (be_emit_char st '%') reg.name)) ∧
      (∀ (fuel : Nat) (post : List Char) (n : Char), ¬(n < '0' ∨ '9' ≤ n) →
        amd64_emitf_loop env node (fuel + 1) ('%' :: (mods ++ 'D' :: n :: post)) ap st =
          amd64_emitf_loop env node fuel post ap
            (be_emit_string (be_emit_char st '%')
              (env.arch_get_irn_register_out node (n.toNat - '0'.toNat)).name)) ∧
      (∀ (fuel : Nat) (post : List Char) (n : Char), '0' ≤ n ∧ n ≤ '9' →
        amd64_emitf_loop env node (fuel + 1) ('%' :: (mods ++ 'S' :: n :: post)) ap st =
          amd64_emitf_loop env node fuel post ap
            (be_emit_string (be_emit_char st '%')
              (env.arch_get_irn_register_in node (n.toNat - '0'.toNat)).name)) := by
  have hbit := (mods_of_bits mods hm).1.mpr hi
  have hR : ∀ reg : arch_register_t,
      amd64_emitf_emit_R env st node (mods_of mods) reg =
        .ok (be_emit_string (be_emit_char st '%') reg.name) := by
    intro reg
    unfold amd64_emitf_emit_R
    rw [if_pos hbit]
    rfl
  refine ⟨hR, ?_, ?_, ?_⟩
  · intro fuel post reg
    rw [amd64_emitf_loop_R env node fuel mods post reg ap st hm, hR]
    rfl
  · intro fuel post n hn
    rw [amd64_emitf_loop_D env node fuel mods post n ap st hm hn, hR]
    rfl
  · intro fuel post n hn
    rw [amd64_emitf_loop_S env node fuel mods post n ap st hm hn, hR]
    rfl

/-- Witness of C21 on the function of moves: node 1 has a width of 8 bits, and
`%^S0` writes the full name `%rcx` of its input register. -/
theorem amd64_emitf_ignore_mode_witness :
    amd64_emitf_loop env_mov 1 2 ['%', '^', 'S', '0'] [] st_empty =
      .ok { lines := [], cur := "%rcx" } :=
  ((amd64_emitf_ignore_mode env_mov 1 st_empty [] ['^'] (by decide) (by decide)).2.2.2
      1 [] '0' (by decide)).trans rfl

/-- C22: every register directive writes its register through the code at
`emit_R` with the modifier set of its modifier characters.  The instruction's
own width is the width of the move-immediate attribute for a `MovImm` and the
width of the address attribute for every other node.  With `#` and neither `^`
nor `3`, the register is written at 64 bits if that width is 64 bits and at 32
bits if it is 8, 16 or 32 bits (or any other value); with `3` and neither `^`
nor `#` at 32 bits; with none of the three at that width itself.  A register
that is not of the xmm class is written by the name resolved at the width. -/
theorem amd64_emitf_width_modifiers (env : emit_env) (node : ir_node) (st : be_emit_state)
    (ap : List emitf_arg) (mods : List Char) (hm : ∀ c ∈ mods, c ∈ modifier_chars) :
    (∀ (fuel : Nat) (post : List Char) (reg : arch_register_t),
        amd64_emitf_loop env node (fuel + 1) ('%' :: (mods ++ 'R' :: post)) (.reg reg :: ap) st =
          emit_then (amd64_emitf_emit_R env st node (mods_of mods) reg)
            (amd64_emitf_loop env node fuel post ap)) ∧
      (∀ (fuel : Nat) (post : List Char) (n : Char), ¬(n < '0' ∨ '9' ≤ n) →
        amd64_emitf_loop env node (fuel + 1) ('%' :: (mods ++ 'D' :: n :: post)) ap st =
          emit_then (amd64_emitf_emit_R env st node (mods_of mods)
              (env.arch_get_irn_register_out node (n.toNat - '0'.toNat)))
            (amd64_emitf_loop env node fuel post ap)) ∧
      (∀ (fuel : Nat) (post : List Char) (n : Char), '0' ≤ n ∧ n ≤ '9' →
        amd64_emitf_loop env node (fuel + 1) ('%' :: (mods ++ 'S' :: n :: post)) ap st =
          emit_then (amd64_emitf_emit_R env st node (mods_of mods)
              (env.arch_get_irn_register_in node (n.toNat - '0'.toNat)))
            (amd64_emitf_loop env node fuel post ap)) ∧
      (∀ (reg : arch_register_t) (w : amd64_insn_mode_t),
        (if env.is_amd64_MovImm node = true then (env.get_amd64_movimm_attr_const node).insn_mode
          else (env.get_amd64_binop_addr_attr_const node).base.insn_mode) = w →
        ('#' ∈ mods → '^' ∉ mods → '3' ∉ mods →
          (w = .INSN_MODE_64 →
            amd64_emitf_emit_R env st node (mods_of mods) reg =
              emit_register_mode st reg .INSN_MODE_64) ∧
          (w ≠ .INSN_MODE_64 →
            amd64_emitf_emit_R env st node (mods_of mods) reg =
              emit_register_mode st reg .INSN_MODE_32)) ∧
        ('3' ∈ mods → '^' ∉ mods → '#' ∉ mods →
          amd64_emitf_emit_R env st node (mods_of mods) reg =
            emit_register_mode st reg .INSN_MODE_32) ∧
        ('^' ∉ mods → '3' ∉ mods → '#' ∉ mods →
          amd64_emitf_emit_R env st node (mods_of mods) reg = emit_register_mode st reg w)) ∧
      (∀ (reg : arch_register_t) (mode : amd64_insn_mode_t),
        reg.reg_class ≠ .CLASS_amd64_xmm →
        emit_register_mode st reg mode = emit_register_insn_mode st reg mode) := by
  obtain ⟨b1, b2, b3, _⟩ := mods_of_bits mods hm
  refine ⟨fun fuel post reg => amd64_emitf_loop_R env node fuel mods post reg ap st hm,
    fun fuel post n hn => amd64_emitf_loop_D env node fuel mods post n ap st hm hn,
    fun fuel post n hn => amd64_emitf_loop_S env node fuel mods post n ap st hm hn,
    ?_, ?_⟩
  · intro reg w hw
    have hmode : get_amd64_insn_mode env node = w := by
      rw [← hw]
      unfold get_amd64_insn_mode get_amd64_addr_attr_const
      rfl
    refine ⟨?_, ?_, ?_⟩
    · intro h1 h2 h3
      have hR : amd64_emitf_emit_R env st node (mods_of mods) reg =
          emit_register_mode st reg
            (if w = .INSN_MODE_64 then .INSN_MODE_64 else .INSN_MODE_32) := by
        unfold amd64_emitf_emit_R
        rw [if_neg (fun h => h2 (b1.mp h)), if_neg (fun h => h3 (b2.mp h)), if_pos (b3.mpr h1),
          hmode]
      constructor
      · intro h64
        rw [hR, if_pos h64]
      · intro h64
        rw [hR, if_neg h64]
    · intro h1 h2 h3
      unfold amd64_emitf_emit_R
      rw [if_neg (fun h => h2 (b1.mp h)), if_pos (b2.mpr h1)]
    · intro h1 h2 h3
      unfold amd64_emitf_emit_R
      rw [if_neg (fun h => h1 (b1.mp h)), if_neg (fun h => h2 (b2.mp h)),
        if_neg (fun h => h3 (b3.mp h)), hmode]
  · intro reg mode hx
    unfold emit_register_mode
    rw [if_neg hx]

/-- Witness of C22.  On the function of moves node 1 has a width of 8 bits, node
2 of 16 bits and node 4 of 64 bits: `%#D0` writes `%eax` for node 1 and `%rax`
for node 4, `%D0` writes `%ax` for node 2 and `%3D0` writes `%eax` for node 4.
On the function of unary operands node 9 is a `MovImm` of 64 bits whose address
attribute says 16 bits: `%#D0` writes `%rax`. -/
theorem amd64_emitf_width_modifiers_witness :
    amd64_emitf_emit_R env_mov st_empty 1 (mods_of ['#']) (env_mov.arch_get_irn_register_out 1 0) =
        .ok { lines := [], cur := "%eax" } ∧
      amd64_emitf_emit_R env_mov st_empty 4 (mods_of ['#'])
          (env_mov.arch_get_irn_register_out 4 0) =
        .ok { lines := [], cur := "%rax" } ∧
      amd64_emitf_emit_R env_mov st_empty 2 (mods_of []) (env_mov.arch_get_irn_register_out 2 0) =
        .ok { lines := [], cur := "%ax" } ∧
      amd64_emitf_emit_R env_mov st_empty 4 (mods_of ['3'])
          (env_mov.arch_get_irn_register_out 4 0) =
        .ok { lines := [], cur := "%eax" } ∧
      amd64_emitf_emit_R env_unop st_empty 9 (mods_of ['#'])
          (env_unop.arch_get_irn_register_out 9 0) =
        .ok { lines := [], cur := "%rax" } :=
  ⟨(((amd64_emitf_width_modifiers env_mov 1 st_empty [] ['#'] (by decide)).2.2.2.1
        (env_mov.arch_get_irn_register_out 1 0) .INSN_MODE_8 rfl).1
        (by decide) (by decide) (by decide)).2 (by decide) |>.trans rfl,
   (((amd64_emitf_width_modifiers env_mov 4 st_empty [] ['#'] (by decide)).2.2.2.1
        (env_mov.arch_get_irn_register_out 4 0) .INSN_MODE_64 rfl).1
        (by decide) (by decide) (by decide)).1 rfl |>.trans rfl,
   ((amd64_emitf_width_modifiers env_mov 2 st_empty [] [] (by decide)).2.2.2.1
        (env_mov.arch_get_irn_register_out 2 0) .INSN_MODE_16 rfl).2.2
        (by decide) (by decide) (by decide) |>.trans rfl,
   ((amd64_emitf_width_modifiers env_mov 4 st_empty [] ['3'] (by decide)).2.2.2.1
        (env_mov.arch_get_irn_register_out 4 0) .INSN_MODE_64 rfl).2.1
        (by decide) (by decide) (by decide) |>.trans rfl,
   (((amd64_emitf_width_modifiers env_unop 9 st_empty [] ['#'] (by decide)).2.2.2.1
        (env_unop.arch_get_irn_register_out 9 0) .INSN_MODE_64 rfl).1
        (by decide) (by decide) (by decide)).1 rfl |>.trans rfl⟩

/-- C23: the directive `%AM` writes a `*` before the operand exactly when the
modifier `*` is among its modifiers and the operand mode of the node is
`AMD64_OP_UNOP_REG` or `AMD64_OP_UNOP_ADDR`; apart from that `*` the output is
the one without the modifier, in every operand mode. -/
theorem amd64_emit_am_indirect_star (env : emit_env) (node : ir_node) (st : be_emit_state)
    (ap : List emitf_arg) (mods : List Char) (hm : ∀ c ∈ mods, c ∈ modifier_chars) :
    (∀ (fuel : Nat) (post : List Char),
        amd64_emitf_loop env node (fuel + 1) ('%' :: (mods ++ 'A' :: 'M' :: post)) ap st =
          emit_then (amd64_emit_am env st node (decide ('*' ∈ mods)))
            (amd64_emitf_loop env node fuel post ap)) ∧
      (∀ indirect_star : Bool,
        amd64_emit_am env st node indirect_star =
          amd64_emit_am env
            (if indirect_star = true ∧
                ((get_amd64_addr_attr_const env node).base.op_mode = .AMD64_OP_UNOP_REG ∨
                  (get_amd64_addr_attr_const env node).base.op_mode = .AMD64_OP_UNOP_ADDR)
              then be_emit_char st '*' else st)
            node false) := by
  refine ⟨fun fuel post => amd64_emitf_loop_AM env node fuel mods post ap st hm, ?_⟩
  intro indirect_star
  cases indirect_star
  · simp
  · unfold amd64_emit_am
    cases h : (get_amd64_addr_attr_const env node).base.op_mode <;> simp [h]

/-- Witness of C23 on the function of unary operands: `%*AM` of the node in mode
`AMD64_OP_UNOP_REG` at 16 bits writes `*%cx`. -/
theorem amd64_emit_am_indirect_star_witness :
    amd64_emitf_loop env_unop 1 2 ['%', '*', 'A', 'M'] [] st_empty =
      .ok { lines := [], cur := "*%cx" } :=
  ((amd64_emit_am_indirect_star env_unop 1 st_empty [] ['*'] (by decide)).1 1 []).trans rfl

/-- C24: `emit_shiftop` writes, in mode `AMD64_OP_SHIFT_IMM`, `$0x`, the
immediate in upper-case hexadecimal digits, `, ` and input register 0 at the
width of the instruction; in mode `AMD64_OP_SHIFT_REG`, input register 1 at 8
bits, `, ` and input register 0 at the width of the instruction; in every other
operand mode it fails fatally and writes nothing.  The directive `%SO` is
`emit_shiftop`. -/
theorem emit_shiftop_text (env : emit_env) (node : ir_node) (st : be_emit_state)
    (ap : List emitf_arg) (mods : List Char) (hm : ∀ c ∈ mods, c ∈ modifier_chars) :
    (∀ (fuel : Nat) (post : List Char),
        amd64_emitf_loop env node (fuel + 1) ('%' :: (mods ++ 'S' :: 'O' :: post)) ap st =
          emit_then (emit_shiftop env st node) (amd64_emitf_loop env node fuel post ap)) ∧
      ((env.get_amd64_shift_attr_const node).base.op_mode = .AMD64_OP_SHIFT_IMM →
        emit_shiftop env st node =
          emit_register_mode
            (be_emit_string st
              ("$0x" ++ printf_X (env.get_amd64_shift_attr_const node).immediate ++ ", "))
            (env.arch_get_irn_register_in node 0)
            (env.get_amd64_shift_attr_const node).insn_mode) ∧
      ((env.get_amd64_shift_attr_const node).base.op_mode = .AMD64_OP_SHIFT_REG →
        emit_shiftop env st node =
          emit_then (emit_register_mode st (env.arch_get_irn_register_in node 1) .INSN_MODE_8)
            (fun st1 =>
              emit_register_mode (be_emit_string st1 ", ") (env.arch_get_irn_register_in node 0)
                (env.get_amd64_shift_attr_const node).insn_mode)) ∧
      ((env.get_amd64_shift_attr_const node).base.op_mode ≠ .AMD64_OP_SHIFT_IMM →
        (env.get_amd64_shift_attr_const node).base.op_mode ≠ .AMD64_OP_SHIFT_REG →
        emit_shiftop env st node =
          .error { msg := "invalid op_mode for shiftop", st := st }) ∧
      (∀ c ∈ (printf_X (env.get_amd64_shift_attr_const node).immediate).data,
        c ∈ hex_upper_digits) ∧
      ((env.get_amd64_shift_attr_const node).immediate < 2 ^ 32 →
        hex_value (printf_X (env.get_amd64_shift_attr_const node).immediate).data =
          (env.get_amd64_shift_attr_const node).immediate) := by
  refine ⟨fun fuel post => amd64_emitf_loop_SO env node fuel mods post ap st hm, ?_, ?_, ?_,
    hex_upper_digits_only _, ?_⟩
  · intro h
    unfold emit_shiftop
    simp [h]
  · intro h
    unfold emit_shiftop emit_then
    simp [h, be_emit_cstring]
  · intro h1 h2
    unfold emit_shiftop
    cases h : (env.get_amd64_shift_attr_const node).base.op_mode <;>
      simp_all [emit_fatal]
  · intro h
    unfold printf_X
    rw [hex_value_hex_upper]
    have h' : ((env.get_amd64_shift_attr_const node).immediate : Int) < 2 ^ 32 := by
      exact_mod_cast h
    rw [Int.emod_eq_of_lt (by positivity) h']
    simp

/-- Witness of C24 on the function of unary operands: the shift by the
immediate 31 at 32 bits is written as `$0x1F, %ecx`. -/
theorem emit_shiftop_text_witness :
    amd64_emitf_loop env_unop 1 2 ['%', 'S', 'O'] [] st_empty =
      .ok { lines := [], cur := "$0x1F, %ecx" } :=
  ((emit_shiftop_text env_unop 1 st_empty [] [] (by decide)).1 1 []).trans rfl

theorem amd64_emitf_loop_M (env : emit_env) (node : ir_node) (fuel : Nat)
    (mods post : List Char) (ap : List emitf_arg) (st : be_emit_state)
    (hm : ∀ c ∈ mods, c ∈ modifier_chars) :
    amd64_emitf_loop env node (fuel + 1) ('%' :: (mods ++ 'M' :: 'S' :: post)) ap st =
        emit_then
          (amd64_emit_insn_mode_suffix st (env.get_amd64_shift_attr_const node).insn_mode)
          (amd64_emitf_loop env node fuel post ap) ∧
      amd64_emitf_loop env node (fuel + 1) ('%' :: (mods ++ 'M' :: 'M' :: post)) ap st =
        emit_then
          (amd64_emit_insn_mode_suffix st (env.get_amd64_movimm_attr_const node).insn_mode)
          (amd64_emitf_loop env node fuel post ap) ∧
      amd64_emitf_loop env node (fuel + 1) ('%' :: (mods ++ 'M' :: 'X' :: post)) ap st =
        emit_then
          (amd64_emit_xmm_mode_suffix st (get_amd64_addr_attr_const env node).insn_mode)
          (amd64_emitf_loop env node fuel post ap) ∧
      ((∀ c ∈ post.head?, c ≠ 'S' ∧ c ≠ 'M' ∧ c ≠ 'X') →
        amd64_emitf_loop env node (fuel + 1) ('%' :: (mods ++ 'M' :: post)) ap st =
          emit_then
            (amd64_emit_insn_mode_suffix st (get_amd64_addr_attr_const env node).insn_mode)
            (amd64_emitf_loop env node fuel post ap)) := by
  have hS := amd64_emitf_mods_append mods ('M' :: 'S' :: post) EMIT_NONE hm
    (directive_head 'M' _ (by decide))
  have hM := amd64_emitf_mods_append mods ('M' :: 'M' :: post) EMIT_NONE hm
    (directive_head 'M' _ (by decide))
  have hX := amd64_emitf_mods_append mods ('M' :: 'X' :: post) EMIT_NONE hm
    (directive_head 'M' _ (by decide))
  have hO := amd64_emitf_mods_append mods ('M' :: post) EMIT_NONE hm
    (directive_head 'M' _ (by decide))
  refine ⟨?_, ?_, ?_, ?_⟩
  · rw [amd64_emitf_loop]
    simp only [List.takeWhile_cons, List.dropWhile_cons, ne_eq, not_true_eq_false, false_and,
      decide_False, if_false, hS, Bool.false_eq_true, emit_then]
    simp
  · rw [amd64_emitf_loop]
    simp only [List.takeWhile_cons, List.dropWhile_cons, ne_eq, not_true_eq_false, false_and,
      decide_False, if_false, hM, Bool.false_eq_true, emit_then]
    simp
  · rw [amd64_emitf_loop]
    simp only [List.takeWhile_cons, List.dropWhile_cons, ne_eq, not_true_eq_false, false_and,
      decide_False, if_false, hX, Bool.false_eq_true, emit_then]
    simp
  · intro hp
    rw [amd64_emitf_loop]
    simp only [List.takeWhile_cons, List.dropWhile_cons, ne_eq, not_true_eq_false, false_and,
      decide_False, if_false, hO, Bool.false_eq_true, emit_then]
    cases post with
    | nil => simp
    | cons c post' =>
      obtain ⟨h1, h2, h3⟩ := hp c (by simp)
      simp [h1, h2, h3]

/-- C25: the integer width suffix is `b`, `w`, `l`, `q` for the widths 8, 16, 32,
64 and a fatal error for every other width value; the float width suffix is `s`
for 32 bits, `d` for 64 bits and a fatal error for every other width, the
integer widths 8 and 16 included.  The directives `%MS`, `%MM` and `%M` write
the integer suffix of the shift, the move-immediate and the address attribute,
`%MX` the float suffix. -/
theorem amd64_emit_mode_suffixes (env : emit_env) (node : ir_node) (st : be_emit_state)
    (ap : List emitf_arg) (mods : List Char) (hm : ∀ c ∈ mods, c ∈ modifier_chars) :
    (amd64_emit_insn_mode_suffix st .INSN_MODE_8 = .ok (be_emit_char st 'b') ∧
      amd64_emit_insn_mode_suffix st .INSN_MODE_16 = .ok (be_emit_char st 'w') ∧
      amd64_emit_insn_mode_suffix st .INSN_MODE_32 = .ok (be_emit_char st 'l') ∧
      amd64_emit_insn_mode_suffix st .INSN_MODE_64 = .ok (be_emit_char st 'q') ∧
      ∀ raw, amd64_emit_insn_mode_suffix st (.INSN_MODE_OTHER raw) =
        .error { msg := "invalid insn mode", st := st }) ∧
      (amd64_emit_xmm_mode_suffix st .INSN_MODE_32 = .ok (be_emit_char st 's') ∧
        amd64_emit_xmm_mode_suffix st .INSN_MODE_64 = .ok (be_emit_char st 'd') ∧
        amd64_emit_xmm_mode_suffix st .INSN_MODE_8 =
          .error { msg := "invalid insn mode", st := st } ∧
        amd64_emit_xmm_mode_suffix st .INSN_MODE_16 =
          .error { msg := "invalid insn mode", st := st } ∧
        ∀ raw, amd64_emit_xmm_mode_suffix st (.INSN_MODE_OTHER raw) =
          .error { msg := "invalid insn mode", st := st }) ∧
      ∀ (fuel : Nat) (post : List Char),
        amd64_emitf_loop env node (fuel + 1) ('%' :: (mods ++ 'M' :: 'S' :: post)) ap st =
            emit_then
              (amd64_emit_insn_mode_suffix st (env.get_amd64_shift_attr_const node).insn_mode)
              (amd64_emitf_loop env node fuel post ap) ∧
          amd64_emitf_loop env node (fuel + 1) ('%' :: (mods ++ 'M' :: 'M' :: post)) ap st =
            emit_then
              (amd64_emit_insn_mode_suffix st (env.get_amd64_movimm_attr_const node).insn_mode)
              (amd64_emitf_loop env node fuel post ap) ∧
          amd64_emitf_loop env node (fuel + 1) ('%' :: (mods ++ 'M' :: 'X' :: post)) ap st =
            emit_then
              (amd64_emit_xmm_mode_suffix st (get_amd64_addr_attr_const env node).insn_mode)
              (amd64_emitf_loop env node fuel post ap) ∧
          ((∀ c ∈ post.head?, c ≠ 'S' ∧ c ≠ 'M' ∧ c ≠ 'X') →
            amd64_emitf_loop env node (fuel + 1) ('%' :: (mods ++ 'M' :: post)) ap st =
              emit_then
                (amd64_emit_insn_mode_suffix st (get_amd64_addr_attr_const env node).insn_mode)
                (amd64_emitf_loop env node fuel post ap)) :=
  ⟨⟨rfl, rfl, rfl, rfl, fun _ => rfl⟩, ⟨rfl, rfl, rfl, rfl, fun _ => rfl⟩,
    fun fuel post => amd64_emitf_loop_M env node fuel mods post ap st hm⟩

/-- Witness of C25 on the function of unary operands: the address attribute has
16 bits, so `%M` writes `w` and `%MX` fails. -/
theorem amd64_emit_mode_suffixes_witness :
    amd64_emitf_loop env_unop 1 2 ['%', 'M'] [] st_empty = .ok { lines := [], cur := "w" } ∧
      amd64_emitf_loop env_unop 1 2 ['%', 'M', 'X'] [] st_empty =
        .error { msg := "invalid insn mode", st := st_empty } :=
  ⟨(((amd64_emit_mode_suffixes env_unop 1 st_empty [] [] (by decide)).2.2 1 []).2.2.2
      (by decide)).trans rfl,
   (((amd64_emit_mode_suffixes env_unop 1 st_empty [] [] (by decide)).2.2 1 []).2.2.1).trans rfl⟩

/-! ## Links and the emission of a function -/

theorem links_after_snoc (ws : List (ir_node × Option ir_node)) (w : ir_node × Option ir_node)
    (f : ir_node → Option ir_node) (k : ir_node) :
    links_after (ws ++ [w]) f k = if k = w.1 then w.2 else links_after ws f k := by
  simp [links_after, List.foldl_append]

theorem links_after_append (ws vs : List (ir_node × Option ir_node))
    (f : ir_node → Option ir_node) :
    links_after (ws ++ vs) f = links_after vs (links_after ws f) := by
  simp [links_after, List.foldl_append]

/-- A node that no write names keeps its link. -/
theorem links_after_other (ws : List (ir_node × Option ir_node)) (f : ir_node → Option ir_node)
    (k : ir_node) (hk : ∀ w ∈ ws, w.1 ≠ k) : links_after ws f k = f k := by
  induction ws using List.reverseRecOn with
  | nil => rfl
  | append_singleton ws w ih =>
    rw [links_after_snoc, if_neg (fun h => hk w (by simp) h.symm)]
    exact ih (fun w' hw' => hk w' (by simp [hw']))

/-- A node whose writes all carry the same value has this value as its link. -/
theorem links_after_value (ws : List (ir_node × Option ir_node)) (f : ir_node → Option ir_node)
    (k : ir_node) (v : Option ir_node) (hex : ∃ w ∈ ws, w.1 = k)
    (hall : ∀ w ∈ ws, w.1 = k → w.2 = v) : links_after ws f k = v := by
  induction ws using List.reverseRecOn with
  | nil => simp at hex
  | append_singleton ws w ih =>
    rw [links_after_snoc]
    by_cases hw : k = w.1
    · rw [if_pos hw]
      exact hall w (by simp) hw.symm
    · rw [if_neg hw]
      apply ih
      · obtain ⟨w', hw', hk'⟩ := hex
        rcases List.mem_append.mp hw' with h | h
        · exact ⟨w', h, hk'⟩
        · simp only [List.mem_singleton] at h
          subst h
          exact absurd hk'.symm hw
      · exact fun w' hw' => hall w' (by simp [hw'])

/-- The link of a written node does not depend on the links before. -/
theorem links_after_written (ws : List (ir_node × Option ir_node))
    (f f' : ir_node → Option ir_node) (k : ir_node) (hex : ∃ w ∈ ws, w.1 = k) :
    links_after ws f k = links_after ws f' k := by
  induction ws using List.reverseRecOn with
  | nil => simp at hex
  | append_singleton ws w ih =>
    rw [links_after_snoc, links_after_snoc]
    by_cases hw : k = w.1
    · rw [if_pos hw, if_pos hw]
    · rw [if_neg hw, if_neg hw]
      apply ih
      obtain ⟨w', hw', hk'⟩ := hex
      rcases List.mem_append.mp hw' with h | h
      · exact ⟨w', h, hk'⟩
      · simp only [List.mem_singleton] at h
        subst h
        exact absurd hk'.symm hw

theorem links_after_idem (ws : List (ir_node × Option ir_node)) (f : ir_node → Option ir_node) :
    links_after ws (links_after ws f) = links_after ws f := by
  funext k
  by_cases hex : ∃ w ∈ ws, w.1 = k
  · exact links_after_written ws _ _ k hex
  · have hk : ∀ w ∈ ws, w.1 ≠ k := fun w hw h => hex ⟨w, hw, h⟩
    rw [links_after_other ws _ k hk]

theorem set_irn_link_foldl (ws : List (ir_node × Option ir_node)) (env : emit_env) :
    ws.foldl (fun e w => set_irn_link e w.1 w.2) env =
      { env with get_irn_link := links_after ws env.get_irn_link } := by
  induction ws generalizing env with
  | nil => rfl
  | cons w ws ih =>
    rw [List.foldl_cons, ih]
    rfl

theorem amd64_gen_labels_eq (env : emit_env) (g : irg_env) (block : ir_node) :
    amd64_gen_labels env g block =
      { env with get_irn_link := links_after (labels_writes g block) env.get_irn_link } := by
  unfold amd64_gen_labels labels_writes
  rw [← set_irn_link_foldl, List.foldl_map]

theorem amd64_gen_labels_walk (g : irg_env) (blocks : List ir_node) (env : emit_env) :
    blocks.foldl (fun env block => amd64_gen_labels env g block) env =
      { env with
        get_irn_link := links_after (blocks.flatMap (labels_writes g)) env.get_irn_link } := by
  induction blocks generalizing env with
  | nil => rfl
  | cons b bs ih =>
    rw [List.foldl_cons, ih, amd64_gen_labels_eq]
    simp only [List.flatMap_cons, links_after_append]

theorem amd64_link_range (blk_sched : List ir_node) (is : List Nat) (env : emit_env) :
    is.foldl
        (fun env i =>
          match blk_sched.get? i with
          | some block =>
            set_irn_link env block
              (if i + 1 < blk_sched.length then blk_sched.get? (i + 1) else none)
          | none => env)
        env =
      { env with
        get_irn_link := links_after (blk_sched_writes blk_sched is) env.get_irn_link } := by
  induction is generalizing env with
  | nil => rfl
  | cons i is ih =>
    rw [List.foldl_cons, ih]
    unfold blk_sched_writes
    cases h : blk_sched.get? i with
    | none => simp only [h, List.filterMap_cons, Option.map_none']
    | some block =>
      simp only [h, List.filterMap_cons, Option.map_some']
      rfl

theorem amd64_link_blk_sched_eq (env : emit_env) (blk_sched : List ir_node) :
    amd64_link_blk_sched env blk_sched =
      { env with
        get_irn_link :=
          links_after (blk_sched_writes blk_sched (List.range blk_sched.length))
            env.get_irn_link } := by
  unfold amd64_link_blk_sched
  exact amd64_link_range blk_sched _ env

theorem mem_blk_sched_writes (blk_sched : List ir_node) (w : ir_node × Option ir_node) :
    w ∈ blk_sched_writes blk_sched (List.range blk_sched.length) ↔
      ∃ i, blk_sched.get? i = some w.1 ∧ w.2 = blk_sched.get? (i + 1) := by
  unfold blk_sched_writes
  simp only [List.mem_filterMap, List.mem_range, Option.map_eq_some']
  constructor
  · rintro ⟨i, _, block, hb, rfl⟩
    refine ⟨i, hb, ?_⟩
    by_cases h : i + 1 < blk_sched.length
    · simp [h]
    · simp only [h, if_false]
      exact (List.get?_eq_none.mpr (by omega)).symm
  · rintro ⟨i, hb, hv⟩
    have hi : i < blk_sched.length := by
      by_contra hc
      rw [List.get?_eq_none.mpr (by omega)] at hb
      exact absurd hb (by simp)
    refine ⟨i, hi, w.1, hb, ?_⟩
    by_cases h : i + 1 < blk_sched.length
    · simp only [h, if_true]
      exact Prod.ext rfl hv.symm
    · simp only [h, if_false]
      refine Prod.ext rfl ?_
      rw [hv]
      exact (List.get?_eq_none.mpr (by omega)).symm

/-- C26: after the loop of `amd64_emit_function` over a block schedule (every
block occurs once in it), the schedule-successor of the block at position `i` is
the block at position `i + 1`, which is none (NULL) for the last block; the link
of a node outside the schedule is as before, and for the empty schedule nothing
is linked. -/
theorem amd64_link_blk_sched_links (env : emit_env) (blk_sched : List ir_node)
    (hnd : blk_sched.Nodup) :
    (∀ (i : Nat) (block : ir_node), blk_sched.get? i = some block →
        sched_next_block (amd64_link_blk_sched env blk_sched) block = blk_sched.get? (i + 1)) ∧
      (∀ x, x ∉ blk_sched →
        (amd64_link_blk_sched env blk_sched).get_irn_link x = env.get_irn_link x) ∧
      amd64_link_blk_sched env [] = env := by
  refine ⟨?_, ?_, rfl⟩
  · intro i block hb
    unfold sched_next_block
    rw [amd64_link_blk_sched_eq]
    apply links_after_value
    · exact ⟨(block, blk_sched.get? (i + 1)), (mem_blk_sched_writes _ _).mpr ⟨i, hb, rfl⟩, rfl⟩
    · intro w hw hk
      obtain ⟨j, hj, hv⟩ := (mem_blk_sched_writes _ _).mp hw
      rw [hk] at hj
      have hij : j = i := by
        have hi' : i < blk_sched.length := by
          by_contra hc
          rw [List.get?_eq_none.mpr (by omega)] at hb
          exact absurd hb (by simp)
        have hj' : j < blk_sched.length := by
          by_contra hc
          rw [List.get?_eq_none.mpr (by omega)] at hj
          exact absurd hj (by simp)
        rw [List.get?_eq_get hi'] at hb
        rw [List.get?_eq_get hj'] at hj
        have := (List.Nodup.get_inj_iff hnd).mp
          (show blk_sched.get ⟨j, hj'⟩ = blk_sched.get ⟨i, hi'⟩ by
            rw [Option.some.inj hb, Option.some.inj hj])
        exact Fin.mk.inj this
      rw [hv, hij]
  · intro x hx
    rw [amd64_link_blk_sched_eq]
    apply links_after_other
    intro w hw hk
    obtain ⟨j, hj, _⟩ := (mem_blk_sched_writes _ _).mp hw
    rw [hk] at hj
    exact hx (List.get?_mem hj)

/-- Witness of C26: the schedule 100, 101, 102 of the demo function. -/
theorem amd64_link_blk_sched_links_witness :
    sched_next_block (amd64_link_blk_sched env_unlinked [100, 101, 102]) 100 = some 101 ∧
      sched_next_block (amd64_link_blk_sched env_unlinked [100, 101, 102]) 102 = none :=
  ⟨(amd64_link_blk_sched_links env_unlinked [100, 101, 102] (by decide)).1 0 100 rfl,
   (amd64_link_blk_sched_links env_unlinked [100, 101, 102] (by decide)).1 2 102 rfl⟩

theorem mem_labels_writes (g : irg_env) (blocks : List ir_node) (w : ir_node × Option ir_node) :
    w ∈ blocks.flatMap (labels_writes g) ↔
      ∃ block ∈ blocks, w.1 ∈ g.get_Block_cfgpreds block ∧ w.2 = some block := by
  simp only [List.mem_flatMap, labels_writes, List.mem_map, List.mem_reverse]
  constructor
  · rintro ⟨block, hb, pred, hp, rfl⟩
    exact ⟨block, hb, hp, rfl⟩
  · rintro ⟨block, hb, hp, hv⟩
    exact ⟨block, hb, w.1, hp, Prod.ext rfl hv.symm⟩

/-- C27, as the code has it: after the walk of `amd64_gen_labels` over the blocks
of the graph, the link of every control-flow node that is a predecessor of a
block (of one block only) is that block, the block the node jumps to, and not
the block that contains the node; the link of every node that is no predecessor
of a block is as before. -/
theorem amd64_gen_labels_links (env : emit_env) (g : irg_env) :
    (∀ block ∈ g.blocks, ∀ pred ∈ g.get_Block_cfgpreds block,
        (∀ block' ∈ g.blocks, pred ∈ g.get_Block_cfgpreds block' → block' = block) →
        get_cfop_target_block
            (g.blocks.foldl (fun env block => amd64_gen_labels env g block) env) pred =
          some block) ∧
      (∀ x, (∀ block ∈ g.blocks, x ∉ g.get_Block_cfgpreds block) →
        (g.blocks.foldl (fun env block => amd64_gen_labels env g block) env).get_irn_link x =
          env.get_irn_link x) := by
  constructor
  · intro block hb pred hp huniq
    unfold get_cfop_target_block
    rw [amd64_gen_labels_walk]
    apply links_after_value
    · exact ⟨(pred, some block), (mem_labels_writes g _ _).mpr ⟨block, hb, hp, rfl⟩, rfl⟩
    · intro w hw hk
      obtain ⟨block', hb', hp', hv⟩ := (mem_labels_writes g _ _).mp hw
      rw [hk] at hp'
      rw [hv, huniq block' hb' hp']
  · intro x hx
    rw [amd64_gen_labels_walk]
    apply links_after_other
    intro w hw hk
    obtain ⟨block', hb', hp', _⟩ := (mem_labels_writes g _ _).mp hw
    rw [hk] at hp'
    exact hx block' hb' hp'

/-- Witness of C27 on the demo function: the `Jmp` 20 is a predecessor of block
101 and of no other block, and its link becomes block 101. -/
theorem amd64_gen_labels_links_witness :
    get_cfop_target_block
        (irg_demo.blocks.foldl (fun env block => amd64_gen_labels env irg_demo block)
          env_unlinked) 20 =
      some 101 :=
  (amd64_gen_labels_links env_unlinked irg_demo).1 101 (by decide) 20 (by decide) (by decide)

/-- C27 as stated fails: the `Jmp` 20 of the demo function lies in block 100, and
after the walk its link is block 101, the block it jumps to, not block 100. -/
theorem amd64_gen_labels_links_counterexample :
    env_unlinked.get_nodes_block 20 = 100 ∧
      20 ∈ irg_demo.sched 100 ∧
      (irg_demo.blocks.foldl (fun env block => amd64_gen_labels env irg_demo block)
          env_unlinked).get_irn_link 20 =
        some 101 ∧
      (irg_demo.blocks.foldl (fun env block => amd64_gen_labels env irg_demo block)
          env_unlinked).get_irn_link 20 ≠
        some (env_unlinked.get_nodes_block 20) := by
  decide

theorem amd64_emitf_switch_jmp (env : emit_env) (st : be_emit_state) (node : ir_node)
    (entity : ir_entity) :
    amd64_emitf env st node "jmp *%E(,%^S0,8)" [.entity entity] =
      .ok (emit_lines st ["\tjmp *" ++ env.be_gas_emit_entity entity ++ "(,%"
        ++ (env.arch_get_irn_register_in node 0).name ++ ",8)" ++ env.finish_line_text node]) := by
  have h : (0 ||| 2) &&& 2 ≠ 0 := by decide
  simp [amd64_emitf, amd64_emitf_loop, amd64_emitf_mods, amd64_emitf_emit_R, emit_register,
    EMIT_NONE, EMIT_IGNORE_MODE, be_emit_char, be_emit_string, be_emit_string_len,
    be_emit_finish_line_gas, be_emit_write_line, emit_lines, String.ext_iff]

/-- C29: `emit_amd64_SwitchJmp` always succeeds; it writes the one line
`jmp *<table symbol>(,%<own name of input register 0>,8)`, whatever the width of
the node is, and then hands the table of the node to `be_emit_jump_table`
together with `get_cfop_target_block`, the reading of the link that also yields
the label of a jump. -/
theorem emit_amd64_SwitchJmp_text (env : emit_env) (g : irg_env) (st : be_emit_state)
    (node : ir_node) :
    emit_amd64_SwitchJmp env g st node =
        .ok (g.be_emit_jump_table
          (emit_lines st
            ["\tjmp *" ++ env.be_gas_emit_entity (g.get_amd64_switch_jmp_attr_const node).table_entity
              ++ "(,%" ++ (env.arch_get_irn_register_in node 0).name ++ ",8)"
              ++ env.finish_line_text node])
          node (g.get_amd64_switch_jmp_attr_const node).table
          (g.get_amd64_switch_jmp_attr_const node).table_entity
          (get_cfop_target_block env)) ∧
      (∀ n, get_cfop_target_block env n = env.get_irn_link n) ∧
      (∀ n, target_label env n = env.be_gas_emit_block_name (get_cfop_target_block env n)) := by
  refine ⟨?_, fun _ => rfl, fun _ => rfl⟩
  unfold emit_amd64_SwitchJmp
  simp only [amd64_emitf_switch_jmp]

theorem amd64_emit_function_fst (env : emit_env) (g : irg_env) (st : be_emit_state) :
    (amd64_emit_function env g st).1 = emit_function_state env g := by
  unfold amd64_emit_function emit_function_state
  simp only
  split <;> rfl

theorem emit_function_state_eq (env : emit_env) (g : irg_env) :
    emit_function_state env g =
      { env with
        layout := g.be_get_irg_stack_layout
        get_irn_link :=
          links_after
            (g.blocks.flatMap (labels_writes g) ++
              blk_sched_writes g.be_create_block_schedule
                (List.range g.be_create_block_schedule.length))
            env.get_irn_link } := by
  unfold emit_function_state
  rw [amd64_link_blk_sched_eq, amd64_gen_labels_walk, links_after_append]

theorem emit_function_state_idem (env : emit_env) (g : irg_env) :
    emit_function_state (emit_function_state env g) g = emit_function_state env g := by
  rw [emit_function_state_eq (emit_function_state env g) g, emit_function_state_eq env g]
  simp only [links_after_idem]

theorem amd64_emit_function_of_state (env env' : emit_env) (g : irg_env) (st : be_emit_state)
    (h : emit_function_state env g = emit_function_state env' g) :
    amd64_emit_function env g st = amd64_emit_function env' g st := by
  unfold amd64_emit_function
  unfold emit_function_state at h
  simp only
  rw [h]

theorem links_after_congr (ws : List (ir_node × Option ir_node))
    (f f' : ir_node → Option ir_node) (h : ∀ k, (∀ w ∈ ws, w.1 ≠ k) → f k = f' k) :
    links_after ws f = links_after ws f' := by
  funext k
  by_cases hex : ∃ w ∈ ws, w.1 = k
  · exact links_after_written ws _ _ k hex
  · have hk : ∀ w ∈ ws, w.1 ≠ k := fun w hw h => hex ⟨w, hw, h⟩
    rw [links_after_other ws _ k hk, links_after_other ws _ k hk]
    exact h k hk

/-- C30: emitting a function a second time, from the state that the first
emission has left behind (layout and link fields), with the same graph, the same
collaborators and the same sink, gives the same result as the first emission:
the same text (or the same fatal error) and the same state.  More generally the
result does not depend on the layout that was stored before, nor on the links
that were stored before in the blocks of the schedule and in the control-flow
predecessors of the blocks walked. -/
theorem amd64_emit_function_twice (env : emit_env) (g : irg_env) (st : be_emit_state) :
    amd64_emit_function (amd64_emit_function env g st).1 g st = amd64_emit_function env g st ∧
      ∀ (l : be_stack_layout_t) (f : ir_node → Option ir_node),
        (∀ x, x ∉ g.be_create_block_schedule →
          (∀ block ∈ g.blocks, x ∉ g.get_Block_cfgpreds block) → f x = env.get_irn_link x) →
        amd64_emit_function { env with layout := l, get_irn_link := f } g st =
          amd64_emit_function env g st := by
  constructor
  · apply amd64_emit_function_of_state
    rw [amd64_emit_function_fst, emit_function_state_idem]
  · intro l f h
    apply amd64_emit_function_of_state
    rw [emit_function_state_eq, emit_function_state_eq]
    have hl : links_after
          (g.blocks.flatMap (labels_writes g) ++
            blk_sched_writes g.be_create_block_schedule
              (List.range g.be_create_block_schedule.length)) f =
        links_after
          (g.blocks.flatMap (labels_writes g) ++
            blk_sched_writes g.be_create_block_schedule
              (List.range g.be_create_block_schedule.length)) env.get_irn_link := by
      apply links_after_congr
      intro k hk
      apply h k
      · intro hmem
        obtain ⟨i, hi⟩ := List.get?_of_mem hmem
        exact hk (k, g.be_create_block_schedule.get? (i + 1))
          (List.mem_append_right _ ((mem_blk_sched_writes _ _).mpr ⟨i, hi, rfl⟩)) rfl
      · intro block hb hp
        exact hk (k, some block)
          (List.mem_append_left _ ((mem_labels_writes g _ _).mpr ⟨block, hb, hp, rfl⟩)) rfl
    simp only [hl]

theorem emit_register_mode_error (st : be_emit_state) (reg : arch_register_t)
    (mode : amd64_insn_mode_t) (e : fatal_error)
    (h : emit_register_mode st reg mode = .error e) :
    e.msg = "unexpected register number" ∨ e.msg = "invalid mode" := by
  unfold emit_register_mode at h
  split_ifs at h
  unfold emit_register_insn_mode emit_fatal at h
  cases mode <;> simp only at h
  · simp at h
  · cases h32 : get_32bit_name reg <;> simp [h32] at h
    exact Or.inl (by rw [← h])
  · cases h16 : get_16bit_name reg <;> simp [h16] at h
    exact Or.inl (by rw [← h])
  · cases h8 : get_8bit_name reg <;> simp [h8] at h
    exact Or.inl (by rw [← h])
  · simp at h
    exact Or.inr (by rw [← h])

/-- A register of the register file at an integer width has a name: an xmm
register at every width, a register of a defined general-purpose ordinal at each
of the four integer widths. -/
theorem emit_register_mode_resolves (st : be_emit_state) (reg : arch_register_t)
    (mode : amd64_insn_mode_t)
    (h : reg.reg_class = .CLASS_amd64_xmm ∨
      (reg.index ∈ gp_ordinals ∧ mode ∈ integer_insn_modes)) :
    ∃ st1, emit_register_mode st reg mode = .ok st1 := by
  unfold emit_register_mode
  by_cases hx : reg.reg_class = .CLASS_amd64_xmm
  · simp [hx]
  · rcases h with h | ⟨hi, hmode⟩
    · exact absurd h hx
    · simp only [gp_ordinals, gp_register_names, List.map_cons, List.map_nil, List.mem_cons,
        List.mem_singleton, List.not_mem_nil, or_false, REG_GP_RAX, REG_GP_RBX, REG_GP_RCX,
        REG_GP_RDX, REG_GP_RSP, REG_GP_RBP, REG_GP_RSI, REG_GP_RDI, REG_GP_R8, REG_GP_R9,
        REG_GP_R10, REG_GP_R11, REG_GP_R12, REG_GP_R13, REG_GP_R14, REG_GP_R15] at hi
      simp only [integer_insn_modes, List.mem_cons, List.mem_singleton, List.not_mem_nil,
        or_false] at hmode
      rcases hmode with rfl | rfl | rfl | rfl <;>
        rcases hi with hi | hi | hi | hi | hi | hi | hi | hi | hi | hi | hi | hi | hi | hi | hi
          | hi <;>
        simp [hx, emit_register_insn_mode, get_8bit_name, get_16bit_name, get_32bit_name, hi,
          REG_GP_RAX, REG_GP_RBX, REG_GP_RCX, REG_GP_RDX, REG_GP_RSP, REG_GP_RBP, REG_GP_RSI,
          REG_GP_RDI, REG_GP_R8, REG_GP_R9, REG_GP_R10, REG_GP_R11, REG_GP_R12, REG_GP_R13,
          REG_GP_R14, REG_GP_R15]

/-- C28: `amd64_emit_am` fails fatally and writes nothing for every node whose
operand mode is `AMD64_OP_ADDR_IMM`, `AMD64_OP_IMM32`, `AMD64_OP_IMM64`,
`AMD64_OP_NONE`, `AMD64_OP_SHIFT_REG` or `AMD64_OP_SHIFT_IMM`, and it succeeds in
every other operand mode, for a node whose input registers are registers of the
register file (xmm, or general-purpose of a defined ordinal at an integer width
of the node).  In the modes that write an address or an immediate only it
succeeds whatever the registers are; and when it fails in a mode that is not
rejected, the failure is the one of resolving the name of a register. -/
theorem amd64_emit_am_modes (env : emit_env) (node : ir_node) (st : be_emit_state)
    (indirect_star : Bool) :
    ((get_amd64_addr_attr_const env node).base.op_mode ∈ am_rejected_modes →
        ∃ msg, amd64_emit_am env st node indirect_star = .error { msg := msg, st := st }) ∧
      ((get_amd64_addr_attr_const env node).base.op_mode ∉ am_rejected_modes →
        (∀ i : Nat,
          (env.arch_get_irn_register_in node i).reg_class = .CLASS_amd64_xmm ∨
            ((env.arch_get_irn_register_in node i).index ∈ gp_ordinals ∧
              (get_amd64_addr_attr_const env node).insn_mode ∈ integer_insn_modes)) →
        ∃ st1, amd64_emit_am env st node indirect_star = .ok st1) ∧
      ((get_amd64_addr_attr_const env node).base.op_mode ∈ am_register_free_modes →
        ∃ st1, amd64_emit_am env st node indirect_star = .ok st1) ∧
      ((get_amd64_addr_attr_const env node).base.op_mode ∉ am_rejected_modes →
        (∀ (st0 : be_emit_state) (i : Nat), ∃ st1,
          emit_register_mode st0 (env.arch_get_irn_register_in node i)
            (get_amd64_addr_attr_const env node).insn_mode = .ok st1) →
        ∃ st1, amd64_emit_am env st node indirect_star = .ok st1) ∧
      ((get_amd64_addr_attr_const env node).base.op_mode ∉ am_rejected_modes →
        ∀ e, amd64_emit_am env st node indirect_star = .error e →
          e.msg = "unexpected register number" ∨ e.msg = "invalid mode") := by
  have hattr : (env.get_amd64_binop_addr_attr_const node).base =
      get_amd64_addr_attr_const env node := rfl
  have hgen : (get_amd64_addr_attr_const env node).base.op_mode ∉ am_rejected_modes →
      (∀ (st0 : be_emit_state) (i : Nat), ∃ st1,
        emit_register_mode st0 (env.arch_get_irn_register_in node i)
          (get_amd64_addr_attr_const env node).insn_mode = .ok st1) →
      ∃ st1, amd64_emit_am env st node indirect_star = .ok st1 := by
    intro h hreg
    unfold amd64_emit_am
    cases hop : (get_amd64_addr_attr_const env node).base.op_mode <;>
      simp [hop, am_rejected_modes] at h <;> simp only [hop, hattr]
    · exact ⟨_, rfl⟩
    · exact hreg _ 0
    · obtain ⟨st1, h1⟩ := hreg st 1
      rw [h1]
      exact hreg _ 0
    · exact hreg _ 0
    · exact hreg _ _
    · exact hreg _ 0
    · exact ⟨_, rfl⟩
    · exact ⟨_, rfl⟩
    · exact hreg _ 1
    · exact ⟨_, rfl⟩
  refine ⟨?_, fun h hreg => hgen h (fun st0 i => emit_register_mode_resolves st0 _ _ (hreg i)),
    ?_, hgen, ?_⟩
  · intro h
    unfold amd64_emit_am
    cases hop : (get_amd64_addr_attr_const env node).base.op_mode <;>
      simp [hop, am_rejected_modes] at h <;> simp [hop, emit_fatal]
  · intro h
    unfold amd64_emit_am
    cases hop : (get_amd64_addr_attr_const env node).base.op_mode <;>
      simp [hop, am_register_free_modes] at h <;> simp [hop]
  · intro h e he
    unfold amd64_emit_am at he
    cases hop : (get_amd64_addr_attr_const env node).base.op_mode <;>
      simp [hop, am_rejected_modes] at h <;> simp only [hop, hattr] at he
    · simp at he
    · exact emit_register_mode_error _ _ _ e he
    · cases h1 : emit_register_mode st (env.arch_get_irn_register_in node 1)
          (get_amd64_addr_attr_const env node).insn_mode with
      | error e1 =>
        rw [h1] at he
        simp only [Except.error.injEq] at he
        subst he
        exact emit_register_mode_error _ _ _ e1 h1
      | ok st1 =>
        rw [h1] at he
        exact emit_register_mode_error _ _ _ e he
    · exact emit_register_mode_error _ _ _ e he
    · exact emit_register_mode_error _ _ _ e he
    · exact emit_register_mode_error _ _ _ e he
    · simp at he
    · simp at he
    · exact emit_register_mode_error _ _ _ e he
    · simp at he

/-- Witness of C28 on the function of moves: node 1 is in mode `AMD64_OP_REG` at
8 bits with input register `%rcx`, a register of the register file, and `%AM`
succeeds. -/
theorem amd64_emit_am_modes_witness :
    ∃ st1, amd64_emit_am env_mov st_empty 1 false = .ok st1 :=
  (amd64_emit_am_modes env_mov 1 st_empty false).2.1 (by decide)
    (fun _ => Or.inr ⟨(by decide : REG_GP_RCX ∈ gp_ordinals),
      (by decide : amd64_insn_mode_t.INSN_MODE_8 ∈ integer_insn_modes)⟩)

/-! ## Precedence of the modifiers, slot digits and the look-ahead of `%A` -/

theorem amd64_emitf_emit_R_congr (env : emit_env) (node : ir_node) (st : be_emit_state)
    (reg : arch_register_t) (mods mods' : List Char)
    (hm : ∀ c ∈ mods, c ∈ modifier_chars) (hm' : ∀ c ∈ mods', c ∈ modifier_chars)
    (h1 : '^' ∈ mods ↔ '^' ∈ mods') (h2 : '3' ∈ mods ↔ '3' ∈ mods')
    (h3 : '#' ∈ mods ↔ '#' ∈ mods') :
    amd64_emitf_emit_R env st node (mods_of mods) reg =
      amd64_emitf_emit_R env st node (mods_of mods') reg := by
  obtain ⟨b1, b2, b3, _⟩ := mods_of_bits mods hm
  obtain ⟨c1, c2, c3, _⟩ := mods_of_bits mods' hm'
  unfold amd64_emitf_emit_R
  simp only [b1, b2, b3, c1, c2, c3, h1, h2, h3]

theorem emit_register_mode_named (st : be_emit_state) (reg : arch_register_t)
    (hreg : reg.reg_class = .CLASS_amd64_xmm ∨ (get_32bit_name reg).isSome) :
    (∃ st1, emit_register_mode st reg .INSN_MODE_32 = .ok st1) ∧
      (∃ st1, emit_register_mode st reg .INSN_MODE_64 = .ok st1) := by
  unfold emit_register_mode
  by_cases hx : reg.reg_class = .CLASS_amd64_xmm
  · simp [hx]
  · rcases hreg with h | h
    · exact absurd h hx
    · obtain ⟨name, hn⟩ := Option.isSome_iff_exists.mp h
      simp [hx, emit_register_insn_mode, hn]

/-- C31: on a register directive the width modifiers are resolved by a fixed
precedence.  With `^` among the modifiers the directive writes what `^` alone
writes, whatever else is there; without `^` and with `3` what `3` alone writes;
without both and with `#` what `#` alone writes.  Two modifier sequences with
the same set of characters (another order, repetitions) give the same output for
`%R`, `%D<n>` and `%S<n>`.  No combination is refused: with `^` the directive
always succeeds, and with any width modifier it succeeds on every register that
has a name (an xmm register or a general-purpose register of a defined
ordinal). -/
theorem amd64_emitf_modifier_precedence (env : emit_env) (node : ir_node) (st : be_emit_state)
    (ap : List emitf_arg) (mods : List Char) (hm : ∀ c ∈ mods, c ∈ modifier_chars) :
    (∀ reg : arch_register_t, '^' ∈ mods →
        amd64_emitf_emit_R env st node (mods_of mods) reg =
            amd64_emitf_emit_R env st node (mods_of ['^']) reg ∧
          amd64_emitf_emit_R env st node (mods_of mods) reg = .ok (emit_register st reg)) ∧
      (∀ reg : arch_register_t, '^' ∉ mods → '3' ∈ mods →
        amd64_emitf_emit_R env st node (mods_of mods) reg =
            amd64_emitf_emit_R env st node (mods_of ['3']) reg ∧
          amd64_emitf_emit_R env st node (mods_of mods) reg =
            emit_register_mode st reg .INSN_MODE_32) ∧
      (∀ reg : arch_register_t, '^' ∉ mods → '3' ∉ mods → '#' ∈ mods →
        amd64_emitf_emit_R env st node (mods_of mods) reg =
            amd64_emitf_emit_R env st node (mods_of ['#']) reg ∧
          amd64_emitf_emit_R env st node (mods_of mods) reg =
            emit_register_mode st reg
              (if get_amd64_insn_mode env node = .INSN_MODE_64 then .INSN_MODE_64
                else .INSN_MODE_32)) ∧
      (∀ mods' : List Char, (∀ c ∈ mods', c ∈ modifier_chars) → (∀ c, c ∈ mods ↔ c ∈ mods') →
        (∀ (fuel : Nat) (post : List Char) (reg : arch_register_t),
          amd64_emitf_loop env node (fuel + 1) ('%' :: (mods ++ 'R' :: post)) (.reg reg :: ap) st =
            amd64_emitf_loop env node (fuel + 1) ('%' :: (mods' ++ 'R' :: post))
              (.reg reg :: ap) st) ∧
        (∀ (fuel : Nat) (post : List Char) (n : Char),
          amd64_emitf_loop env node (fuel + 1) ('%' :: (mods ++ 'D' :: n :: post)) ap st =
            amd64_emitf_loop env node (fuel + 1) ('%' :: (mods' ++ 'D' :: n :: post)) ap st) ∧
        (∀ (fuel : Nat) (post : List Char) (n : Char), '0' ≤ n ∧ n ≤ '9' →
          amd64_emitf_loop env node (fuel + 1) ('%' :: (mods ++ 'S' :: n :: post)) ap st =
            amd64_emitf_loop env node (fuel + 1) ('%' :: (mods' ++ 'S' :: n :: post)) ap st)) ∧
      (∀ reg : arch_register_t,
        reg.reg_class = .CLASS_amd64_xmm ∨ (get_32bit_name reg).isSome →
        '^' ∈ mods ∨ '3' ∈ mods ∨ '#' ∈ mods →
        ∃ st1, amd64_emitf_emit_R env st node (mods_of mods) reg = .ok st1) := by
  obtain ⟨b1, b2, b3, _⟩ := mods_of_bits mods hm
  have q1 : mods_of ['^'] &&& EMIT_IGNORE_MODE ≠ 0 := by decide
  have q2 : ¬ mods_of ['3'] &&& EMIT_IGNORE_MODE ≠ 0 := by decide
  have q3 : mods_of ['3'] &&& EMIT_FORCE_32 ≠ 0 := by decide
  have q4 : ¬ mods_of ['#'] &&& EMIT_IGNORE_MODE ≠ 0 := by decide
  have q5 : ¬ mods_of ['#'] &&& EMIT_FORCE_32 ≠ 0 := by decide
  have q6 : mods_of ['#'] &&& EMIT_CONV_DEST ≠ 0 := by decide
  have e1 : ∀ reg : arch_register_t, '^' ∈ mods →
      amd64_emitf_emit_R env st node (mods_of mods) reg = .ok (emit_register st reg) := by
    intro reg h
    unfold amd64_emitf_emit_R
    rw [if_pos (b1.mpr h)]
  have e2 : ∀ reg : arch_register_t, '^' ∉ mods → '3' ∈ mods →
      amd64_emitf_emit_R env st node (mods_of mods) reg =
        emit_register_mode st reg .INSN_MODE_32 := by
    intro reg h1 h2
    unfold amd64_emitf_emit_R
    rw [if_neg (fun h => h1 (b1.mp h)), if_pos (b2.mpr h2)]
  have e3 : ∀ reg : arch_register_t, '^' ∉ mods → '3' ∉ mods → '#' ∈ mods →
      amd64_emitf_emit_R env st node (mods_of mods) reg =
        emit_register_mode st reg
          (if get_amd64_insn_mode env node = .INSN_MODE_64 then .INSN_MODE_64
            else .INSN_MODE_32) := by
    intro reg h1 h2 h3
    unfold amd64_emitf_emit_R
    rw [if_neg (fun h => h1 (b1.mp h)), if_neg (fun h => h2 (b2.mp h)), if_pos (b3.mpr h3)]
  refine ⟨?_, ?_, ?_, ?_, ?_⟩
  · intro reg h
    refine ⟨?_, e1 reg h⟩
    rw [e1 reg h]
    unfold amd64_emitf_emit_R
    rw [if_pos q1]
  · intro reg h1 h2
    refine ⟨?_, e2 reg h1 h2⟩
    rw [e2 reg h1 h2]
    unfold amd64_emitf_emit_R
    rw [if_neg q2, if_pos q3]
  · intro reg h1 h2 h3
    refine ⟨?_, e3 reg h1 h2 h3⟩
    rw [e3 reg h1 h2 h3]
    unfold amd64_emitf_emit_R
    rw [if_neg q4, if_neg q5, if_pos q6]
  · intro mods' hm' hset
    have hR := fun reg => amd64_emitf_emit_R_congr env node st reg mods mods' hm hm'
      (hset '^') (hset '3') (hset '#')
    refine ⟨?_, ?_, ?_⟩
    · intro fuel post reg
      rw [amd64_emitf_loop_R env node fuel mods post reg ap st hm,
        amd64_emitf_loop_R env node fuel mods' post reg ap st hm', hR]
    · intro fuel post n
      by_cases hn : n < '0' ∨ '9' ≤ n
      · have hd : ∀ d ∈ ('D' :: n :: post).head?, d ∉ modifier_chars :=
          directive_head 'D' (n :: post) (by decide)
        have h2 := amd64_emitf_mods_append mods ('D' :: n :: post) EMIT_NONE hm hd
        have h2' := amd64_emitf_mods_append mods' ('D' :: n :: post) EMIT_NONE hm' hd
        rw [amd64_emitf_loop, amd64_emitf_loop]
        simp only [List.takeWhile_cons, List.dropWhile_cons, ne_eq, not_true_eq_false, false_and,
          decide_False, if_false, h2, h2', Bool.false_eq_true]
        simp [hn]
      · rw [amd64_emitf_loop_D env node fuel mods post n ap st hm hn,
          amd64_emitf_loop_D env node fuel mods' post n ap st hm' hn, hR]
    · intro fuel post n hn
      rw [amd64_emitf_loop_S env node fuel mods post n ap st hm hn,
        amd64_emitf_loop_S env node fuel mods' post n ap st hm' hn, hR]
  · intro reg hreg hany
    obtain ⟨n32, n64⟩ := emit_register_mode_named st reg hreg
    by_cases h1 : '^' ∈ mods
    · exact ⟨_, e1 reg h1⟩
    · by_cases h2 : '3' ∈ mods
      · rw [e2 reg h1 h2]
        exact n32
      · have h3 : '#' ∈ mods := by
          rcases hany with h | h | h
          · exact absurd h h1
          · exact absurd h h2
          · exact h
        rw [e3 reg h1 h2 h3]
        split_ifs
        · exact n64
        · exact n32

/-- Witness of C31 on the function of moves: node 1 has a width of 8 bits, and
with all three width modifiers `%#3^D0` writes the full name `%rax`. -/
theorem amd64_emitf_modifier_precedence_witness :
    amd64_emitf_emit_R env_mov st_empty 1 (mods_of ['#', '3', '^'])
        (env_mov.arch_get_irn_register_out 1 0) =
      .ok { lines := [], cur := "%rax" } :=
  ((amd64_emitf_modifier_precedence env_mov 1 st_empty [] ['#', '3', '^'] (by decide)).1
      (env_mov.arch_get_irn_register_out 1 0) (by decide)).2.trans rfl

theorem digitChar_slot :
    ∀ k < 10, '0' ≤ Nat.digitChar k ∧ Nat.digitChar k ≤ '9' ∧
      (Nat.digitChar k).toNat - '0'.toNat = k ∧ (k < 9 → ¬ '9' ≤ Nat.digitChar k) ∧
      ¬ Nat.digitChar k < '0' ∧ Nat.digitChar k ≠ 'O' := by
  decide

theorem amd64_emitf_loop_D_unknown (env : emit_env) (node : ir_node) (fuel : Nat)
    (mods rest : List Char) (ap : List emitf_arg) (st : be_emit_state)
    (hm : ∀ c ∈ mods, c ∈ modifier_chars) (hn : ∀ n ∈ rest.head?, n < '0' ∨ '9' ≤ n) :
    amd64_emitf_loop env node (fuel + 1) ('%' :: (mods ++ 'D' :: rest)) ap st =
      emit_fatal "unknown format conversion" st := by
  have hh := directive_head 'D' rest (by decide)
  have h2 := amd64_emitf_mods_append mods ('D' :: rest) EMIT_NONE hm hh
  rw [amd64_emitf_loop]
  simp only [List.takeWhile_cons, List.dropWhile_cons, ne_eq, not_true_eq_false, false_and,
    decide_False, if_false, h2, Bool.false_eq_true]
  cases rest with
  | nil => simp
  | cons n post =>
    have h := hn n (by simp)
    simp [h]

theorem amd64_emitf_loop_S_unknown (env : emit_env) (node : ir_node) (fuel : Nat)
    (mods rest : List Char) (ap : List emitf_arg) (st : be_emit_state)
    (hm : ∀ c ∈ mods, c ∈ modifier_chars)
    (hn : ∀ n ∈ rest.head?, n ≠ 'O' ∧ ¬('0' ≤ n ∧ n ≤ '9')) :
    amd64_emitf_loop env node (fuel + 1) ('%' :: (mods ++ 'S' :: rest)) ap st =
      emit_fatal "unknown format conversion" st := by
  have hh := directive_head 'S' rest (by decide)
  have h2 := amd64_emitf_mods_append mods ('S' :: rest) EMIT_NONE hm hh
  rw [amd64_emitf_loop]
  simp only [List.takeWhile_cons, List.dropWhile_cons, ne_eq, not_true_eq_false, false_and,
    decide_False, if_false, h2, Bool.false_eq_true]
  cases rest with
  | nil => simp
  | cons n post =>
    have h := hn n (by simp)
    simp [h.1, h.2]

/-- C32, what the code does at the slot digits: `%S<c>` renders the input slot `c`
for every digit `c` from `0` to `9`, but `%D<c>` renders the output slot `c` only
for the digits from `0` to `8`.  `%D` is the fatal error `unknown format
conversion` exactly when what follows is no digit from `0` to `8` (so also for
`9`, and at the end of the format); `%S` is this fatal error exactly when what
follows is neither a digit nor the letter `O` of the shift operand.  The digit
`9` is where the two directives part: the test of `%D` is `'9' <= *fmt`, the
test of `%S` is `*fmt <= '9'`. -/
theorem amd64_emitf_slot_digits (env : emit_env) (node : ir_node) (st : be_emit_state)
    (ap : List emitf_arg) (mods : List Char) (hm : ∀ c ∈ mods, c ∈ modifier_chars) :
    (∀ (fuel : Nat) (post : List Char) (k : Nat), k < 9 →
        amd64_emitf_loop env node (fuel + 1) ('%' :: (mods ++ 'D' :: Nat.digitChar k :: post))
            ap st =
          emit_then (amd64_emitf_emit_R env st node (mods_of mods)
              (env.arch_get_irn_register_out node k))
            (amd64_emitf_loop env node fuel post ap)) ∧
      (∀ (fuel : Nat) (post : List Char) (k : Nat), k < 10 →
        amd64_emitf_loop env node (fuel + 1) ('%' :: (mods ++ 'S' :: Nat.digitChar k :: post))
            ap st =
          emit_then (amd64_emitf_emit_R env st node (mods_of mods)
              (env.arch_get_irn_register_in node k))
            (amd64_emitf_loop env node fuel post ap)) ∧
      (∀ (fuel : Nat) (rest : List Char), (∀ n ∈ rest.head?, n < '0' ∨ '9' ≤ n) →
        amd64_emitf_loop env node (fuel + 1) ('%' :: (mods ++ 'D' :: rest)) ap st =
          .error { msg := "unknown format conversion", st := st }) ∧
      (∀ (fuel : Nat) (post : List Char),
        amd64_emitf_loop env node (fuel + 1) ('%' :: (mods ++ 'D' :: '9' :: post)) ap st =
          .error { msg := "unknown format conversion", st := st }) ∧
      (∀ (fuel : Nat) (rest : List Char),
        (∀ n ∈ rest.head?, n ≠ 'O' ∧ ¬('0' ≤ n ∧ n ≤ '9')) →
        amd64_emitf_loop env node (fuel + 1) ('%' :: (mods ++ 'S' :: rest)) ap st =
          .error { msg := "unknown format conversion", st := st }) ∧
      (∀ (fuel : Nat) (post : List Char),
        amd64_emitf_loop env node (fuel + 1) ('%' :: (mods ++ 'S' :: 'O' :: post)) ap st =
          emit_then (emit_shiftop env st node) (amd64_emitf_loop env node fuel post ap)) := by
  refine ⟨?_, ?_, ?_, ?_, ?_, ?_⟩
  · intro fuel post k hk
    obtain ⟨_, _, h3, h4, h5, _⟩ := digitChar_slot k (by omega)
    have hn : ¬(Nat.digitChar k < '0' ∨ '9' ≤ Nat.digitChar k) := by
      intro h
      rcases h with h | h
      · exact h5 h
      · exact h4 hk h
    rw [amd64_emitf_loop_D env node fuel mods post _ ap st hm hn, h3]
  · intro fuel post k hk
    obtain ⟨h1, h2, h3, _, _, _⟩ := digitChar_slot k hk
    rw [amd64_emitf_loop_S env node fuel mods post _ ap st hm ⟨h1, h2⟩, h3]
  · intro fuel rest hn
    exact amd64_emitf_loop_D_unknown env node fuel mods rest ap st hm hn
  · intro fuel post
    exact amd64_emitf_loop_D_unknown env node fuel mods ('9' :: post) ap st hm
      (fun n h => by
        simp only [List.head?_cons, Option.mem_def, Option.some.injEq] at h
        subst h
        decide)
  · intro fuel rest hn
    exact amd64_emitf_loop_S_unknown env node fuel mods rest ap st hm hn
  · intro fuel post
    exact amd64_emitf_loop_SO env node fuel mods post ap st hm

/-- Instance of C32 on the function of moves: `%D8` is rendered. -/
theorem amd64_emitf_slot_digits_witness :
    amd64_emitf_loop env_mov 4 2 ['%', 'D', '8'] [] st_empty =
      .ok { lines := [], cur := "%rax" } :=
  ((amd64_emitf_slot_digits env_mov 4 st_empty [] [] (by decide)).1 1 [] 8 (by decide)).trans rfl

/-- C32, the failing input: on the function of moves the format `inc %S9` is
rendered, and the format `inc %D9` is the fatal error `unknown format
conversion` instead of the output slot 9. -/
theorem amd64_emitf_slot_digits_counterexample :
    amd64_emitf env_mov st_empty 4 "inc %S9" [] = .ok { lines := ["\tinc %rcx\n"], cur := "" } ∧
      amd64_emitf env_mov st_empty 4 "inc %D9" [] =
        .error { msg := "unknown format conversion", st := { lines := [], cur := "\tinc " } } := by
  constructor <;> rfl

/-- What `%A` does when no `M` follows. -/
theorem amd64_emitf_loop_A (env : emit_env) (node : ir_node) (fuel : Nat)
    (mods post : List Char) (ap : List emitf_arg) (st : be_emit_state)
    (hm : ∀ c ∈ mods, c ∈ modifier_chars) (hp : post.head? ≠ some 'M') :
    amd64_emitf_loop env node (fuel + 1) ('%' :: (mods ++ 'A' :: post)) ap st =
      amd64_emitf_loop env node fuel post ap
        (amd64_emit_addr env st node (get_amd64_addr_attr_const env node).addr) := by
  have hh := directive_head 'A' post (by decide)
  have h2 := amd64_emitf_mods_append mods ('A' :: post) EMIT_NONE hm hh
  rw [amd64_emitf_loop]
  simp only [List.takeWhile_cons, List.dropWhile_cons, ne_eq, not_true_eq_false, false_and,
    decide_False, if_false, h2, Bool.false_eq_true]
  cases post with
  | nil => simp
  | cons c post =>
    have hc : c ≠ 'M' := fun h => hp (by rw [h]; rfl)
    simp [hc]

/-- C33: after `%A` that is not followed by `M` (another character, or the end of
the format), `amd64_emitf` has written the address of the node with
`amd64_emit_addr` and goes on with the format right behind the `A`: the
character that follows is not consumed.  So a format `%A` followed by literal
text gives the address followed by that text, and the format `%A` alone gives
the address. -/
theorem amd64_emitf_A_lookahead (env : emit_env) (node : ir_node) (st : be_emit_state)
    (ap : List emitf_arg) (mods post : List Char)
    (hm : ∀ c ∈ mods, c ∈ modifier_chars) (hp : post.head? ≠ some 'M') :
    (∀ fuel : Nat,
        amd64_emitf_loop env node (fuel + 1) ('%' :: (mods ++ 'A' :: post)) ap st =
          amd64_emitf_loop env node fuel post ap
            (amd64_emit_addr env st node (get_amd64_addr_attr_const env node).addr)) ∧
      (∀ fmt : String, c_string fmt = '%' :: (mods ++ 'A' :: post) → '%' ∉ post →
        amd64_emitf env st node fmt ap =
          .ok (be_emit_finish_line_gas env
            (emit_text
              (amd64_emit_addr env (be_emit_char st '\t') node
                (get_amd64_addr_attr_const env node).addr)
              post)
            node)) := by
  refine ⟨fun fuel => amd64_emitf_loop_A env node fuel mods post ap st hm hp, ?_⟩
  intro fmt hfmt hpost
  unfold amd64_emitf
  simp only
  have hfmt' : List.takeWhile (fun c => decide (c ≠ Char.ofNat 0)) fmt.data =
      '%' :: (mods ++ 'A' :: post) := hfmt
  rw [hfmt', amd64_emitf_loop_A env node _ mods post ap _ hm hp]
  have hlen : post.length ≤ mods.length + post.length + 1 := by omega
  have hl : ('%' :: (mods ++ 'A' :: post)).length = (mods.length + post.length + 1) + 1 := by
    simp
    omega
  rw [hl, amd64_emitf_loop_text env node post _ ap _ hpost hlen]

/-- Witness of C33 on the demo function: the address of node 1 is `0`, and the
text behind `%A` follows it. -/
theorem amd64_emitf_A_lookahead_witness :
    amd64_emitf env_demo st_empty 1 "%A+8" [] = .ok { lines := ["\t0+8\n"], cur := "" } :=
  ((amd64_emitf_A_lookahead env_demo 1 st_empty [] [] ['+', '8'] (by decide) (by decide)).2
      "%A+8" (by decide) (by decide)).trans rfl

/-! ## The reads of the template interpreter -/

theorem fmt_read_cons (cstr : List Char) (p : Nat) (c : Char) (rest : List Char)
    (h : cstr.drop p = c :: rest) :
    fmt_read cstr p = .ok c ∧ cstr.drop (p + 1) = rest ∧ p + 1 ≤ cstr.length ∧ c ∈ cstr := by
  have hp : p < cstr.length := by
    by_contra hc
    rw [List.drop_eq_nil_of_le (by omega)] at h
    exact absurd h (by simp)
  have hget : cstr.get? p = some c := by
    have := List.head?_drop cstr p
    rw [h] at this
    simpa using this.symm
  refine ⟨?_, ?_, hp, ?_⟩
  · unfold fmt_read
    have : (cstr ++ [Char.ofNat 0]).get? p = some c := by
      rw [List.get?_eq_getElem?, List.getElem?_append_left hp, ← List.get?_eq_getElem?, hget]
    rw [this]
  · rw [← List.tail_drop, h]
    rfl
  · exact List.get?_mem hget

theorem fmt_read_nil (cstr : List Char) (p : Nat) (h : cstr.drop p = [])
    (hp : p ≤ cstr.length) : fmt_read cstr p = .ok (Char.ofNat 0) ∧ p = cstr.length := by
  have hlen : p = cstr.length := by
    have := List.drop_eq_nil_iff.mp h
    omega
  refine ⟨?_, hlen⟩
  unfold fmt_read
  rw [hlen]
  simp

theorem fmt_read_past (cstr : List Char) (k : Nat) :
    fmt_read cstr (cstr.length + 1 + k) = .error .read_past_terminator := by
  unfold fmt_read
  have : (cstr ++ [Char.ofNat 0]).get? (cstr.length + 1 + k) = none := by
    apply List.get?_eq_none.mpr
    simp
  rw [this]

theorem nul_ne_text : ¬(Char.ofNat 0 ≠ '%' ∧ Char.ofNat 0 ≠ '\n' ∧ Char.ofNat 0 ≠ Char.ofNat 0) := by
  decide

theorem amd64_emitf_scan_text_eq (cstr : List Char) (h0 : Char.ofNat 0 ∉ cstr) :
    ∀ (l : List Char) (k p : Nat), cstr.drop p = l → p ≤ cstr.length → l.length < k →
      amd64_emitf_scan_text cstr k p =
        .ok (p + (l.takeWhile (fun c => c ≠ '%' ∧ c ≠ '\n')).length)
  | [], 0, _, _, _, hk => absurd hk (by simp)
  | [], k + 1, p, hl, hp, _ => by
    rw [amd64_emitf_scan_text, (fmt_read_nil cstr p hl hp).1]
    simp only [nul_ne_text, if_false, List.takeWhile_nil, List.length_nil, Nat.add_zero]
  | c :: rest, 0, _, _, _, hk => absurd hk (by simp)
  | c :: rest, k + 1, p, hl, hp, hk => by
    obtain ⟨hr, hd, hp1, hmem⟩ := fmt_read_cons cstr p c rest hl
    have hc0 : c ≠ Char.ofNat 0 := fun h => h0 (h ▸ hmem)
    rw [amd64_emitf_scan_text, hr]
    by_cases hP : c ≠ '%' ∧ c ≠ '\n'
    · have hP' : c ≠ '%' ∧ c ≠ '\n' ∧ c ≠ Char.ofNat 0 := ⟨hP.1, hP.2, hc0⟩
      simp only [hP', if_true, not_false_eq_true, and_self, ne_eq]
      rw [amd64_emitf_scan_text_eq cstr h0 rest k (p + 1) hd hp1
        (by simpa using hk)]
      simp only [List.takeWhile_cons, hP, decide_True, if_true, List.length_cons, ne_eq,
        not_false_eq_true, and_self]
      congr 1
      omega
    · have hP' : ¬(c ≠ '%' ∧ c ≠ '\n' ∧ c ≠ Char.ofNat 0) := fun h => hP ⟨h.1, h.2.1⟩
      simp only [hP', if_false]
      simp only [List.takeWhile_cons, hP, decide_False, if_false, List.length_nil, Nat.add_zero,
        Bool.false_eq_true]

theorem amd64_emitf_scan_mods_eq (cstr : List Char) :
    ∀ (l : List Char) (k p : Nat) (m : amd64_emit_mod_t),
      cstr.drop p = l → p ≤ cstr.length → l.length < k →
      ∃ q, amd64_emitf_scan_mods cstr k p m = .ok ((amd64_emitf_mods l m).1, q) ∧
        cstr.drop q = (amd64_emitf_mods l m).2 ∧ p ≤ q ∧ q ≤ cstr.length
  | [], 0, _, _, _, _, hk => absurd hk (by simp)
  | [], k + 1, p, m, hl, hp, _ => by
    refine ⟨p, ?_, by rw [hl]; rfl, le_refl _, hp⟩
    rw [amd64_emitf_scan_mods, (fmt_read_nil cstr p hl hp).1]
    have h1 : ¬ Char.ofNat 0 = '^' := by decide
    have h2 : ¬ Char.ofNat 0 = '3' := by decide
    have h3 : ¬ Char.ofNat 0 = '#' := by decide
    have h4 : ¬ Char.ofNat 0 = '*' := by decide
    simp only [h1, h2, h3, h4, if_false, amd64_emitf_mods]
  | c :: rest, 0, _, _, _, _, hk => absurd hk (by simp)
  | c :: rest, k + 1, p, m, hl, hp, hk => by
    obtain ⟨hr, hd, hp1, _⟩ := fmt_read_cons cstr p c rest hl
    have hk' : rest.length < k := by simpa using hk
    have step : ∀ m', ∃ q, amd64_emitf_scan_mods cstr k (p + 1) m' =
          .ok ((amd64_emitf_mods rest m').1, q) ∧
        cstr.drop q = (amd64_emitf_mods rest m').2 ∧ p ≤ q ∧ q ≤ cstr.length := by
      intro m'
      obtain ⟨q, e1, e2, e3, e4⟩ := amd64_emitf_scan_mods_eq cstr rest k (p + 1) m' hd hp1 hk'
      exact ⟨q, e1, e2, by omega, e4⟩
    rw [amd64_emitf_scan_mods, hr]
    simp only [amd64_emitf_mods]
    split_ifs
    · exact step _
    · exact step _
    · exact step _
    · exact step _
    · exact ⟨p, rfl, hl, le_refl _, hp⟩

theorem drop_takeWhile_length (P : Char → Bool) :
    ∀ l : List Char, l.drop (l.takeWhile P).length = l.dropWhile P
  | [] => rfl
  | c :: l => by
    by_cases h : P c <;>
      simp [List.takeWhile_cons, List.dropWhile_cons, h, drop_takeWhile_length P l]

theorem take_takeWhile_length (P : Char → Bool) :
    ∀ l : List Char, l.take (l.takeWhile P).length = l.takeWhile P
  | [] => rfl
  | c :: l => by
    by_cases h : P c <;>
      simp [List.takeWhile_cons, h, take_takeWhile_length P l]

theorem text_run_facts (cstr : List Char) (p : Nat) (hp : p ≤ cstr.length) (P : Char → Bool) :
    p + ((cstr.drop p).takeWhile P).length ≤ cstr.length ∧
      cstr.drop (p + ((cstr.drop p).takeWhile P).length) = (cstr.drop p).dropWhile P ∧
      (cstr.drop p).take (p + ((cstr.drop p).takeWhile P).length - p) =
        (cstr.drop p).takeWhile P ∧
      (p + ((cstr.drop p).takeWhile P).length ≠ p ↔ (cstr.drop p).takeWhile P ≠ []) := by
  have hsplit := List.takeWhile_append_dropWhile P (cstr.drop p)
  have hlen : ((cstr.drop p).takeWhile P).length ≤ (cstr.drop p).length := by
    have := congrArg List.length hsplit
    rw [List.length_append] at this
    omega
  have hdl : (cstr.drop p).length = cstr.length - p := List.length_drop p cstr
  refine ⟨by omega, ?_, ?_, ?_⟩
  · rw [← List.drop_drop]
    exact drop_takeWhile_length P _
  · rw [Nat.add_sub_cancel_left]
    exact take_takeWhile_length P _
  · constructor
    · intro h hnil
      rw [hnil] at h
      simp at h
    · intro h heq
      apply h
      apply List.eq_nil_of_length_eq_zero
      omega

theorem nul_no_directive :
    (Char.ofNat 0 = '%') = False ∧ (Char.ofNat 0 = 'A') = False ∧ (Char.ofNat 0 = 'C') = False ∧
      (Char.ofNat 0 = 'D') = False ∧ (Char.ofNat 0 = 'E') = False ∧
      (Char.ofNat 0 = 'L') = False ∧ (Char.ofNat 0 = 'P') = False ∧
      (Char.ofNat 0 = 'R') = False ∧ (Char.ofNat 0 = 'S') = False ∧
      (Char.ofNat 0 = 'M') = False ∧ (Char.ofNat 0 = 'd') = False ∧
      (Char.ofNat 0 = 's') = False ∧ (Char.ofNat 0 = 'u') = False := by
  decide

theorem emitf_after_lift (len : Nat) (r : emit_result)
    (k' : be_emit_state → Except emitf_stop (be_emit_state × Nat))
    (k : be_emit_state → emit_result) (h : ∀ st, k' st = emitf_lift len (k st)) :
    emitf_after r k' =
      emitf_lift len (match r with
        | .error e => .error e
        | .ok st => k st) := by
  cases r with
  | error e => rfl
  | ok st => exact h st

theorem nul_no_lookahead :
    (Char.ofNat 0 = 'M') = False ∧ (Char.ofNat 0 = 'X') = False ∧ (Char.ofNat 0 = 'O') = False ∧
      (Char.ofNat 0 = 'S') = False ∧ (Char.ofNat 0 < '0' ∨ '9' ≤ Char.ofNat 0) = True ∧
      ('0' ≤ Char.ofNat 0 ∧ Char.ofNat 0 ≤ '9') = False := by
  decide

theorem amd64_emitf_at_eq (env : emit_env) (node : ir_node) (cstr : List Char)
    (h0 : Char.ofNat 0 ∉ cstr) :
    ∀ (fuel p : Nat) (ap : List emitf_arg) (st : be_emit_state),
      p ≤ cstr.length → cstr.length - p < fuel →
      amd64_emitf_at env node cstr fuel p ap st =
        emitf_lift cstr.length (amd64_emitf_loop env node fuel (cstr.drop p) ap st)
  | 0, _, _, _, _, hf => absurd hf (by omega)
  | fuel + 1, p, ap, st, hp, hf => by
    have IH : ∀ (q : Nat) (ap : List emitf_arg) (st : be_emit_state), p < q → q ≤ cstr.length →
        amd64_emitf_at env node cstr fuel q ap st =
          emitf_lift cstr.length (amd64_emitf_loop env node fuel (cstr.drop q) ap st) :=
      fun q ap st hq hql => amd64_emitf_at_eq env node cstr h0 fuel q ap st hql (by omega)
    have hscan := amd64_emitf_scan_text_eq cstr h0 (cstr.drop p) (cstr.length + 1) p rfl hp
      (by rw [List.length_drop]; omega)
    obtain ⟨hq, hdrop, htake, hne⟩ :=
      text_run_facts cstr p hp (fun c => decide (c ≠ '%' ∧ c ≠ '\n'))
    rw [amd64_emitf_at, amd64_emitf_loop, hscan]
    simp only [htake, hne]
    generalize hst : (if List.takeWhile (fun c => decide (c ≠ '%' ∧ c ≠ '\n')) (List.drop p cstr) ≠ []
      then be_emit_string_len st
        (List.takeWhile (fun c => decide (c ≠ '%' ∧ c ≠ '\n')) (List.drop p cstr)) else st) = st1
    generalize hqdef : p + (List.takeWhile (fun c => decide (c ≠ '%' ∧ c ≠ '\n'))
      (List.drop p cstr)).length = q at hq hdrop ⊢
    have hpq : p ≤ q := by omega
    generalize hdw : List.dropWhile (fun c => decide (c ≠ '%' ∧ c ≠ '\n')) (List.drop p cstr) = dw
      at hdrop ⊢
    clear hscan htake hne hst hqdef
    subst hdw
    rcases hdwc : List.dropWhile (fun c => decide (c ≠ '%' ∧ c ≠ '\n')) (List.drop p cstr)
      with _ | ⟨c, l3⟩
    · rw [hdwc] at hdrop
      obtain ⟨hr, hlen⟩ := fmt_read_nil cstr q hdrop hq
      rw [hr]
      have n1 : ¬ Char.ofNat 0 = '\n' := by decide
      simp only [n1, if_false, if_true, emitf_lift, hlen]
    · rw [hdwc] at hdrop
      obtain ⟨hr, hd1, hq1, hmem⟩ := fmt_read_cons cstr q c l3 hdrop
      have hc0 : c ≠ Char.ofNat 0 := fun h => h0 (h ▸ hmem)
      rw [hr]
      simp only
      by_cases hn : c = '\n'
      · simp only [hn, if_true]
        rw [IH (q + 1) _ _ (by omega) hq1, hd1]
      · simp only [hn, hc0, if_false]
        obtain ⟨q2, e1, e2, e3, e4⟩ := amd64_emitf_scan_mods_eq cstr l3 (cstr.length + 1) (q + 1)
          EMIT_NONE hd1 hq1 (by rw [← hd1, List.length_drop]; omega)
        rw [e1]
        simp only
        generalize (amd64_emitf_mods l3 EMIT_NONE).1 = mod
        generalize (amd64_emitf_mods l3 EMIT_NONE).2 = l4 at e2
        rcases l4 with _ | ⟨d, l5⟩
        · obtain ⟨hr2, _⟩ := fmt_read_nil cstr q2 e2 e4
          rw [hr2]
          simp only [nul_no_directive, if_false, emitf_lift, emit_fatal]
        · obtain ⟨hr2, hd2, hq2, _⟩ := fmt_read_cons cstr q2 d l5 e2
          rw [hr2]
          simp only
          have IH1 : ∀ (ap : List emitf_arg) (st : be_emit_state),
              amd64_emitf_at env node cstr fuel (q2 + 1) ap st =
                emitf_lift cstr.length (amd64_emitf_loop env node fuel l5 ap st) := by
            intro ap st
            rw [IH (q2 + 1) ap st (by omega) hq2, hd2]
          by_cases h1 : d = '%'
          · simp only [if_pos h1]
            exact IH1 _ _
          simp only [if_neg h1]
          have hlook : (l5 = [] ∧ fmt_read cstr (q2 + 1) = .ok (Char.ofNat 0)) ∨
              ∃ x l6, l5 = x :: l6 ∧ fmt_read cstr (q2 + 1) = .ok x ∧
                ∀ (ap : List emitf_arg) (st : be_emit_state),
                  amd64_emitf_at env node cstr fuel (q2 + 1 + 1) ap st =
                    emitf_lift cstr.length (amd64_emitf_loop env node fuel l6 ap st) := by
            rcases l5 with _ | ⟨x, l6⟩
            · exact Or.inl ⟨rfl, (fmt_read_nil cstr (q2 + 1) hd2 hq2).1⟩
            · obtain ⟨hr3, hd3, hq3, _⟩ := fmt_read_cons cstr (q2 + 1) x l6 hd2
              refine Or.inr ⟨x, l6, rfl, hr3, ?_⟩
              intro ap st
              rw [IH (q2 + 1 + 1) ap st (by omega) hq3, hd3]
          by_cases h2 : d = 'A'
          · simp only [if_pos h2]
            rcases hlook with ⟨hl5, hr3⟩ | ⟨x, l6, hl5, hr3, IH2⟩
            · subst hl5
              rw [hr3]
              simp only [nul_no_lookahead, if_false, Nat.add_sub_cancel]
              exact IH1 _ _
            · subst hl5
              rw [hr3]
              simp only [Nat.add_sub_cancel]
              by_cases hM : x = 'M'
              · subst hM
                simp only [if_true]
                exact emitf_after_lift _ _ _ _ (fun st => IH2 ap st)
              · simp only [if_neg hM]
                rw [IH1]
                simp [hM]
          simp only [if_neg h2]
          by_cases h3 : d = 'C'
          · simp only [if_pos h3]
            exact IH1 _ _
          simp only [if_neg h3]
          by_cases h4 : d = 'D'
          · simp only [if_pos h4]
            rcases hlook with ⟨hl5, hr3⟩ | ⟨x, l6, hl5, hr3, IH2⟩
            · subst hl5
              rw [hr3]
              simp only [nul_no_lookahead, if_true]
              rfl
            · subst hl5
              rw [hr3]
              simp only
              by_cases hx : x < '0' ∨ '9' ≤ x
              · simp only [if_pos hx]
                rfl
              · simp only [if_neg hx]
                exact emitf_after_lift _ _ _ _ (fun st => IH2 ap st)
          simp only [if_neg h4]
          by_cases h5 : d = 'E'
          · simp only [if_pos h5]
            rcases ap with _ | ⟨a, ap'⟩
            · rfl
            · cases a <;> first | exact IH1 _ _ | rfl
          simp only [if_neg h5]
          by_cases h6 : d = 'L'
          · simp only [if_pos h6]
            exact IH1 _ _
          simp only [if_neg h6]
          by_cases h7 : d = 'P'
          · simp only [if_pos h7]
            rcases hlook with ⟨hl5, hr3⟩ | ⟨x, l6, hl5, hr3, IH2⟩
            · subst hl5
              rw [hr3]
              simp only [nul_no_lookahead, if_false]
              rfl
            · subst hl5
              rw [hr3]
              simp only
              by_cases hX : x = 'X'
              · subst hX
                simp only [if_true]
                rcases ap with _ | ⟨a, ap'⟩
                · rfl
                · cases a <;> first | exact IH2 _ _ | rfl
              · simp only [if_neg hX]
                simp [hX, emitf_lift, emit_fatal]
          simp only [if_neg h7]
          by_cases h8 : d = 'R'
          · simp only [if_pos h8]
            rcases ap with _ | ⟨a, ap'⟩
            · rfl
            · cases a <;> first | exact emitf_after_lift _ _ _ _ (fun st => IH1 _ st) | rfl
          simp only [if_neg h8]
          by_cases h9 : d = 'S'
          · simp only [if_pos h9]
            rcases hlook with ⟨hl5, hr3⟩ | ⟨x, l6, hl5, hr3, IH2⟩
            · subst hl5
              rw [hr3]
              simp only [nul_no_lookahead, if_false]
              rfl
            · subst hl5
              rw [hr3]
              simp only
              by_cases hO : x = 'O'
              · simp only [if_pos hO]
                exact emitf_after_lift _ _ _ _ (fun st => IH2 ap st)
              · simp only [if_neg hO]
                by_cases hx : '0' ≤ x ∧ x ≤ '9'
                · simp only [if_pos hx]
                  exact emitf_after_lift _ _ _ _ (fun st => IH2 ap st)
                · simp only [if_neg hx]
                  rfl
          simp only [if_neg h9]
          by_cases h10 : d = 'M'
          · simp only [if_pos h10]
            rcases hlook with ⟨hl5, hr3⟩ | ⟨x, l6, hl5, hr3, IH2⟩
            · subst hl5
              rw [hr3]
              simp only [nul_no_lookahead, if_false]
              exact emitf_after_lift _ _ _ _ (fun st => IH1 ap st)
            · subst hl5
              rw [hr3]
              simp only
              by_cases hS : x = 'S'
              · subst hS
                simp only [if_true]
                exact emitf_after_lift _ _ _ _ (fun st => IH2 ap st)
              simp only [if_neg hS]
              by_cases hM : x = 'M'
              · subst hM
                simp only [if_true]
                exact emitf_after_lift _ _ _ _ (fun st => IH2 ap st)
              simp only [if_neg hM]
              by_cases hX : x = 'X'
              · subst hX
                simp only [if_true]
                exact emitf_after_lift _ _ _ _ (fun st => IH2 ap st)
              simp only [if_neg hX]
              rw [emitf_after_lift _ _ _ _ (fun st => IH1 ap st)]
              simp [hS, hM, hX]
          simp only [if_neg h10]
          by_cases h11 : d = 'd'
          · simp only [if_pos h11]
            rcases ap with _ | ⟨a, ap'⟩
            · rfl
            · cases a <;> first | exact IH1 _ _ | rfl
          simp only [if_neg h11]
          by_cases h12 : d = 's'
          · simp only [if_pos h12]
            rcases ap with _ | ⟨a, ap'⟩
            · rfl
            · cases a <;> first | exact IH1 _ _ | rfl
          simp only [if_neg h12]
          by_cases h13 : d = 'u'
          · simp only [if_pos h13]
            rcases ap with _ | ⟨a, ap'⟩
            · rfl
            · cases a <;> first | exact IH1 _ _ | rfl
          simp only [if_neg h13]
          rfl

theorem c_string_no_nul (fmt : String) : Char.ofNat 0 ∉ c_string fmt := by
  intro h
  have := List.mem_takeWhile_imp h
  simp at this

theorem amd64_emitf_reads_eq (env : emit_env) (st : be_emit_state) (node : ir_node)
    (fmt : String) (ap : List emitf_arg) :
    amd64_emitf_reads env st node fmt ap = emitf_result (amd64_emitf env st node fmt ap) := by
  have h := amd64_emitf_at_eq env node (c_string fmt) (c_string_no_nul fmt)
    ((c_string fmt).length + 1) 0 ap (be_emit_char st '\t') (Nat.zero_le _) (by omega)
  rw [List.drop_zero] at h
  unfold amd64_emitf_reads amd64_emitf
  unfold c_string at h
  simp only [h]
  cases amd64_emitf_loop env node
      ((List.takeWhile (fun c => decide (c ≠ Char.ofNat 0)) fmt.data).length + 1)
      (List.takeWhile (fun c => decide (c ≠ Char.ofNat 0)) fmt.data) ap (be_emit_char st '\t') <;>
    rfl

/-- C34: for every format string and every list of arguments, `amd64_emitf` run
over the buffer of the format (its characters up to the first NUL, and that NUL)
ends, with the sink or with a `panic`: it never reads behind the terminator and
never needs more rounds than the format has characters, plus one.  Its result
is the one of the interpreter over the list of characters, and the loop is left
with the format pointer on the terminator.  A read behind the terminator would
not go unnoticed: `fmt_read` reports it. -/
theorem amd64_emitf_reads_within (env : emit_env) (st : be_emit_state) (node : ir_node)
    (fmt : String) (ap : List emitf_arg) :
    amd64_emitf_reads env st node fmt ap = emitf_result (amd64_emitf env st node fmt ap) ∧
      amd64_emitf_reads env st node fmt ap ≠ .error .read_past_terminator ∧
      amd64_emitf_reads env st node fmt ap ≠ .error .out_of_rounds ∧
      (∀ (st1 : be_emit_state) (q : Nat),
        amd64_emitf_at env node (c_string fmt) ((c_string fmt).length + 1) 0 ap
            (be_emit_char st '\t') = .ok (st1, q) →
          q = (c_string fmt).length ∧ fmt_read (c_string fmt) q = .ok (Char.ofNat 0)) ∧
      (∀ k : Nat,
        fmt_read (c_string fmt) ((c_string fmt).length + 1 + k) =
          .error .read_past_terminator) := by
  have heq := amd64_emitf_reads_eq env st node fmt ap
  refine ⟨heq, ?_, ?_, ?_, fun k => fmt_read_past _ k⟩
  · rw [heq]
    cases amd64_emitf env st node fmt ap <;> simp [emitf_result]
  · rw [heq]
    cases amd64_emitf env st node fmt ap <;> simp [emitf_result]
  · intro st1 q h
    have hat := amd64_emitf_at_eq env node (c_string fmt) (c_string_no_nul fmt)
      ((c_string fmt).length + 1) 0 ap (be_emit_char st '\t') (Nat.zero_le _) (by omega)
    rw [hat] at h
    have hq : q = (c_string fmt).length := by
      cases hres : amd64_emitf_loop env node ((c_string fmt).length + 1)
          (List.drop 0 (c_string fmt)) ap (be_emit_char st '\t') with
      | error e =>
        rw [hres] at h
        simp [emitf_lift] at h
      | ok st2 =>
        rw [hres] at h
        simp only [emitf_lift, Except.ok.injEq, Prod.mk.injEq] at h
        exact h.2.symm
    refine ⟨hq, ?_⟩
    rw [hq]
    exact (fmt_read_nil _ _ (List.drop_length _) (le_refl _)).1

/-! ## Operand order, Perm, IncSP, Copy and the name tables -/

theorem emit_register_mode_text (st : be_emit_state) (reg : arch_register_t)
    (mode : amd64_insn_mode_t) (name : String) (h : register_text reg mode = some name) :
    emit_register_mode st reg mode = .ok (be_emit_string st ("%" ++ name)) := by
  unfold register_text at h
  unfold emit_register_mode emit_register
  split_ifs at h ⊢ with hx
  · simp only [Option.some.injEq] at h
    simp [← h, be_emit_string, be_emit_char, String.ext_iff]
  · cases mode <;> simp only [reduceCtorEq, Option.some.injEq] at h <;>
      simp [emit_register_insn_mode, h, be_emit_string, be_emit_char, String.ext_iff]

/-- C35: `amd64_emit_am` writes the operands source first.  In mode
`AMD64_OP_REG_REG` it writes input register 1, then `, `, then input register 0,
both at the width of the node; in mode `AMD64_OP_REG_IMM` it writes `$` and the
32-bit immediate, then `, ` and input register 0; in mode `AMD64_OP_ADDR_REG` it
writes the address, then `, ` and the input register of the slot `reg_input` of
the attribute. -/
theorem amd64_emit_am_operand_order (env : emit_env) (node : ir_node) (st : be_emit_state)
    (indirect_star : Bool) (n0 n1 nr : String)
    (h0 : register_text (env.arch_get_irn_register_in node 0)
      (get_amd64_addr_attr_const env node).insn_mode = some n0)
    (h1 : register_text (env.arch_get_irn_register_in node 1)
      (get_amd64_addr_attr_const env node).insn_mode = some n1)
    (hr : register_text
      (env.arch_get_irn_register_in node (env.get_amd64_binop_addr_attr_const node).u_reg_input)
      (get_amd64_addr_attr_const env node).insn_mode = some nr) :
    ((get_amd64_addr_attr_const env node).base.op_mode = .AMD64_OP_REG_REG →
        amd64_emit_am env st node indirect_star =
          .ok (be_emit_string st ("%" ++ n1 ++ ", " ++ "%" ++ n0))) ∧
      ((get_amd64_addr_attr_const env node).base.op_mode = .AMD64_OP_REG_IMM →
        amd64_emit_am env st node indirect_star =
          .ok (be_emit_string
            (amd64_emit_immediate32 env (be_emit_char st '$')
              (env.get_amd64_binop_addr_attr_const node).u_immediate)
            (", " ++ "%" ++ n0))) ∧
      ((get_amd64_addr_attr_const env node).base.op_mode = .AMD64_OP_ADDR_REG →
        amd64_emit_am env st node indirect_star =
          .ok (be_emit_string
            (amd64_emit_addr env st node (get_amd64_addr_attr_const env node).addr)
            (", " ++ "%" ++ nr))) := by
  have hattr : (env.get_amd64_binop_addr_attr_const node).base =
      get_amd64_addr_attr_const env node := rfl
  refine ⟨?_, ?_, ?_⟩ <;> intro hop <;> unfold amd64_emit_am <;> simp only [hop, hattr]
  · rw [emit_register_mode_text st _ _ n1 h1]
    simp only
    rw [emit_register_mode_text _ _ _ n0 h0]
    simp [be_emit_cstring, be_emit_string, String.ext_iff]
  · rw [emit_register_mode_text _ _ _ n0 h0]
    simp [be_emit_cstring, be_emit_string, String.ext_iff]
  · rw [emit_register_mode_text _ _ _ nr hr]
    simp [be_emit_cstring, be_emit_string, String.ext_iff]

/-- Witness of C35: a node in mode `AMD64_OP_REG_REG` at 32 bits with the inputs
`%rcx` and `%rdx` gives `%edx, %ecx`. -/
theorem amd64_emit_am_operand_order_witness :
    amd64_emit_am env_binop st_empty 1 false = .ok { lines := [], cur := "%edx, %ecx" } :=
  ((amd64_emit_am_operand_order env_binop 1 st_empty false "ecx" "edx" "ecx"
      (by decide) (by decide) (by decide)).1 rfl).trans rfl

theorem amd64_emitf_perm (env : emit_env) (st : be_emit_state) (node : ir_node)
    (a b : arch_register_t) :
    amd64_emitf env st node "pxor %^R, %^R" [.reg a, .reg b] =
        .ok (emit_lines st [pxor_line env node (a, b)]) ∧
      amd64_emitf env st node "xchg %^R, %^R" [.reg a, .reg b] =
        .ok (emit_lines st
          ["\txchg %" ++ a.name ++ ", %" ++ b.name ++ env.finish_line_text node]) := by
  have h : (0 ||| 2) &&& 2 ≠ 0 := by decide
  constructor <;>
    simp [amd64_emitf, amd64_emitf_loop, amd64_emitf_mods, amd64_emitf_emit_R, emit_register,
      EMIT_NONE, EMIT_IGNORE_MODE, be_emit_char, be_emit_string, be_emit_string_len,
      be_emit_finish_line_gas, be_emit_write_line, emit_lines, pxor_line, String.ext_iff]

theorem pxor_exchange (r0 r1 : arch_register_t) (hne : r0 ≠ r1) (regs : reg_file) :
    (perm_pxor_seq r0 r1).foldl pxor_exec regs r0 = regs r1 ∧
      (perm_pxor_seq r0 r1).foldl pxor_exec regs r1 = regs r0 ∧
      ∀ r, r ≠ r0 → r ≠ r1 → (perm_pxor_seq r0 r1).foldl pxor_exec regs r = regs r := by
  have hne' : r1 ≠ r0 := fun h => hne h.symm
  have key1 : ∀ a b : Nat, a ^^^ (b ^^^ a) = b := by
    intro a b
    rw [Nat.xor_comm b a, ← Nat.xor_assoc, Nat.xor_self, Nat.zero_xor]
  have key2 : ∀ a b : Nat, (b ^^^ a) ^^^ b = a := by
    intro a b
    rw [Nat.xor_comm b a, Nat.xor_assoc, Nat.xor_self, Nat.xor_zero]
  refine ⟨?_, ?_, ?_⟩
  · simp only [perm_pxor_seq, List.foldl_cons, List.foldl_nil, pxor_exec, if_neg hne,
      if_true, if_neg hne', key1]
  · simp only [perm_pxor_seq, List.foldl_cons, List.foldl_nil, pxor_exec, if_neg hne,
      if_true, if_neg hne', key1, key2]
  · intro r h0 h1
    simp only [perm_pxor_seq, List.foldl_cons, List.foldl_nil, pxor_exec, if_neg h0, if_neg h1]

/-- C36: for a Perm whose two output registers are of the xmm class,
`emit_be_Perm` writes the three lines `pxor r0, r1`, `pxor r1, r0`, `pxor r0, r1`;
read as destination := destination XOR source, these three instructions leave
the old contents of `r1` in `r0` and the old contents of `r0` in `r1` and change
no other register, whatever the contents are, provided `r0` and `r1` are
different registers.  For two registers of the general-purpose class it writes
the one line `xchg` with the own (64-bit) names of both. -/
theorem emit_be_Perm_exchange (env : emit_env) (st : be_emit_state) (node : ir_node) :
    ((env.arch_get_irn_register_out node 0).reg_class = .CLASS_amd64_xmm →
        (env.arch_get_irn_register_out node 1).reg_class = .CLASS_amd64_xmm →
        emit_be_Perm env st node =
            .ok (emit_lines st
              ((perm_pxor_seq (env.arch_get_irn_register_out node 0)
                (env.arch_get_irn_register_out node 1)).map (pxor_line env node))) ∧
          (env.arch_get_irn_register_out node 0 ≠ env.arch_get_irn_register_out node 1 →
            ∀ regs : reg_file,
              (perm_pxor_seq (env.arch_get_irn_register_out node 0)
                  (env.arch_get_irn_register_out node 1)).foldl pxor_exec regs
                  (env.arch_get_irn_register_out node 0) =
                regs (env.arch_get_irn_register_out node 1) ∧
              (perm_pxor_seq (env.arch_get_irn_register_out node 0)
                  (env.arch_get_irn_register_out node 1)).foldl pxor_exec regs
                  (env.arch_get_irn_register_out node 1) =
                regs (env.arch_get_irn_register_out node 0) ∧
              ∀ r, r ≠ env.arch_get_irn_register_out node 0 →
                r ≠ env.arch_get_irn_register_out node 1 →
                (perm_pxor_seq (env.arch_get_irn_register_out node 0)
                  (env.arch_get_irn_register_out node 1)).foldl pxor_exec regs r = regs r)) ∧
      ((env.arch_get_irn_register_out node 0).reg_class = .CLASS_amd64_gp →
        (env.arch_get_irn_register_out node 1).reg_class = .CLASS_amd64_gp →
        emit_be_Perm env st node =
          .ok (emit_lines st
            ["\txchg %" ++ (env.arch_get_irn_register_out node 0).name ++ ", %"
              ++ (env.arch_get_irn_register_out node 1).name ++ env.finish_line_text node])) := by
  refine ⟨?_, ?_⟩
  · intro h0 h1
    refine ⟨?_, fun hne regs => pxor_exchange _ _ hne regs⟩
    unfold emit_be_Perm
    simp only [h0, h1, ne_eq, not_true_eq_false, if_false, reduceCtorEq, if_true,
      (amd64_emitf_perm env _ node _ _).1, emit_lines_append, perm_pxor_seq, List.map_cons,
      List.map_nil, List.cons_append, List.nil_append]
  · intro h0 h1
    unfold emit_be_Perm
    simp only [h0, h1, ne_eq, not_true_eq_false, if_false, if_true,
      (amd64_emitf_perm env _ node _ _).2]

/-- Witness of C36: a Perm of `xmm0` and `xmm1`. -/
theorem emit_be_Perm_exchange_witness :
    emit_be_Perm env_perm_xmm st_empty 1 =
      .ok { lines := ["\tpxor %xmm0, %xmm1\n", "\tpxor %xmm1, %xmm0\n",
                      "\tpxor %xmm0, %xmm1\n"],
            cur := "" } :=
  ((emit_be_Perm_exchange env_perm_xmm st_empty 1).1 rfl rfl).1.trans rfl

theorem printf_d_nonneg (v : Int) (h : 0 ≤ v) : printf_d v = toString v.natAbs := by
  cases v with
  | ofNat n => rfl
  | negSucc n => exact absurd h (by simp)

theorem amd64_emitf_incsp (env : emit_env) (st : be_emit_state) (node : ir_node) (v : Int) :
    amd64_emitf env st node "subq $%d, %^D0" [.int v] =
        .ok (emit_lines st
          ["\tsubq $" ++ printf_d v ++ ", %" ++ (env.arch_get_irn_register_out node 0).name
            ++ env.finish_line_text node]) ∧
      amd64_emitf env st node "addq $%d, %^D0" [.int v] =
        .ok (emit_lines st
          ["\taddq $" ++ printf_d v ++ ", %" ++ (env.arch_get_irn_register_out node 0).name
            ++ env.finish_line_text node]) := by
  have h : (0 ||| 2) &&& 2 ≠ 0 := by decide
  constructor <;>
    simp [amd64_emitf, amd64_emitf_loop, amd64_emitf_mods, amd64_emitf_emit_R, emit_register,
      EMIT_NONE, EMIT_IGNORE_MODE, be_emit_char, be_emit_string, be_emit_string_len,
      be_emit_finish_line_gas, be_emit_write_line, emit_lines, String.ext_iff]

/-- C37, as the code has it: for an offset in the range of `int`, `emit_be_IncSP`
writes nothing when the offset is 0, the line `subq $<offs>, <reg>` when it is
positive and the line `addq $<-offs>, <reg>` when it is negative, `<reg>` being
the own name of output register 0.  The immediate is the strictly positive
magnitude of the offset for every offset but the most negative one, whose
negation is not an `int`: there the immediate is the negative number
`-2147483648`. -/
theorem emit_be_IncSP_text (env : emit_env) (g : irg_env) (st : be_emit_state) (node : ir_node)
    (hlo : -2 ^ 31 ≤ g.be_get_IncSP_offset node) (hhi : g.be_get_IncSP_offset node < 2 ^ 31) :
    (g.be_get_IncSP_offset node = 0 → emit_be_IncSP env g st node = .ok st) ∧
      (0 < g.be_get_IncSP_offset node →
        emit_be_IncSP env g st node =
            .ok (emit_lines st
              ["\tsubq $" ++ toString (g.be_get_IncSP_offset node).natAbs ++ ", %"
                ++ (env.arch_get_irn_register_out node 0).name ++ env.finish_line_text node]) ∧
          0 < (g.be_get_IncSP_offset node).natAbs) ∧
      (g.be_get_IncSP_offset node < 0 → g.be_get_IncSP_offset node ≠ -2 ^ 31 →
        emit_be_IncSP env g st node =
            .ok (emit_lines st
              ["\taddq $" ++ toString (g.be_get_IncSP_offset node).natAbs ++ ", %"
                ++ (env.arch_get_irn_register_out node 0).name ++ env.finish_line_text node]) ∧
          0 < (g.be_get_IncSP_offset node).natAbs) ∧
      (g.be_get_IncSP_offset node = -2 ^ 31 →
        emit_be_IncSP env g st node =
          .ok (emit_lines st
            ["\taddq $-2147483648, %" ++ (env.arch_get_irn_register_out node 0).name
              ++ env.finish_line_text node])) := by
  refine ⟨?_, ?_, ?_, ?_⟩
  · intro h
    unfold emit_be_IncSP
    simp [h]
  · intro h
    have hne : g.be_get_IncSP_offset node ≠ 0 := by omega
    refine ⟨?_, by omega⟩
    unfold emit_be_IncSP
    simp only [hne, if_false, h, if_true, gt_iff_lt, (amd64_emitf_incsp env st node _).1]
    rw [printf_d_nonneg _ (le_of_lt h)]
  · intro h hmin
    have hne : g.be_get_IncSP_offset node ≠ 0 := by omega
    have hnp : ¬ 0 < g.be_get_IncSP_offset node := by omega
    refine ⟨?_, by omega⟩
    have hw : wrap_int (-g.be_get_IncSP_offset node) = -g.be_get_IncSP_offset node := by
      unfold wrap_int
      norm_num at hlo hhi hmin ⊢
      omega
    have hp : printf_d (-g.be_get_IncSP_offset node) =
        toString (g.be_get_IncSP_offset node).natAbs := by
      rw [printf_d_nonneg _ (by omega), Int.natAbs_neg]
    unfold emit_be_IncSP
    simp only [hne, if_false, hnp, gt_iff_lt, (amd64_emitf_incsp env st node _).2, hw, hp]
  · intro h
    unfold emit_be_IncSP
    have hw : wrap_int (-g.be_get_IncSP_offset node) = -2147483648 := by
      rw [h]
      decide
    have hne : g.be_get_IncSP_offset node ≠ 0 := by
      rw [h]
      decide
    have hnp : ¬ 0 < g.be_get_IncSP_offset node := by
      rw [h]
      decide
    simp only [hne, if_false, hnp, gt_iff_lt, (amd64_emitf_incsp env st node _).2, hw]
    rfl

/-- Witness of C37 on the demo graph, whose `IncSP` offset is 16. -/
theorem emit_be_IncSP_text_witness :
    emit_be_IncSP env_mov irg_demo st_empty 1 =
      .ok { lines := ["\tsubq $16, %rax\n"], cur := "" } :=
  ((emit_be_IncSP_text env_mov irg_demo st_empty 1 (by decide) (by decide)).2.1
      (by decide)).1.trans rfl

/-- C37 as stated fails for the most negative offset: the offset `-2147483648` is
in the range of `int`, and the immediate written is negative. -/
theorem emit_be_IncSP_text_counterexample :
    irg_incsp_min.be_get_IncSP_offset 1 = -2 ^ 31 ∧
      emit_be_IncSP env_mov irg_incsp_min st_empty 1 =
        .ok { lines := ["\taddq $-2147483648, %rax\n"], cur := "" } := by
  constructor
  · decide
  · rfl

theorem amd64_emitf_copy (env : emit_env) (st : be_emit_state) (irn : ir_node) :
    amd64_emitf env st irn "movapd %^S0, %^D0" [] =
        .ok (emit_lines st
          ["\tmovapd %" ++ (env.arch_get_irn_register_in irn 0).name ++ ", %"
            ++ (env.arch_get_irn_register_out irn 0).name ++ env.finish_line_text irn]) ∧
      amd64_emitf env st irn "mov %^S0, %^D0" [] =
        .ok (emit_lines st
          ["\tmov %" ++ (env.arch_get_irn_register_in irn 0).name ++ ", %"
            ++ (env.arch_get_irn_register_out irn 0).name ++ env.finish_line_text irn]) := by
  have h : (0 ||| 2) &&& 2 ≠ 0 := by decide
  constructor <;>
    simp [amd64_emitf, amd64_emitf_loop, amd64_emitf_mods, amd64_emitf_emit_R, emit_register,
      EMIT_NONE, EMIT_IGNORE_MODE, be_emit_char, be_emit_string, be_emit_string_len,
      be_emit_finish_line_gas, be_emit_write_line, emit_lines, String.ext_iff]

/-- C38: `emit_be_Copy` succeeds without writing anything exactly when input
register 0 and output register 0 are the same register.  When they differ it
writes one line, source first and both registers by their own names: `movapd`
for a float mode, `mov` for another data mode; for a mode that is neither it is
the fatal error `move not supported for this mode`. -/
theorem emit_be_Copy_text (env : emit_env) (g : irg_env) (st : be_emit_state) (irn : ir_node) :
    (emit_be_Copy env g st irn = .ok st ↔
        env.arch_get_irn_register_in irn 0 = env.arch_get_irn_register_out irn 0) ∧
      (env.arch_get_irn_register_in irn 0 ≠ env.arch_get_irn_register_out irn 0 →
        g.mode_is_float (g.get_irn_mode irn) = true →
        emit_be_Copy env g st irn =
          .ok (emit_lines st
            ["\tmovapd %" ++ (env.arch_get_irn_register_in irn 0).name ++ ", %"
              ++ (env.arch_get_irn_register_out irn 0).name ++ env.finish_line_text irn])) ∧
      (env.arch_get_irn_register_in irn 0 ≠ env.arch_get_irn_register_out irn 0 →
        g.mode_is_float (g.get_irn_mode irn) = false →
        g.mode_is_data (g.get_irn_mode irn) = true →
        emit_be_Copy env g st irn =
          .ok (emit_lines st
            ["\tmov %" ++ (env.arch_get_irn_register_in irn 0).name ++ ", %"
              ++ (env.arch_get_irn_register_out irn 0).name ++ env.finish_line_text irn])) ∧
      (env.arch_get_irn_register_in irn 0 ≠ env.arch_get_irn_register_out irn 0 →
        g.mode_is_float (g.get_irn_mode irn) = false →
        g.mode_is_data (g.get_irn_mode irn) = false →
        emit_be_Copy env g st irn =
          .error { msg := "move not supported for this mode", st := st }) := by
  have e1 : env.arch_get_irn_register_in irn 0 ≠ env.arch_get_irn_register_out irn 0 →
      g.mode_is_float (g.get_irn_mode irn) = true →
      emit_be_Copy env g st irn =
        .ok (emit_lines st
          ["\tmovapd %" ++ (env.arch_get_irn_register_in irn 0).name ++ ", %"
            ++ (env.arch_get_irn_register_out irn 0).name ++ env.finish_line_text irn]) := by
    intro hne hf
    unfold emit_be_Copy
    simp only [hne, if_false, hf, if_true, (amd64_emitf_copy env st irn).1]
  have e2 : env.arch_get_irn_register_in irn 0 ≠ env.arch_get_irn_register_out irn 0 →
      g.mode_is_float (g.get_irn_mode irn) = false →
      g.mode_is_data (g.get_irn_mode irn) = true →
      emit_be_Copy env g st irn =
        .ok (emit_lines st
          ["\tmov %" ++ (env.arch_get_irn_register_in irn 0).name ++ ", %"
            ++ (env.arch_get_irn_register_out irn 0).name ++ env.finish_line_text irn]) := by
    intro hne hf hd
    unfold emit_be_Copy
    simp only [hne, if_false, hf, hd, if_true, (amd64_emitf_copy env st irn).2,
      Bool.false_eq_true]
  have e3 : env.arch_get_irn_register_in irn 0 ≠ env.arch_get_irn_register_out irn 0 →
      g.mode_is_float (g.get_irn_mode irn) = false →
      g.mode_is_data (g.get_irn_mode irn) = false →
      emit_be_Copy env g st irn =
        .error { msg := "move not supported for this mode", st := st } := by
    intro hne hf hd
    unfold emit_be_Copy
    simp only [hne, if_false, hf, hd, Bool.false_eq_true]
    rfl
  refine ⟨?_, e1, e2, e3⟩
  constructor
  · intro h
    by_contra hne
    cases hf : g.mode_is_float (g.get_irn_mode irn) with
    | true =>
      rw [e1 hne hf] at h
      exact emit_lines_ne_self st _ _ (Except.ok.inj h).symm
    | false =>
      cases hd : g.mode_is_data (g.get_irn_mode irn) with
      | true =>
        rw [e2 hne hf hd] at h
        exact emit_lines_ne_self st _ _ (Except.ok.inj h).symm
      | false =>
        rw [e3 hne hf hd] at h
        exact absurd h (by simp)
  · intro h
    unfold emit_be_Copy
    simp only [h, if_true]

/-- Witness of C38 on the function of moves: the copy of node 1 from `%rcx` to
`%rax` in a data mode that is no float mode. -/
theorem emit_be_Copy_text_witness :
    emit_be_Copy env_mov irg_demo st_empty 1 =
      .ok { lines := ["\tmov %rcx, %rax\n"], cur := "" } :=
  ((emit_be_Copy_text env_mov irg_demo st_empty 1).2.2.1 (by decide) rfl rfl).trans rfl

/-- The three names of the general-purpose register with a given ordinal. -/
theorem gp_names_of_index (r : arch_register_t) :
    get_8bit_name r = get_8bit_name { name := "", index := r.index, reg_class := .CLASS_amd64_gp } ∧
      get_16bit_name r =
        get_16bit_name { name := "", index := r.index, reg_class := .CLASS_amd64_gp } ∧
      get_32bit_name r =
        get_32bit_name { name := "", index := r.index, reg_class := .CLASS_amd64_gp } :=
  ⟨rfl, rfl, rfl⟩

set_option maxRecDepth 100000 in
theorem gp_names_table :
    ∀ i ∈ gp_ordinals, ∀ j ∈ gp_ordinals,
      (get_8bit_name { name := "", index := i, reg_class := .CLASS_amd64_gp } =
          get_8bit_name { name := "", index := j, reg_class := .CLASS_amd64_gp } → i = j) ∧
        (get_16bit_name { name := "", index := i, reg_class := .CLASS_amd64_gp } =
          get_16bit_name { name := "", index := j, reg_class := .CLASS_amd64_gp } → i = j) ∧
        (get_32bit_name { name := "", index := i, reg_class := .CLASS_amd64_gp } =
          get_32bit_name { name := "", index := j, reg_class := .CLASS_amd64_gp } → i = j) ∧
        get_8bit_name { name := "", index := i, reg_class := .CLASS_amd64_gp } ≠
          get_16bit_name { name := "", index := j, reg_class := .CLASS_amd64_gp } ∧
        get_8bit_name { name := "", index := i, reg_class := .CLASS_amd64_gp } ≠
          get_32bit_name { name := "", index := j, reg_class := .CLASS_amd64_gp } ∧
        get_16bit_name { name := "", index := i, reg_class := .CLASS_amd64_gp } ≠
          get_32bit_name { name := "", index := j, reg_class := .CLASS_amd64_gp } := by
  decide

/-- C39: over the sixteen defined general-purpose ordinals each of the name
tables of 8, 16 and 32 bits is injective (two registers with the same name at a
width have the same ordinal), and no name of one of these widths is a name of
another of them. -/
theorem gp_register_names_injective (r1 r2 : arch_register_t)
    (h1 : r1.index ∈ gp_ordinals) (h2 : r2.index ∈ gp_ordinals) :
    (get_8bit_name r1 = get_8bit_name r2 → r1.index = r2.index) ∧
      (get_16bit_name r1 = get_16bit_name r2 → r1.index = r2.index) ∧
      (get_32bit_name r1 = get_32bit_name r2 → r1.index = r2.index) ∧
      get_8bit_name r1 ≠ get_16bit_name r2 ∧
      get_8bit_name r1 ≠ get_32bit_name r2 ∧
      get_16bit_name r1 ≠ get_32bit_name r2 := by
  obtain ⟨a1, a2, a3⟩ := gp_names_of_index r1
  obtain ⟨b1, b2, b3⟩ := gp_names_of_index r2
  rw [a1, a2, a3, b1, b2, b3]
  exact gp_names_table r1.index h1 r2.index h2

/-- Witness of C39: the 8-bit name of `r8` is no 16-bit name of the register
`rcx`, and they do not share their 8-bit name. -/
theorem gp_register_names_injective_witness :
    get_8bit_name reg_r8 ≠
        get_16bit_name { name := "rcx", index := REG_GP_RCX, reg_class := .CLASS_amd64_gp } ∧
      (get_8bit_name reg_r8 =
          get_8bit_name { name := "rcx", index := REG_GP_RCX, reg_class := .CLASS_amd64_gp } →
        reg_r8.index = REG_GP_RCX) :=
  ⟨(gp_register_names_injective reg_r8
      { name := "rcx", index := REG_GP_RCX, reg_class := .CLASS_amd64_gp }
      (by decide) (by decide)).2.2.2.1,
   (gp_register_names_injective reg_r8
      { name := "rcx", index := REG_GP_RCX, reg_class := .CLASS_amd64_gp }
      (by decide) (by decide)).1⟩

end Amd64
